import Mathlib

/-!
# ServiceDirectory, TransportSocketCache, ServiceBoundObject and signals (libqi)

A shallow embedding of `src/messaging/servicedirectory.cpp`, of
`src/messaging/transportsocketcache.cpp`, of the message path and the event
subscriptions of `src/messaging/boundobject.cpp`, of the subscribers of
`src/type/signal.cpp` and of `ListTypeInterface::element`, with theorems about the
registration protocol of the directory, the connection races of the socket cache, the
replies and cancellations of the bound object, and the connection and disconnection
of signal subscribers.

Conventions of the embedding:

* `std::map<K, V>` is a list of key/value pairs kept in key order;
  `find`, `operator[] =` and `erase` are `StdMap.find`, `StdMap.assign`
  and `StdMap.erase`.
* `unsigned int` is a natural number below `2 ^ 32`; `++` wraps. The counter of an
  `Atomic<int>` is an integer wrapped to 32 bits by `wrapInt`.
* `TransportSocketPtr` is the address held by the pointer, `0` being null.
* A C++ exception is the `Except.error` of the returned pair; the state of
  the pair is the state of the object when the exception leaves the method.
* The emissions of the signals `serviceAdded` and `serviceRemoved` are
  appended to the field `emitted` of the directory.
* A `qi::Promise` or `qi::Future` is the handle of its shared cell; the cells of the
  promises of the socket cache are kept in the field `promises` of the cache.
* What a method does to its collaborators (calls on sockets, messages sent, calls of
  `cancel()`, calls dispatched to the object) is appended to trace fields of the
  state; what the collaborators answer is an argument of the method.
* The calls of the hook `onSubscribers` of a signal are appended to the field `hooks`;
  a thread is the number of its `boost::thread::id`.
* Methods run one at a time: a method is a function from state to state.
-/

namespace Qi

/-! ## std::map -/

/-- Entries of a `std::map`, in iteration order. -/
abbrev StdMap (K : Type) (V : Type) := List (K × V)

/-- Comparison of two `std::string` by `operator<`: lexicographic on the characters. -/
def stringLess : List Char → List Char → Bool
  | [], [] => false
  | [], _ :: _ => true
  | _ :: _, [] => false
  | a :: as, b :: bs =>
    if a.toNat < b.toNat then true
    else if b.toNat < a.toNat then false
    else stringLess as bs

/-- Ordering `std::less<K>` of the keys of a `std::map`. -/
class StdLess (K : Type) where
  less : K → K → Bool

instance : StdLess Nat := ⟨fun a b => decide (a < b)⟩

instance : StdLess String := ⟨fun a b => stringLess a.data b.data⟩

namespace StdMap

variable {K V : Type}

/-- Value of `m.find(k)`: `none` stands for `m.end()`. -/
def find [DecidableEq K] : StdMap K V → K → Option V
  | [], _ => none
  | (k', v) :: t, k => if k' = k then some v else find t k

/-- The map after `m[k] = v`: the value of an existing key is replaced, a new key
is inserted at its place in key order. -/
def assign [DecidableEq K] [StdLess K] : StdMap K V → K → V → StdMap K V
  | [], k, v => [(k, v)]
  | (k', v') :: t, k, v =>
    if k' = k then (k, v) :: t
    else if StdLess.less k k' then (k, v) :: (k', v') :: t
    else (k', v') :: assign t k v

/-- The map after `m.erase(k)` (or `m.erase(m.find(k))`). -/
def erase [DecidableEq K] (m : StdMap K V) (k : K) : StdMap K V :=
  m.filter (fun e => decide (e.1 ≠ k))

end StdMap

/-! ## Data model -/

/-- Modelled from the spec: the class `qi::Url` (declared in `qi/url.hpp`, not part
of the sources at hand), "scheme-prefixed: `tcp://host:port`", as the record of the
observers that the code calls: `str()`, `protocol()`, `host()`, `port()` and
`isValid()`. -/
structure Url where
  str : String
  protocol : String
  host : String
  port : Nat
  isValid : Bool
  deriving DecidableEq, Repr

/-- Modelled from the spec: the class `qi::ServiceInfo` (declared in
`qi/messaging/serviceinfo.hpp`, not part of the sources at hand), "a record with:
service name, numeric service-id assigned at registration, machine identifier,
process identifier, session identifier, ordered list of endpoint URLs". -/
structure ServiceInfo where
  name : String
  serviceId : Nat
  machineId : String
  processId : Nat
  sessionId : String
  endpoints : List Url
  deriving DecidableEq, Repr

/-- Address held by a `TransportSocketPtr`; `0` is the null pointer. -/
abbrev TransportSocketPtr := Nat

/-- One emission of a signal of the directory. -/
inductive Emission where
  | serviceAdded (idx : Nat) (name : String)
  | serviceRemoved (idx : Nat) (name : String)
  deriving DecidableEq, Repr

/-- Members of `qi::ServiceDirectory`, with the trace of its signals. -/
structure ServiceDirectory where
  connectedServices : StdMap Nat ServiceInfo
  pendingServices : StdMap Nat ServiceInfo
  nameToIdx : StdMap String Nat
  socketToIdx : StdMap TransportSocketPtr (List Nat)
  idxToSocket : StdMap Nat TransportSocketPtr
  servicesCount : Nat
  emitted : List Emission
  deriving DecidableEq, Repr

/-- Modelled from the spec: the constant `qi::Message::Service_ServiceDirectory`
(declared in `qi/messaging/message.hpp`, not part of the sources at hand);
"Service id `1` is the ServiceDirectory". -/
def Service_ServiceDirectory : Nat := 1

/-- Number of values of an `unsigned int`. -/
def UINT_RANGE : Nat := 2 ^ 32

/-- State built by `ServiceDirectory::ServiceDirectory()`. -/
def ServiceDirectory.init : ServiceDirectory :=
  { connectedServices := [], pendingServices := [], nameToIdx := [],
    socketToIdx := [], idxToSocket := [], servicesCount := 0, emitted := [] }

/-- Test `boost::algorithm::starts_with(s, pre)`. -/
def starts_with (s pre : String) : Bool := pre.data.isPrefixOf s.data

/-! ## ServiceDirectory -/

namespace ServiceDirectory

/-- Method `ServiceDirectory::services()`: the records of `connectedServices`, in
iteration order. -/
def services (s : ServiceDirectory) : List ServiceInfo :=
  s.connectedServices.map Prod.snd

/-- Method `ServiceDirectory::service(name)`. -/
def service (s : ServiceDirectory) (name : String) : Except String ServiceInfo :=
  match s.nameToIdx.find name with
  | none => .error ("Cannot find service '" ++ name ++ "' in index")
  | some idx =>
    match s.connectedServices.find idx with
    | none => .error ("Cannot find ServiceInfo for service '" ++ name ++ "'")
    | some info => .ok info

/-- Method `ServiceDirectory::registerService(svcinfo)`. The argument `sbo` is the
result of `serviceBoundObject.lock()`: `none` when the bound object has expired,
otherwise its `currentSocket()`. -/
def registerService (s : ServiceDirectory) (sbo : Option TransportSocketPtr)
    (svcinfo : ServiceInfo) : Except String Nat × ServiceDirectory :=
  match sbo with
  | none => (.error "ServiceBoundObject has expired.", s)
  | some socket =>
    match s.nameToIdx.find svcinfo.name with
    | some old =>
      (.error ("Service \"" ++ svcinfo.name ++ "\" (#" ++ toString old
          ++ ") is already registered. Rejecting conflicting registration attempt."), s)
    | none =>
      let idx := (s.servicesCount + 1) % UINT_RANGE
      (.ok idx,
        { s with
          servicesCount := idx
          nameToIdx := s.nameToIdx.assign svcinfo.name idx
          socketToIdx :=
            if idx ≠ Service_ServiceDirectory then
              s.socketToIdx.assign socket (((s.socketToIdx.find socket).getD []) ++ [idx])
            else s.socketToIdx
          pendingServices := s.pendingServices.assign idx { svcinfo with serviceId := idx }
          idxToSocket := s.idxToSocket.assign idx socket })

/-- End of `unregisterService`, once the record of `idx` has been found:
`pending` tells whether it was found in `pendingServices`. -/
def unregisterFound (s : ServiceDirectory) (idx : Nat) (pending : Bool)
    (info : ServiceInfo) : Except String Unit × ServiceDirectory :=
  let serviceName := info.name
  match s.nameToIdx.find serviceName with
  | none =>
    (.error ("Unregister Service: Mapping error, service #" ++ toString idx ++ " ("
        ++ serviceName ++ ") not in nameToIdx"), s)
  | some _ =>
    (.ok (),
      { s with
        nameToIdx := s.nameToIdx.erase serviceName
        pendingServices := if pending then s.pendingServices.erase idx else s.pendingServices
        connectedServices :=
          if pending then s.connectedServices else s.connectedServices.erase idx
        socketToIdx := s.socketToIdx.map (fun e => (e.1, e.2.erase idx))
        emitted :=
          if !starts_with serviceName "_" then
            s.emitted ++ [Emission.serviceRemoved idx serviceName]
          else s.emitted })

/-- Method `ServiceDirectory::unregisterService(idx)`. -/
def unregisterService (s : ServiceDirectory) (idx : Nat) :
    Except String Unit × ServiceDirectory :=
  match s.connectedServices.find idx with
  | some info => unregisterFound s idx false info
  | none =>
    match s.pendingServices.find idx with
    | some info => unregisterFound s idx true info
    | none => (.error ("Unregister Service: Can't find service #" ++ toString idx), s)

/-- Method `ServiceDirectory::updateServiceInfo(svcinfo)`. The endpoints of the
connected services of the same session are replaced before the record is looked up,
so they stay replaced when the method throws. -/
def updateServiceInfo (s : ServiceDirectory) (svcinfo : ServiceInfo) :
    Except String Unit × ServiceDirectory :=
  let connected : StdMap Nat ServiceInfo := s.connectedServices.map (fun e =>
    if svcinfo.sessionId = e.2.sessionId then
      (e.1, { e.2 with endpoints := svcinfo.endpoints })
    else e)
  match StdMap.find connected svcinfo.serviceId with
  | some _ =>
    (.ok (), { s with connectedServices := StdMap.assign connected svcinfo.serviceId svcinfo })
  | none =>
    match s.pendingServices.find svcinfo.serviceId with
    | some _ =>
      (.ok (),
        { s with
          connectedServices := connected
          pendingServices := s.pendingServices.assign svcinfo.serviceId svcinfo })
    | none =>
      (.error ("updateServiceInfo: Can't find service #" ++ toString svcinfo.serviceId),
        { s with connectedServices := connected })

/-- Method `ServiceDirectory::serviceReady(idx)`. -/
def serviceReady (s : ServiceDirectory) (idx : Nat) : Except String Unit × ServiceDirectory :=
  match s.pendingServices.find idx with
  | none => (.error ("Can't find pending service #" ++ toString idx), s)
  | some info =>
    let serviceName := info.name
    (.ok (),
      { s with
        connectedServices := s.connectedServices.assign idx info
        pendingServices := s.pendingServices.erase idx
        emitted :=
          if !starts_with serviceName "_" then
            s.emitted ++ [Emission.serviceAdded idx serviceName]
          else s.emitted })

/-- Loop of `onSocketDisconnected` over the copy `ids` of the ids of the socket:
`unregisterService` is called on each and its exceptions are swallowed. -/
def unregisterAll (s : ServiceDirectory) (ids : List Nat) : ServiceDirectory :=
  ids.foldl (fun acc idx => (unregisterService acc idx).2) s

/-- Method `ServiceDirectory::onSocketDisconnected(socket, error)`. -/
def onSocketDisconnected (s : ServiceDirectory) (socket : TransportSocketPtr) :
    ServiceDirectory :=
  let s1 := { s with idxToSocket := s.idxToSocket.filter (fun e => decide (e.2 ≠ socket)) }
  match s1.socketToIdx.find socket with
  | none => s1
  | some ids =>
    let s2 := unregisterAll s1 ids
    { s2 with socketToIdx := s2.socketToIdx.erase socket }

/-- Method `ServiceDirectory::_socketOfService(id)`; `0` is the null pointer. -/
def _socketOfService (s : ServiceDirectory) (id : Nat) : TransportSocketPtr :=
  match s.idxToSocket.find id with
  | none => 0
  | some socket => socket

end ServiceDirectory

/-! ## Vocabulary of the statements -/

/-- The record that `unregisterService(idx)` works on: the one of
`connectedServices` when there is one, else the one of `pendingServices`. -/
def ServiceDirectory.record (s : ServiceDirectory) (idx : Nat) : Option ServiceInfo :=
  match s.connectedServices.find idx with
  | some info => some info
  | none => s.pendingServices.find idx

/-- A service that is not announced: its name starts with an underscore. -/
def hidden (name : String) : Bool := starts_with name "_"

/-- The call failed with an exception. -/
def failed {α : Type} (r : Except String α) : Prop := ∃ e, r = Except.error e

/-- A record with the given name and endpoints, as a client sends it to
`registerService`. -/
def mkInfo (name : String) (endpoints : List Url) : ServiceInfo :=
  { name := name, serviceId := 0, machineId := "m", processId := 1, sessionId := "s",
    endpoints := endpoints }

/-- Url `tcp://host:port`. -/
def tcpUrl (host : String) (port : Nat) : Url :=
  { str := "tcp://" ++ host ++ ":" ++ toString port, protocol := "tcp", host := host,
    port := port, isValid := true }

/-- Directory in which `svc1` has been registered through socket 5 and not made
ready yet. -/
def svc1Pending : ServiceDirectory :=
  (ServiceDirectory.registerService ServiceDirectory.init (some 5) (mkInfo "svc1" [])).2

/-- Directory in which `svc1` has been registered through socket 5 and made ready. -/
def svc1Ready : ServiceDirectory := (ServiceDirectory.serviceReady svc1Pending 1).2

/-- Update of the endpoints made by the first loop of `updateServiceInfo`. -/
def ServiceDirectory.withEndpoints (svcinfo : ServiceInfo) (r : ServiceInfo) : ServiceInfo :=
  if svcinfo.sessionId = r.sessionId then { r with endpoints := svcinfo.endpoints } else r

/-- A record is stored under `idx`, in `pendingServices` or in `connectedServices`. -/
def ServiceDirectory.stored (s : ServiceDirectory) (idx : Nat) : Prop :=
  s.pendingServices.find idx ≠ none ∨ s.connectedServices.find idx ≠ none

/-- No id is a key of both maps, and the keys of both maps are at most the id
counter. -/
def ServiceDirectory.KeysInv (s : ServiceDirectory) : Prop :=
  (∀ idx, s.stored idx → idx ≤ s.servicesCount) ∧
    ∀ idx, ¬ (s.pendingServices.find idx ≠ none ∧ s.connectedServices.find idx ≠ none)

/-- The record stored under a key has that key as `serviceId`. -/
def ServiceDirectory.IdInv (s : ServiceDirectory) : Prop :=
  ∀ idx info, s.pendingServices.find idx = some info ∨ s.connectedServices.find idx = some info →
    info.serviceId = idx

/-- The name index is consistent with the stored records: the name of every record
stored under an id, pending or connected, is mapped to that id. -/
def ServiceDirectory.NameInv (s : ServiceDirectory) : Prop :=
  ∀ idx info, s.pendingServices.find idx = some info ∨ s.connectedServices.find idx = some info →
    s.nameToIdx.find info.name = some idx

/-- No id is a key of both `pendingServices` and `connectedServices`. -/
def ServiceDirectory.Disjoint (s : ServiceDirectory) : Prop :=
  ∀ idx, ¬ (s.pendingServices.find idx ≠ none ∧ s.connectedServices.find idx ≠ none)

/-- What a successful `unregisterService(idx)` emits in state `s`: one
`serviceRemoved` when the record of `idx` is not hidden. -/
def ServiceDirectory.removalOf (s : ServiceDirectory) (idx : Nat) : List Emission :=
  match s.record idx with
  | some info => if hidden info.name then [] else [Emission.serviceRemoved idx info.name]
  | none => []

/-- Emissions expected of the loop of `onSocketDisconnected` over `ids`: those of
the successive calls of `unregisterService`. -/
def ServiceDirectory.removals (s : ServiceDirectory) : List Nat → List Emission
  | [] => []
  | idx :: rest =>
    s.removalOf idx ++ ServiceDirectory.removals (s.unregisterService idx).2 rest

/-! ## Sequences of calls on a directory -/

/-- One call on the directory, by a client (through the bound object) or by the
bound object itself when a socket disconnects. -/
inductive Call where
  | registerService (sbo : Option TransportSocketPtr) (svcinfo : ServiceInfo)
  | serviceReady (idx : Nat)
  | unregisterService (idx : Nat)
  | updateServiceInfo (svcinfo : ServiceInfo)
  | onSocketDisconnected (socket : TransportSocketPtr)
  deriving DecidableEq, Repr

/-- Ids on which `unregisterService` succeeds in the loop of `onSocketDisconnected`
over `ids`, started in state `s`. -/
def unregisteredIn (s : ServiceDirectory) : List Nat → List Nat
  | [] => []
  | idx :: rest =>
    (match (ServiceDirectory.unregisterService s idx).1 with
      | .ok _ => [idx]
      | .error _ => []) ++ unregisteredIn (ServiceDirectory.unregisterService s idx).2 rest

/-- Ids unregistered by `onSocketDisconnected(socket)` called in state `s`. -/
def unregisteredBy (s : ServiceDirectory) (socket : TransportSocketPtr) : List Nat :=
  match s.socketToIdx.find socket with
  | none => []
  | some ids =>
    unregisteredIn
      { s with idxToSocket := s.idxToSocket.filter (fun e => decide (e.2 ≠ socket)) } ids

/-- The directory after one call. -/
def call (s : ServiceDirectory) : Call → ServiceDirectory
  | .registerService sbo svcinfo => (ServiceDirectory.registerService s sbo svcinfo).2
  | .serviceReady idx => (ServiceDirectory.serviceReady s idx).2
  | .unregisterService idx => (ServiceDirectory.unregisterService s idx).2
  | .updateServiceInfo svcinfo => (ServiceDirectory.updateServiceInfo s svcinfo).2
  | .onSocketDisconnected socket => ServiceDirectory.onSocketDisconnected s socket

/-- The id that the call returns to its caller: the result of a successful
`registerService`. -/
def returnedBy (s : ServiceDirectory) : Call → List Nat
  | .registerService sbo svcinfo =>
    match (ServiceDirectory.registerService s sbo svcinfo).1 with
    | .ok idx => [idx]
    | .error _ => []
  | _ => []

/-- The ids that the call unregisters: the argument of a successful
`unregisterService`, and the ids on which `onSocketDisconnected` calls it with
success. -/
def removedBy (s : ServiceDirectory) : Call → List Nat
  | .unregisterService idx =>
    match (ServiceDirectory.unregisterService s idx).1 with
    | .ok _ => [idx]
    | .error _ => []
  | .onSocketDisconnected socket => unregisteredBy s socket
  | _ => []

/-- A directory together with what its callers have observed: the ids returned by the
successful calls of `registerService`, oldest first, and those of them that no
successful `unregisterService` has removed since. -/
structure History where
  state : ServiceDirectory
  returned : List Nat
  live : List Nat
  deriving DecidableEq, Repr

/-- History of a directory that has just been constructed. -/
def History.init : History := { state := ServiceDirectory.init, returned := [], live := [] }

/-- Effect of one call. -/
def History.step (h : History) (c : Call) : History :=
  { state := call h.state c
    returned := h.returned ++ returnedBy h.state c
    live := (h.live ++ returnedBy h.state c).filter (fun i => decide (i ∉ removedBy h.state c)) }

/-- History after a sequence of calls on a directory that has just been constructed. -/
def exec (calls : List Call) : History := calls.foldl History.step History.init

/-- Directory after a sequence of calls on a directory that has just been
constructed. -/
def run (calls : List Call) : ServiceDirectory := calls.foldl call ServiceDirectory.init

/-! ## Wrap of the id counter -/

/-- A hidden service that is registered and dropped to use up one id. -/
def tmpInfo : ServiceInfo := mkInfo "_tmp" []

/-- Registration of `tmpInfo` through socket 7, then loss of socket 7. -/
def churnCalls : List Call :=
  [Call.registerService (some 7) tmpInfo, Call.onSocketDisconnected 7]

/-- The calls of `churnCalls`, `n` times over. -/
def churn : Nat → List Call
  | 0 => []
  | n + 1 => churnCalls ++ churn n

/-- The maps of the directory leave room for a registration of `tmpInfo` through
socket 7. -/
def Clean (s : ServiceDirectory) : Prop :=
  s.nameToIdx.find "_tmp" = none ∧ (∀ e ∈ s.idxToSocket, e.2 ≠ 7) ∧ s.socketToIdx.find 7 = none

/-- The id `idx` is not `1` and appears nowhere in the maps of the directory. -/
def Free (s : ServiceDirectory) (idx : Nat) : Prop :=
  idx ≠ 1 ∧ s.pendingServices.find idx = none ∧ s.connectedServices.find idx = none ∧
    s.idxToSocket.find idx = none ∧ ∀ e ∈ s.socketToIdx, idx ∉ e.2

/-- First registration on a new directory, id counter then brought to its last
value: `2 ^ 32 - 1` registrations succeed. -/
def wrapCalls : List Call :=
  [Call.registerService (some 0) (mkInfo "ServiceDirectory" [])] ++ churn (2 ^ 32 - 2)

/-- The directory registers itself and is made ready, the id counter is brought
back to `0`, and a service `b` is registered. -/
def collideCalls : List Call :=
  [Call.registerService (some 0) (mkInfo "ServiceDirectory" []), Call.serviceReady 1]
    ++ churn (2 ^ 32 - 1) ++ [Call.registerService (some 5) (mkInfo "b" [])]

/-- Service `a` is registered and made ready, then `updateServiceInfo` is called
for its id with a record named `b`. -/
def renameCalls : List Call :=
  [Call.registerService (some 5) (mkInfo "a" []), Call.serviceReady 1,
    Call.updateServiceInfo { mkInfo "b" [] with serviceId := 1 }]

/-- The directory registers itself and is made ready; services `a` and `_b` are
registered through socket 5, `a` is made ready and `_b` is unregistered. -/
def sampleCalls : List Call :=
  [Call.registerService (some 0) (mkInfo "ServiceDirectory" []), Call.serviceReady 1,
    Call.registerService (some 5) (mkInfo "a" []),
    Call.registerService (some 5) (mkInfo "a" []),
    Call.registerService (some 5) (mkInfo "_b" []), Call.serviceReady 2,
    Call.unregisterService 3]

/-- The directory registers itself and is made ready; `a` and `_b` are registered
through socket 5 and `c` through socket 6; `a` and `c` are made ready. -/
def twoSockets : ServiceDirectory :=
  run [Call.registerService (some 0) (mkInfo "ServiceDirectory" []), Call.serviceReady 1,
    Call.registerService (some 5) (mkInfo "a" []),
    Call.registerService (some 5) (mkInfo "_b" []),
    Call.registerService (some 6) (mkInfo "c" []), Call.serviceReady 2, Call.serviceReady 4]

/-! ## TransportSocketCache: choice of the endpoints -/

/-- Value of `s.substr(pos, n)`. -/
def substr (s : String) (pos n : Nat) : String := String.mk ((s.data.drop pos).take n)

/-- Function `is_localhost(url)`: `host.compare(0, n, lit) == 0` compares the first
`n` characters of the host with the literal. -/
def is_localhost (url : Url) : Bool :=
  decide (substr url.host 0 4 = "127.") || decide (substr url.host 0 9 = "localhost")

/-- Function `is_not_localhost(url)`. -/
def is_not_localhost (url : Url) : Bool := !is_localhost url

/-- Function `localhost_only(input)`. -/
def localhost_only (input : List Url) : List Url :=
  input.filter (fun url => starts_with url.host "127." || decide (url.host = "localhost"))

/-- Loop of `TransportSocketCache::socket` over `sortedEndpoints`: the urls pushed
to `endpoints`; the loop is left at the first loopback url of the asked protocol. -/
def filterEndpoints (protocol : String) : List Url → List Url
  | [] => []
  | url :: rest =>
    if !url.isValid then filterEndpoints protocol rest
    else if decide (substr url.host 0 4 = "127.") || decide (url.host = "localhost") then
      if decide (protocol = "") || decide (url.protocol = protocol) then [url]
      else filterEndpoints protocol rest
    else url :: filterEndpoints protocol rest

/-- Value of `sortedEndpoints` in `TransportSocketCache::socket` when the loop
starts. `stdPartition` is `std::partition`, whose order inside the two groups is
left open by the standard; `self` is `qi::os::getMachineId()`. -/
def sortedEndpoints (stdPartition : (Url → Bool) → List Url → List Url) (self : String)
    (servInfo : ServiceInfo) : List Url :=
  if servInfo.machineId = self then
    if (localhost_only servInfo.endpoints).length = 0 then servInfo.endpoints
    else localhost_only servInfo.endpoints
  else stdPartition is_not_localhost servInfo.endpoints

/-- Value of `endpoints` in `TransportSocketCache::socket(servInfo, protocol)` when
the cache is looked up: the endpoints kept for the connection. -/
def socketEndpoints (stdPartition : (Url → Bool) → List Url → List Url) (self : String)
    (servInfo : ServiceInfo) (protocol : String) : List Url :=
  let sorted := sortedEndpoints stdPartition self servInfo
  let endpoints := filterEndpoints protocol sorted
  if endpoints.isEmpty && decide (servInfo.machineId = self) && !servInfo.endpoints.isEmpty then
    endpoints ++ sorted.head?.toList
  else endpoints

/-- Test of the host made by the loop of `TransportSocketCache::socket`. -/
def isLoopback (url : Url) : Bool :=
  decide (substr url.host 0 4 = "127.") || decide (url.host = "localhost")

/-- A url whose host "starts with `127.` or equals `localhost`". -/
def loopbackHost (url : Url) : Bool :=
  starts_with url.host "127." || decide (url.host = "localhost")

/-- A url that a local connection prefers: valid, with a loopback host, and of the
protocol asked for when one is asked for. -/
def preferred (protocol : String) (url : Url) : Bool :=
  url.isValid && loopbackHost url && (decide (protocol = "") || decide (url.protocol = protocol))

/-- A stable implementation of `std::partition`. -/
def stablePartition (p : Url → Bool) (l : List Url) : List Url :=
  l.filter p ++ l.filter (fun u => !p u)

/-! ## TransportSocketCache: promises, slots and attempts -/

/-- Modelled from the spec: state of the cell shared by a `qi::Promise<T>` and its
futures (`qi/future.hpp` is not part of the sources at hand), a "Single-assignment
cell; states: Running, FinishedWithValue, FinishedWithError, Canceled". -/
inductive FutureState (T : Type) where
  | running
  | canceled
  | finishedWithError (error : String)
  | finishedWithValue (value : T)
  deriving DecidableEq, Repr

/-- Value of `future.isFinished()`. -/
def FutureState.isFinished {T : Type} : FutureState T → Bool
  | .running => false
  | _ => true

/-- Value of `future.hasError(0)` on a finished future. -/
def FutureState.hasError {T : Type} : FutureState T → Bool
  | .finishedWithError _ => true
  | _ => false

/-- Value of `future.isCanceled()`. -/
def FutureState.isCanceled {T : Type} : FutureState T → Bool
  | .canceled => true
  | _ => false

/-- State carried by the `qi::FutureException` that a promise throws when it is set
a second time. -/
inductive ExceptionState where
  | promiseAlreadySet
  deriving DecidableEq, Repr

/-- Modelled from the spec: `Promise::setValue(val)` on a cell in state `st`; the
cell is assigned once, a later call throws `ExceptionState_PromiseAlreadySet`. -/
def Promise.setValue {T : Type} (st : FutureState T) (val : T) :
    Except ExceptionState (FutureState T) :=
  match st with
  | .running => .ok (.finishedWithValue val)
  | _ => .error .promiseAlreadySet

/-- Modelled from the spec: `Promise::setError(err)` on a cell in state `st`. -/
def Promise.setError {T : Type} (st : FutureState T) (err : String) :
    Except ExceptionState (FutureState T) :=
  match st with
  | .running => .ok (.finishedWithError err)
  | _ => .error .promiseAlreadySet

/-- The cells of the promises, by handle: two copies of a `qi::Promise` hold the same
handle. -/
abbrev Promises := StdMap Nat (FutureState TransportSocketPtr)

/-- State of the cell of handle `p`; a cell that was never set is running. -/
def stateOf (promises : Promises) (p : Nat) : FutureState TransportSocketPtr :=
  (promises.find p).getD .running

/-- Function `multiSetError(p, err)`: the exception of a promise already set is
swallowed. -/
def multiSetError (promises : Promises) (p : Nat) (err : String) : Promises :=
  match Promise.setError (stateOf promises p) err with
  | .ok st => promises.assign p st
  | .error .promiseAlreadySet => promises

/-- Function `multiSetValue(p, val)`: the exception of a promise already set is
swallowed. -/
def multiSetValue (promises : Promises) (p : Nat) (val : TransportSocketPtr) : Promises :=
  match Promise.setValue (stateOf promises p) val with
  | .ok st => promises.assign p st
  | .error .promiseAlreadySet => promises

/-- Struct `TransportSocketConnection` (its declaration, in
`transportsocketcache.hpp`, is not part of the sources at hand; the fields are the
ones the code assigns): a slot of the cache. -/
structure TransportSocketConnection where
  socket : TransportSocketPtr
  promise : Nat
  url : Url
  connectSignalLink : Nat
  disconnectSignalLink : Nat
  deriving DecidableEq, Repr

/-- Struct `TransportSocketConnectionAttempt` (declared in the same header): the
race towards one machine. -/
structure TransportSocketConnectionAttempt where
  promise : Nat
  socket_count : Int
  successful : Bool
  deriving DecidableEq, Repr

/-- A member function that the cache calls on a socket. -/
inductive SocketCall where
  | connectedConnect (socket : TransportSocketPtr)
  | disconnectedConnect (socket : TransportSocketPtr)
  | connect (socket : TransportSocketPtr) (url : Url)
  | disconnect (socket : TransportSocketPtr)
  | connectedDisconnect (socket : TransportSocketPtr) (link : Nat)
  | disconnectedDisconnect (socket : TransportSocketPtr) (link : Nat)
  deriving DecidableEq, Repr

/-- Members of `qi::TransportSocketCache`, with the cells of the promises it has
made (`promises`, `nextPromise`), the address and the signal link that the next
socket made by `makeTransportSocket` gets (`nextSocket`, `nextLink`), and the trace
of the calls made on sockets (`calls`). -/
structure TransportSocketCache where
  _dying : Bool
  _sockets : StdMap String (StdMap String TransportSocketConnection)
  _attempts : StdMap String TransportSocketConnectionAttempt
  promises : Promises
  nextPromise : Nat
  nextSocket : TransportSocketPtr
  nextLink : Nat
  calls : List SocketCall
  deriving DecidableEq, Repr

namespace TransportSocketCache

/-- State built by `TransportSocketCache::TransportSocketCache()`. -/
def create : TransportSocketCache :=
  { _dying := false, _sockets := [], _attempts := [], promises := [], nextPromise := 0,
    nextSocket := 1, nextLink := 0, calls := [] }

/-- Function `qi::makeFutureError(error)`: a new cell, finished with the error. -/
def makeFutureError (c : TransportSocketCache) (error : String) :
    Nat × TransportSocketCache :=
  (c.nextPromise,
   { c with nextPromise := c.nextPromise + 1,
            promises := c.promises.assign c.nextPromise (.finishedWithError error) })

/-- Loop of `socket` over `endpoints` that looks for a slot of the machine: the
promise of the first slot found whose future is not finished with an error. -/
def cacheCheck (promises : Promises) (tscm : StdMap String TransportSocketConnection) :
    List Url → Option Nat
  | [] => none
  | url :: rest =>
    match tscm.find url.str with
    | some tsc =>
      if (stateOf promises tsc.promise).isFinished && (stateOf promises tsc.promise).hasError then
        cacheCheck promises tscm rest
      else some tsc.promise
    | none => cacheCheck promises tscm rest

/-- Loop of `socket` that launches the connections: one socket for every endpoint
of the asked protocol, all on the promise `prom`. -/
def launch (machineId protocol : String) (prom : Nat) :
    List Url → TransportSocketCache → TransportSocketCache
  | [], c => c
  | url :: rest, c =>
    if decide (protocol ≠ "") && decide (protocol ≠ url.protocol) then
      launch machineId protocol prom rest c
    else
      let socket := c.nextSocket
      let tsc : TransportSocketConnection :=
        { socket := socket, promise := prom, url := url,
          connectSignalLink := c.nextLink, disconnectSignalLink := c.nextLink + 1 }
      let tscm := (c._sockets.find machineId).getD []
      launch machineId protocol prom rest
        { c with
          nextSocket := socket + 1
          nextLink := c.nextLink + 2
          _sockets := c._sockets.assign machineId (tscm.assign url.str tsc)
          _attempts :=
            match c._attempts.find machineId with
            | some tsca =>
              c._attempts.assign machineId { tsca with socket_count := tsca.socket_count + 1 }
            | none => c._attempts
          calls := c.calls ++ [SocketCall.connectedConnect socket,
            SocketCall.disconnectedConnect socket, SocketCall.connect socket url] }

/-- The endpoints to which `socket` attempts a connection: the ones that the
launching loop does not skip. -/
def launched (protocol : String) (endpoints : List Url) : List Url :=
  endpoints.filter (fun url => !(decide (protocol ≠ "") && decide (protocol ≠ url.protocol)))

/-- Method `TransportSocketCache::socket(servInfo, protocol)`: the handle of the
future returned and the cache afterwards. `stdPartition` is `std::partition` and
`self` is `qi::os::getMachineId()`. -/
def socket (c : TransportSocketCache) (stdPartition : (Url → Bool) → List Url → List Url)
    (self : String) (servInfo : ServiceInfo) (protocol : String) :
    Nat × TransportSocketCache :=
  let endpoints := socketEndpoints stdPartition self servInfo protocol
  if c._dying then makeFutureError c "TransportSocketCache is closed."
  else
    match (c._sockets.find servInfo.machineId).bind
        (fun tscm => cacheCheck c.promises tscm endpoints) with
    | some p => (p, c)
    | none =>
      let prom := c.nextPromise
      let c1 := { c with nextPromise := prom + 1,
                         promises := c.promises.assign prom FutureState.running }
      if endpoints.isEmpty then
        (prom, { c1 with promises :=
                   c1.promises.assign prom (FutureState.finishedWithError "No endpoint available.") })
      else
        let c2 := { c1 with
          _attempts := c1._attempts.assign servInfo.machineId
            { promise := prom, socket_count := 0, successful := false }
          _sockets := c1._sockets.assign servInfo.machineId
            ((c1._sockets.find servInfo.machineId).getD []) }
        (prom, launch servInfo.machineId protocol prom endpoints c2)

/-- Method `TransportSocketCache::insert(machineId, url, socket)`. The signal links
of the slot are left unset by the code; they are `0` here. -/
def insert (c : TransportSocketCache) (machineId : String) (url : Url)
    (socket : TransportSocketPtr) : TransportSocketCache :=
  let p := c.nextPromise
  let tsc : TransportSocketConnection :=
    { socket := socket, promise := p, url := url, connectSignalLink := 0,
      disconnectSignalLink := 0 }
  let promises1 := multiSetValue (c.promises.assign p FutureState.running) p socket
  let c1 := { c with nextPromise := p + 1, promises := promises1 }
  let c2 :=
    match c1._attempts.find machineId with
    | some tsca =>
      { c1 with
        _attempts := c1._attempts.assign machineId { tsca with successful := true }
        promises := multiSetValue c1.promises tsca.promise socket }
    | none => c1
  let tscm := ((c2._sockets.find machineId).getD []).assign url.str tsc
  { c2 with _sockets := c2._sockets.assign machineId tscm }

/-- Method `TransportSocketCache::onSocketDisconnected(error, socket, servInfo, url)`. -/
def onSocketDisconnected (c : TransportSocketCache) (_error : String)
    (_socket : TransportSocketPtr) (servInfo : ServiceInfo) (_url : Url) :
    TransportSocketCache :=
  match c._attempts.find servInfo.machineId with
  | none => c
  | some tsca =>
    if c._dying then
      { c with promises := multiSetError c.promises tsca.promise "TransportSocketCache is closed." }
    else
      let tsca1 := { tsca with socket_count := tsca.socket_count - 1 }
      let c1 := { c with _attempts := c._attempts.assign servInfo.machineId tsca1 }
      if tsca1.socket_count ≠ 0 then c1
      else
        let ss := "Failed to connect to service " ++ servInfo.name ++ " on " ++ "machine " ++
          servInfo.machineId ++ ". All endpoints are " ++ "unavailable."
        { c1 with promises := multiSetError c1.promises tsca1.promise ss }

/-- Method `TransportSocketCache::onSocketConnected(socket, servInfo, url)`. -/
def onSocketConnected (c : TransportSocketCache) (socket : TransportSocketPtr)
    (servInfo : ServiceInfo) (url : Url) : TransportSocketCache :=
  match c._attempts.find servInfo.machineId with
  | none => c
  | some tsca =>
    if c._dying then
      { c with promises := multiSetError c.promises tsca.promise "TransportSocketCache is closed." }
    else if tsca.successful then
      { c with calls := c.calls ++ [SocketCall.disconnect socket] }
    else
      match c._sockets.find servInfo.machineId with
      | none => c
      | some tscm =>
        match tscm.find url.str with
        | none => c
        | some tsc =>
          { c with
            promises := multiSetValue c.promises tsc.promise socket
            _attempts := c._attempts.assign servInfo.machineId { tsca with successful := true } }

/-- Body of the inner loop of `close` for one slot; `isConnected` is the answer of
`socket->isConnected()`. -/
def closeSlot (isConnected : TransportSocketPtr → Bool) (c : TransportSocketCache)
    (tsc : TransportSocketConnection) : TransportSocketCache :=
  let calls1 := c.calls ++ [SocketCall.disconnectedDisconnect tsc.socket tsc.disconnectSignalLink,
    SocketCall.connectedDisconnect tsc.socket tsc.connectSignalLink]
  { c with
    calls := if isConnected tsc.socket then calls1 ++ [SocketCall.disconnect tsc.socket] else calls1
    promises := multiSetError c.promises tsc.promise "session closed" }

/-- The slots of the cache, in the order in which `close` visits them. -/
def slots (c : TransportSocketCache) : List TransportSocketConnection :=
  c._sockets.flatMap (fun mcm => mcm.2.map (fun e => e.2))

/-- The calls that `close` makes on the socket of one slot. -/
def closeCalls (isConnected : TransportSocketPtr → Bool) (tsc : TransportSocketConnection) :
    List SocketCall :=
  [SocketCall.disconnectedDisconnect tsc.socket tsc.disconnectSignalLink,
    SocketCall.connectedDisconnect tsc.socket tsc.connectSignalLink] ++
  (if isConnected tsc.socket then [SocketCall.disconnect tsc.socket] else [])

/-- Method `TransportSocketCache::close()`. -/
def close (c : TransportSocketCache) (isConnected : TransportSocketPtr → Bool) :
    TransportSocketCache :=
  let socketsCopy := c._sockets
  socketsCopy.foldl
    (fun c1 mcm => mcm.2.foldl (fun c2 e => closeSlot isConnected c2 e.2) c1)
    { c with _dying := true }

end TransportSocketCache

/-- An event of a socket made by the cache, with the arguments bound to the callback
by `socket`. -/
inductive SocketEvent where
  | connected (socket : TransportSocketPtr) (servInfo : ServiceInfo) (url : Url)
  | disconnected (error : String) (socket : TransportSocketPtr) (servInfo : ServiceInfo)
      (url : Url)
  deriving DecidableEq, Repr

/-- The callback of the cache run by one event. -/
def TransportSocketCache.handle (c : TransportSocketCache) : SocketEvent → TransportSocketCache
  | .connected socket servInfo url => c.onSocketConnected socket servInfo url
  | .disconnected error socket servInfo url => c.onSocketDisconnected error socket servInfo url

/-- The cache after a sequence of events. -/
def TransportSocketCache.handleAll (c : TransportSocketCache) (events : List SocketEvent) :
    TransportSocketCache :=
  events.foldl TransportSocketCache.handle c

/-- Machine of an event. -/
def SocketEvent.machineId : SocketEvent → String
  | .connected _ servInfo _ => servInfo.machineId
  | .disconnected _ _ servInfo _ => servInfo.machineId

/-- Test for a `connected` event. -/
def SocketEvent.isConnected : SocketEvent → Bool
  | .connected _ _ _ => true
  | .disconnected _ _ _ _ => false

/-! ### Sample races -/

/-- Record of a service hosted on the machine `M`, which is not the local one. -/
def remoteInfo (name : String) (endpoints : List Url) : ServiceInfo :=
  { mkInfo name endpoints with machineId := "M" }

/-- Endpoint of a first process of machine `M`. -/
def urlA : Url := tcpUrl "10.0.0.1" 5000

/-- Endpoint of a second process of machine `M`. -/
def urlB : Url := tcpUrl "10.0.0.1" 5001

/-- Service `a`, reached through `urlA`. -/
def infoA : ServiceInfo := remoteInfo "a" [urlA]

/-- Service `b`, reached through `urlB`. -/
def infoB : ServiceInfo := remoteInfo "b" [urlB]

/-- Service `ab`, reached through both urls. -/
def infoAB : ServiceInfo := remoteInfo "ab" [urlA, urlB]

/-- A new cache after `socket(infoA, "")`: socket 1 is connecting to `urlA` on the
promise 0. -/
def raceA : TransportSocketCache :=
  (TransportSocketCache.create.socket stablePartition "self" infoA "").2

/-- A new cache after `socket(infoAB, "")`: sockets 1 and 2 are connecting on the
promise 0. -/
def raceAB : TransportSocketCache :=
  (TransportSocketCache.create.socket stablePartition "self" infoAB "").2

/-- The cache `raceA` after `socket(infoB, "")`, called while socket 1 is still
connecting: socket 2 is connecting to `urlB` on the promise 1. -/
def raceAthenB : TransportSocketCache :=
  (raceA.socket stablePartition "self" infoB "").2

/-- Slot of `urlA` in `raceA` and in `raceAB`. -/
def slotA : TransportSocketConnection :=
  { socket := 1, promise := 0, url := urlA, connectSignalLink := 0, disconnectSignalLink := 1 }

/-- Slot of `urlB` in `raceAB`. -/
def slotB : TransportSocketConnection :=
  { socket := 2, promise := 0, url := urlB, connectSignalLink := 2, disconnectSignalLink := 3 }

/-! ## ServiceBoundObject: messages, in-flight calls and replies -/

/-- Modelled from the spec: the type tag of a `qi::Message` (`qi/messaging/message.hpp`
is not part of the sources at hand), "typed Call/Reply/Error/Post/Event/Canceled/
Cancel"; any other tag is `other`. -/
inductive MessageType where
  | call
  | reply
  | error
  | post
  | event
  | canceled
  | cancel
  | other (tag : Nat)
  deriving DecidableEq, Repr

/-- Modelled from the spec: the class `qi::MessageAddress`, "address = (service-id,
object-id, method-id, message-id)". -/
structure MessageAddress where
  messageId : Nat
  service : Nat
  object : Nat
  function : Nat
  deriving DecidableEq, Repr

/-- What a message carries: nothing, the text given to `setError`, or an encoded
value. -/
inductive Payload where
  | empty
  | error (text : String)
  | value (data : String)
  deriving DecidableEq, Repr

/-- Modelled from the spec: the class `qi::Message`, "An envelope with: protocol
version; type tag; address; flags (at least: `DynamicPayload`, `ReturnType`); payload". -/
structure Message where
  version : Nat
  type : MessageType
  dynamicPayload : Bool
  returnType : Bool
  address : MessageAddress
  payload : Payload
  deriving DecidableEq, Repr

/-- Value held by the future of a call: `future inner` when
`qi::detail::getGenericFuture` finds a future in it, of handle `inner`. -/
inductive AnyReference where
  | data (encoded : String)
  | future (inner : Nat)
  deriving DecidableEq, Repr

/-- What a callee throws: a `std::runtime_error`, another `std::exception`, or
something else. -/
inductive Thrown where
  | runtimeError (what : String)
  | exception (what : String)
  | other
  deriving DecidableEq, Repr

/-- Result of `convertAndSetValue`: the encoded value and whether the flag
`DynamicPayload` was added. -/
structure Converted where
  data : String
  dynamicPayload : Bool
  deriving DecidableEq, Repr

/-- Element of the in-flight map, a `std::pair<Future<AnyReference>, AtomicIntPtr>`:
the handle of the future of the call and the handle of its cancel counter. -/
structure Cancelable where
  future : Nat
  cancelRequested : Nat
  deriving DecidableEq, Repr

/-- Struct `RemoteSignalLink`: a subscription of a socket to a signal. -/
structure RemoteSignalLink where
  localSignalLinkId : Nat
  event : Nat
  deriving DecidableEq, Repr

/-- An operation on a cancel counter, an `Atomic<int>`: `++` or a successful
`setIfEquals(count, count - 1)`. -/
inductive AtomicOp where
  | increment (counter : Nat)
  | decrement (counter : Nat)
  deriving DecidableEq, Repr

/-- A call made on the object or on the bound object itself by `onMessage`. -/
inductive Invocation where
  | metaCall (self : Bool) (funcId : Nat)
  | metaPost (funcId : Nat)
  deriving DecidableEq, Repr

/-- A reply adapter bound to a future: `serverResultAdapter` bound by `fut.connect`
(`next = false`) or `serverResultAdapterNext` bound by `_connect` (`next = true`). -/
structure Adapter where
  next : Bool
  future : Nat
  socket : TransportSocketPtr
  replyaddr : MessageAddress
  deriving DecidableEq, Repr

/-- Members of `qi::ServiceBoundObject` that the message path uses: the map of
`_cancelables`, `_links`, `_objectId`; with the cells of the cancel counters
(`atomics`, `nextAtomic`) and the traces of what the object does: the operations on
the counters, the messages sent on sockets, the futures on which `cancel()` is
called, the calls dispatched, the messages passed to the children, the adapters bound
to futures and the local signal links disconnected. `inFlightAtSend` holds, for every
message of `sent`, the map of `_cancelables` as it is when `socket->send` is called. -/
structure ServiceBoundObject where
  _objectId : Nat
  _cancelables : StdMap TransportSocketPtr (StdMap Nat Cancelable)
  _links : StdMap TransportSocketPtr (StdMap Nat RemoteSignalLink)
  atomics : StdMap Nat Int
  nextAtomic : Nat
  atomicOps : List AtomicOp
  sent : List (TransportSocketPtr × Message)
  cancels : List Nat
  invoked : List Invocation
  passed : List (TransportSocketPtr × Message)
  adapters : List Adapter
  unlinked : List Nat
  inFlightAtSend : List (StdMap TransportSocketPtr (StdMap Nat Cancelable))
  deriving DecidableEq, Repr

/-- What the object layer answers while `onMessage` handles one message: the text that
`operator<<` writes for the address, whether the target has a method and a signal
of the asked id, what decoding the payload throws, the handle of the future that
`metaCall` returns for a Call (or what it throws), what the call made for a Post
throws, the message id decoded from a Cancel, and the state that `future.wait(0)`
reads in `cancelCall`. -/
structure Dispatch where
  address : String
  method : Bool
  signal : Bool
  value : Option Thrown
  call : Except Thrown Nat
  post : Option Thrown
  cancelId : Except Thrown Nat
  state : FutureState AnyReference

/-- Value after an operation on a 32-bit `int`. -/
def wrapInt (x : Int) : Int := (x + 2 ^ 31) % 2 ^ 32 - 2 ^ 31

namespace ServiceBoundObject

/-- State built by the constructor for the object of id `objectId`. -/
def create (objectId : Nat) : ServiceBoundObject :=
  { _objectId := objectId, _cancelables := [], _links := [], atomics := [], nextAtomic := 0,
    atomicOps := [], sent := [], cancels := [], invoked := [], passed := [], adapters := [],
    unlinked := [], inFlightAtSend := [] }

/-- Element of the in-flight map under `(socket, id)`. -/
def inFlight (b : ServiceBoundObject) (socket : TransportSocketPtr) (id : Nat) :
    Option Cancelable :=
  (b._cancelables.find socket).bind (fun futures => futures.find id)

/-- Element under `(socket, id)` of a map of calls in flight, such as one recorded in
`inFlightAtSend`. -/
def entryOf (map : StdMap TransportSocketPtr (StdMap Nat Cancelable))
    (socket : TransportSocketPtr) (id : Nat) : Option Cancelable :=
  (map.find socket).bind (fun futures => futures.find id)

/-- Value of the cancel counter of handle `a`. -/
def atomic (b : ServiceBoundObject) (a : Nat) : Int := (b.atomics.find a).getD 0

/-- Call `socket->send(ret)`, made with the in-flight map as it is in `b`. -/
def send (b : ServiceBoundObject) (socket : TransportSocketPtr) (ret : Message) :
    ServiceBoundObject :=
  { b with sent := b.sent ++ [(socket, ret)],
           inFlightAtSend := b.inFlightAtSend ++ [b._cancelables] }

/-- Method `_removeCachedFuture(kit, sock, id)`; `kit` tells whether `kit.lock()` gives
the map of this object. -/
def _removeCachedFuture (b : ServiceBoundObject) (kit : Bool) (sock : TransportSocketPtr)
    (id : Nat) : ServiceBoundObject :=
  if !kit then b
  else
    match b._cancelables.find sock with
    | none => b
    | some futures =>
      match futures.find id with
      | none => b
      | some _ =>
        if (futures.erase id).length = 0 then { b with _cancelables := b._cancelables.erase sock }
        else { b with _cancelables := b._cancelables.assign sock (futures.erase id) }

/-- Message `qi::Message ret(Message::Type_Reply, replyaddr)`; the version that the
constructor gives does not matter here and is `0`. -/
def replyTo (replyaddr : MessageAddress) : Message :=
  { version := 0, type := MessageType.reply, dynamicPayload := false, returnType := false,
    address := replyaddr, payload := Payload.empty }

/-- The message after `ret.setType(Type_Error); ret.setError(text)`. -/
def errorReply (replyaddr : MessageAddress) (text : String) : Message :=
  { replyTo replyaddr with type := MessageType.error, payload := Payload.error text }

/-- The message after `convertAndSetValue(ret, ...)`, or after the handlers of what it
throws. `context` is the end of the text of the last handler. -/
def valueReply (replyaddr : MessageAddress) (context : String) :
    Except Thrown Converted → Message
  | .ok conv =>
    { replyTo replyaddr with dynamicPayload := conv.dynamicPayload,
                             payload := Payload.value conv.data }
  | .error (Thrown.runtimeError what) => errorReply replyaddr ("Uncaught error:" ++ what)
  | .error (Thrown.exception what) => errorReply replyaddr ("Uncaught error:" ++ what)
  | .error Thrown.other => errorReply replyaddr ("Unknown error caught while " ++ context)

/-- Method `serverResultAdapterNext(val, ...)`, run when the future held by `val` is
finished, in state `inner` (the adapter is bound to that future: `inner` is not
`running`). `remoteCancelableCalls` is the answer of
`socket->sharedCapability("RemoteCancelableCalls", false)` and `conv` the result of
`convertAndSetValue`. -/
def serverResultAdapterNext (b : ServiceBoundObject) (inner : FutureState AnyReference)
    (socket : TransportSocketPtr) (replyaddr : MessageAddress) (kit : Bool)
    (remoteCancelableCalls : Bool) (conv : Except Thrown Converted) : ServiceBoundObject :=
  let b1 := _removeCachedFuture b kit socket replyaddr.messageId
  let ret : Message :=
    match inner with
    | .finishedWithError error => errorReply replyaddr error
    | .canceled =>
      if !remoteCancelableCalls then errorReply replyaddr "Call has been canceled."
      else { replyTo replyaddr with type := MessageType.canceled }
    | _ => valueReply replyaddr "forwarding the answer" conv
  send b1 socket ret

/-- Method `serverResultAdapter(future, ...)`, run when the future of the call is
finished, in state `future` (on a future that is running `hasError()` waits, and
nothing is done here). `cancelRequested` is `none` for the null pointer. The loop on
`setIfEquals` is the one of a run without a concurrent writer of the counter: the
first exchange succeeds. -/
def serverResultAdapter (b : ServiceBoundObject) (future : FutureState AnyReference)
    (socket : TransportSocketPtr) (replyaddr : MessageAddress) (kit : Bool)
    (cancelRequested : Option Nat) (conv : Except Thrown Converted) : ServiceBoundObject :=
  match future with
  | .finishedWithError error =>
    send (_removeCachedFuture b kit socket replyaddr.messageId) socket (errorReply replyaddr error)
  | .canceled =>
    send (_removeCachedFuture b kit socket replyaddr.messageId) socket
      { replyTo replyaddr with type := MessageType.canceled }
  | .finishedWithValue (AnyReference.future inner) =>
    let b1 := { b with adapters := b.adapters ++
      [{ next := true, future := inner, socket := socket, replyaddr := replyaddr }] }
    match cancelRequested with
    | none => b1
    | some a =>
      if b1.atomic a ≠ 0 then
        { b1 with atomics := b1.atomics.assign a (wrapInt (b1.atomic a - 1)),
                  atomicOps := b1.atomicOps ++ [AtomicOp.decrement a],
                  cancels := b1.cancels ++ [inner] }
      else b1
  | .finishedWithValue (AnyReference.data _) =>
    send (_removeCachedFuture b kit socket replyaddr.messageId) socket
      (valueReply replyaddr "sending the answer" conv)
  | .running => b

/-- Method `cancelCall(socket, cancelMessage, origMsgId)`; `state` is the answer of
`future.wait(0)`. The loop on `setIfEquals` is the one of a run without a concurrent
writer of the counter. -/
def cancelCall (b : ServiceBoundObject) (socket : TransportSocketPtr) (origMsgId : Nat)
    (state : FutureState AnyReference) : ServiceBoundObject :=
  match b._cancelables.find socket with
  | none => b
  | some futures =>
    match futures.find origMsgId with
    | none => b
    | some fut =>
      let cancelCount := wrapInt (b.atomic fut.cancelRequested + 1)
      let b1 := { b with atomics := b.atomics.assign fut.cancelRequested cancelCount,
                         atomicOps := b.atomicOps ++ [AtomicOp.increment fut.cancelRequested],
                         cancels := b.cancels ++ [fut.future] }
      match state with
      | .finishedWithValue val =>
        let b2 := _removeCachedFuture b1 true socket origMsgId
        match val with
        | .data _ => b2
        | .future inner =>
          if cancelCount ≠ 0 then
            { b2 with atomics := b2.atomics.assign fut.cancelRequested (wrapInt (cancelCount - 1)),
                      atomicOps := b2.atomicOps ++ [AtomicOp.decrement fut.cancelRequested],
                      cancels := b2.cancels ++ [inner] }
          else b2
      | _ => b1

/-- Method `onSocketDisconnected(client, error)`. The callback
`_onSocketDisconnectedCallback` and `removeRemoteReferences` act on other objects. -/
def onSocketDisconnected (b : ServiceBoundObject) (client : TransportSocketPtr)
    (_error : String) : ServiceBoundObject :=
  let b1 := { b with _cancelables := b._cancelables.erase client }
  match b1._links.find client with
  | none => b1
  | some links =>
    { b1 with unlinked := b1.unlinked ++ links.map (fun jt => jt.2.localSignalLinkId),
              _links := b1._links.erase client }

/-- The handlers `catch (const std::runtime_error&)` and `catch (...)` of `onMessage`:
an error is sent back for a Call only. -/
def onMessageCatch (b : ServiceBoundObject) (msg : Message) (socket : TransportSocketPtr)
    (thrown : Thrown) : ServiceBoundObject :=
  if msg.type = MessageType.call then
    serverResultAdapter b
      (FutureState.finishedWithError
        (match thrown with
         | Thrown.runtimeError what => what
         | _ => "Unknown error catch"))
      socket msg.address true none (Except.error Thrown.other)
  else b

/-- Method `onMessage(msg, socket)`. `currentVersion` is
`qi::Message::currentVersion()` and `startId` is `Manageable::startId`, both declared
in headers that are not part of the sources at hand; `env` gives the answers of the
object layer. -/
def onMessage (b : ServiceBoundObject) (currentVersion startId : Nat) (msg : Message)
    (socket : TransportSocketPtr) (env : Dispatch) : ServiceBoundObject :=
  if msg.version > currentVersion then
    serverResultAdapter b
      (FutureState.finishedWithError
        ("Cannot negotiate QiMessaging connection: " ++
          "remote end doesn't support binary protocol v" ++ toString msg.version))
      socket msg.address false none (Except.error Thrown.other)
  else if msg.address.object > b._objectId then
    { b with passed := b.passed ++ [(socket, msg)] }
  else
    let self := decide (msg.address.function < startId)
    match msg.type with
    | .call =>
      if !env.method then
        onMessageCatch b msg socket (Thrown.runtimeError ("No such method " ++ env.address))
      else
        match env.value with
        | some thrown => onMessageCatch b msg socket thrown
        | none =>
          match env.call with
          | .error thrown =>
            onMessageCatch
              { b with invoked := b.invoked ++ [Invocation.metaCall self msg.address.function] }
              msg socket thrown
          | .ok fut =>
            let cancelRequested := b.nextAtomic
            let futures := (b._cancelables.find socket).getD []
            { b with
              invoked := b.invoked ++ [Invocation.metaCall self msg.address.function]
              nextAtomic := cancelRequested + 1
              atomics := b.atomics.assign cancelRequested 0
              _cancelables := b._cancelables.assign socket
                (futures.assign msg.address.messageId
                  { future := fut, cancelRequested := cancelRequested })
              adapters := b.adapters ++
                [{ next := false, future := fut, socket := socket, replyaddr := msg.address }] }
    | .post =>
      if !env.signal && !env.method then b
      else
        match env.value with
        | some thrown => onMessageCatch b msg socket thrown
        | none =>
          let b1 := { b with invoked := b.invoked ++
            [if self then Invocation.metaCall true msg.address.function
             else Invocation.metaPost msg.address.function] }
          match env.post with
          | some thrown => onMessageCatch b1 msg socket thrown
          | none => b1
    | .cancel =>
      match env.cancelId with
      | .error thrown => onMessageCatch b msg socket thrown
      | .ok origMsgId => cancelCall b socket origMsgId env.state
    | _ => b

/-- No socket of the in-flight map has an empty map of calls. -/
def NoEmptyInner (b : ServiceBoundObject) : Prop :=
  ∀ e ∈ b._cancelables, e.2 ≠ []

/-- An event of the life of a call whose method returns a future: a Cancel message
naming the call is handled, or the future of the call finishes, its value being the
future returned. -/
inductive CallEvent where
  | cancel
  | complete
  deriving DecidableEq, Repr

/-- One event of the call recorded under `(socket, replyaddr.messageId)` with the
counter `cancelRequested`, whose method returns the future `inner`. The boolean tells
whether the future of the call is finished: `future.wait(0)` answers by it. -/
def callStep (socket : TransportSocketPtr) (replyaddr : MessageAddress)
    (cancelRequested inner : Nat) :
    ServiceBoundObject × Bool → CallEvent → ServiceBoundObject × Bool
  | (b, completed), .cancel =>
    (b.cancelCall socket replyaddr.messageId
      (if completed then FutureState.finishedWithValue (AnyReference.future inner)
       else FutureState.running), completed)
  | (b, _), .complete =>
    (b.serverResultAdapter (FutureState.finishedWithValue (AnyReference.future inner)) socket
      replyaddr true (some cancelRequested) (Except.error Thrown.other), true)

/-- The bound object after the events of a call whose future is running at first. -/
def callRun (b : ServiceBoundObject) (socket : TransportSocketPtr)
    (replyaddr : MessageAddress) (cancelRequested inner : Nat) (events : List CallEvent) :
    ServiceBoundObject :=
  (events.foldl (callStep socket replyaddr cancelRequested inner) (b, false)).1

/-- An event handled by a bound object: a message arrives, the future of a call
finishes, the future returned by a call finishes, a socket disconnects. -/
inductive BoundEvent where
  | message (msg : Message) (socket : TransportSocketPtr) (env : Dispatch)
  | finished (future : FutureState AnyReference) (socket : TransportSocketPtr)
      (replyaddr : MessageAddress) (cancelRequested : Option Nat)
      (conv : Except Thrown Converted)
  | finishedNext (inner : FutureState AnyReference) (socket : TransportSocketPtr)
      (replyaddr : MessageAddress) (remoteCancelableCalls : Bool)
      (conv : Except Thrown Converted)
  | socketDisconnected (client : TransportSocketPtr) (error : String)

/-- The method run by one event. -/
def step (currentVersion startId : Nat) (b : ServiceBoundObject) :
    BoundEvent → ServiceBoundObject
  | .message msg socket env => b.onMessage currentVersion startId msg socket env
  | .finished future socket replyaddr cancelRequested conv =>
    b.serverResultAdapter future socket replyaddr true cancelRequested conv
  | .finishedNext inner socket replyaddr remoteCancelableCalls conv =>
    b.serverResultAdapterNext inner socket replyaddr true remoteCancelableCalls conv
  | .socketDisconnected client error => b.onSocketDisconnected client error

/-- The bound object of id `objectId` after a sequence of events. -/
def reached (currentVersion startId objectId : Nat) (events : List BoundEvent) :
    ServiceBoundObject :=
  events.foldl (step currentVersion startId) (create objectId)

end ServiceBoundObject

/-! ### Sample messages -/

/-- Address of the call 7 of method 100 of the main object of service 2. -/
def sampleAddress : MessageAddress := { messageId := 7, service := 2, object := 1, function := 100 }

/-- A message of the given version and type to `sampleAddress`. -/
def sampleMessage (version : Nat) (type : MessageType) : Message :=
  { version := version, type := type, dynamicPayload := false, returnType := false,
    address := sampleAddress, payload := Payload.value "()" }

/-- Answers of an object that has the method asked for, whose call returns the future
of handle 40; a Cancel names the message 7. -/
def sampleDispatch : Dispatch :=
  { address := "{2.1.100, id:7}", method := true, signal := false, value := none,
    call := Except.ok 40, post := none, cancelId := Except.ok 7,
    state := FutureState.running }

/-- The main object of a service after the call 7 of socket 9 has been recorded: its
future has the handle 40 and its counter the handle 0. -/
def sampleInFlight : ServiceBoundObject :=
  (ServiceBoundObject.create 1).onMessage 0 80 (sampleMessage 0 MessageType.call) 9 sampleDispatch

/-! ## Signals: subscribers, connection and disconnection -/

/-- Modelled from the spec: the class `qi::Signature` (`qi/signature.hpp` is not part of
the sources at hand), as the record of the observers that the code calls: `isValid()`,
`toString()` and `children()`, the signatures of the elements. -/
structure Signature where
  isValid : Bool
  toString : String
  children : List String
  deriving DecidableEq, Repr

/-- The signature built by `Signature()`. -/
def Signature.none : Signature := { isValid := false, toString := "", children := [] }

/-- Enum `qi::MetaCallType`. -/
inductive MetaCallType where
  | auto
  | direct
  | queued
  deriving DecidableEq, Repr

/-- The member `handler` of a subscriber, an `AnyFunction`: whether its type is
`dynamicFunctionTypeInterface()`, and its `parametersSignature()`. -/
structure SignalHandler where
  dynamic : Bool
  parametersSignature : Signature
  deriving DecidableEq, Repr

/-- The members `target` and `method` of a subscriber: whether `target->lock()` gives
an object, and the `parametersSignature()` of its method `method`, `none` when the
object has no such method. -/
structure SignalTarget where
  locked : Bool
  method : Option Signature
  deriving DecidableEq, Repr

/-- Members of `qi::SignalSubscriber`; a thread is the number of its
`boost::thread::id`. -/
structure SignalSubscriber where
  handler : Option SignalHandler
  target : Option SignalTarget
  threadingModel : MetaCallType
  executionContext : Bool
  linkId : Nat
  enabled : Bool
  activeThreads : List Nat
  deriving DecidableEq, Repr

namespace SignalSubscriber

/-- Method `SignalSubscriber::signature()`. -/
def signature (s : SignalSubscriber) : Signature :=
  match s.handler with
  | some handler =>
    if handler.dynamic then Signature.none else handler.parametersSignature
  | none =>
    match s.target with
    | some target =>
      if !target.locked then Signature.none
      else
        match target.method with
        | none => Signature.none
        | some ms => ms
    | none => Signature.none

/-- Test made by `waitForInactive` and by `SignalBasePrivate::disconnect` for the thread
`tid`: no thread is active, or the only active one is `tid`. -/
def idleFor (activeThreads : List Nat) (tid : Nat) : Bool :=
  activeThreads.isEmpty || (decide (activeThreads.length = 1) && decide (activeThreads.head? = some tid))

/-- One turn of the loop of `SignalSubscriber::waitForInactive()` run by the thread
`tid`: `true` when the method returns, `false` when it goes to
`inactiveThread.wait(sl)`. -/
def waitForInactive (s : SignalSubscriber) (tid : Nat) : Bool :=
  if s.activeThreads.isEmpty then true
  else if decide (s.activeThreads.length = 1) && decide (s.activeThreads.head? = some tid) then true
  else false

/-- Method `SignalSubscriber::addActive(acquireLock, id)`. -/
def addActive (activeThreads : List Nat) (id : Nat) : List Nat := activeThreads ++ [id]

/-- Loop of `SignalSubscriber::removeActive`: the vector after the turns from index `i`
on; `fuel` bounds the number of turns. -/
def removeActiveLoop (id : Nat) : Nat → Nat → List Nat → List Nat
  | 0, _, activeThreads => activeThreads
  | fuel + 1, i, activeThreads =>
    if i < activeThreads.length then
      if activeThreads.get? i = some id then
        removeActiveLoop id fuel (i + 1)
          (activeThreads.set i (activeThreads.getLastD id)).dropLast
      else removeActiveLoop id fuel (i + 1) activeThreads
    else activeThreads

/-- Method `SignalSubscriber::removeActive(acquireLock, id)`: the index goes up at
every turn and the vector never grows, so its size bounds the number of turns. -/
def removeActive (activeThreads : List Nat) (id : Nat) : List Nat :=
  removeActiveLoop id activeThreads.length 0 activeThreads

/-- What `SignalSubscriber::call` does with the handler or the target. -/
inductive CallOutcome where
  | handlerInvoked (mustDisconnect : Bool)
  | posted
  | notEnabled
  | metaPosted
  | targetLost
  | nothing
  deriving DecidableEq, Repr

/-- Method `SignalSubscriber::call(args, callType)` run by the thread `tid`: what is
done, and the subscriber afterwards. `pointerLock` tells whether the handler throws
`qi::PointerLockException`. A call that is posted runs later as a `FunctorCall`. -/
def call (s : SignalSubscriber) (callType : MetaCallType) (tid : Nat) (pointerLock : Bool) :
    CallOutcome × SignalSubscriber :=
  match s.handler with
  | some _ =>
    let async :=
      if s.threadingModel ≠ MetaCallType.auto then decide (s.threadingModel = MetaCallType.queued)
      else if callType ≠ MetaCallType.auto then decide (callType = MetaCallType.queued)
      else true
    if s.executionContext || async then (CallOutcome.posted, s)
    else if !s.enabled then (CallOutcome.notEnabled, s)
    else
      (CallOutcome.handlerInvoked pointerLock,
        { s with activeThreads := removeActive (addActive s.activeThreads tid) tid })
  | none =>
    match s.target with
    | some target =>
      if !target.locked then (CallOutcome.targetLost, s) else (CallOutcome.metaPosted, s)
    | none => (CallOutcome.nothing, s)

/-- Method `FunctorCall::operator()` run by the thread `tid` on the subscriber it
holds: whether the handler is invoked, and the subscriber afterwards. -/
def functorCall (s : SignalSubscriber) (tid : Nat) : Bool × SignalSubscriber :=
  if !s.enabled then (false, s)
  else (true, { s with activeThreads := removeActive (addActive s.activeThreads tid) tid })

end SignalSubscriber

/-- Members of `qi::SignalBasePrivate` (declared in `signal_p.hpp`, which is not part
of the sources at hand; the fields are the ones the code uses), with the static
counter `linkUid`, whether the hook `onSubscribers` is set, and the trace of the calls
of the hook. -/
structure SignalBasePrivate where
  signature : Signature
  subscriberMap : StdMap Nat SignalSubscriber
  trackMap : StdMap Nat Nat
  trackId : Int
  linkUid : Int
  onSubscribers : Bool
  hooks : List Bool
  deriving DecidableEq, Repr

/-- Value of a `SignalLink`, an unsigned 64-bit integer, made from an `int`. -/
def toSignalLink (x : Int) : Nat := (x % 2 ^ 64).toNat

/-- What `SignalBasePrivate::disconnect` gives: `returned` is the value returned,
`waits` tells that the method went to wait in `waitForInactive` first, `subscriber`
is the subscriber taken out of the map, as the method leaves it. -/
structure Disconnected where
  returned : Bool
  waits : Bool
  subscriber : Option SignalSubscriber
  signal : SignalBasePrivate
  deriving DecidableEq, Repr

namespace SignalBasePrivate

/-- State built by `SignalBase::SignalBase(sig, onSubscribers)`. -/
def create (sig : Signature) (onSubscribers : Bool) : SignalBasePrivate :=
  { signature := sig, subscriberMap := [], trackMap := [], trackId := 0, linkUid := 1,
    onSubscribers := onSubscribers, hooks := [] }

/-- Method `SignalBase::connect(const SignalSubscriber& src)`: the link of the new
subscriber, or the text of the `std::runtime_error` thrown, and the signal afterwards.
`isConvertibleTo` is `Signature::isConvertibleTo`. -/
def connect (isConvertibleTo : Signature → Signature → Bool) (p : SignalBasePrivate)
    (src : SignalSubscriber) : Except String Nat × SignalBasePrivate :=
  let sigArity : Int := p.signature.children.length
  let subSignature := src.signature
  let subArity : Int := if subSignature.isValid then subSignature.children.length else -1
  if decide (p.signature.toString ≠ "m") && subSignature.isValid && decide (sigArity ≠ subArity) then
    (Except.error ("Subscriber has incorrect arity (expected " ++ toString sigArity ++
      " , got " ++ toString subArity ++ ")"), p)
  else if decide (p.signature.toString ≠ "m") && subSignature.isValid &&
      !isConvertibleTo p.signature subSignature then
    (Except.error ("Subscriber is not compatible to signal : " ++ p.signature.toString ++
      " vs " ++ subSignature.toString), p)
  else
    let res := toSignalLink (wrapInt (p.linkUid + 1))
    let s : SignalSubscriber := { src with linkId := res, activeThreads := [] }
    let first := p.subscriberMap.isEmpty
    (Except.ok res,
     { p with
       linkUid := wrapInt (p.linkUid + 1)
       subscriberMap := p.subscriberMap.assign res s
       hooks := if first && p.onSubscribers then p.hooks ++ [true] else p.hooks })

/-- Method `SignalBase::createNewTrackLink(id, pLink)`: the new id, for which the track
map gets a link built by default. -/
def createNewTrackLink (p : SignalBasePrivate) : Nat × SignalBasePrivate :=
  let id := wrapInt (p.trackId + 1)
  (id.toNat, { p with trackId := id, trackMap := p.trackMap.assign id.toNat 0 })

/-- Assignment `*pLink = link` through the pointer given by `createNewTrackLink` for
`id`, by which the caller records the link that it tracks. -/
def setTrackLink (p : SignalBasePrivate) (id link : Nat) : SignalBasePrivate :=
  { p with trackMap := p.trackMap.assign id link }

/-- Method `SignalBase::disconnectTrackLink(id)`. -/
def disconnectTrackLink (p : SignalBasePrivate) (id : Nat) : SignalBasePrivate :=
  match p.trackMap.find id with
  | none => p
  | some link =>
    { p with subscriberMap := p.subscriberMap.erase link, trackMap := p.trackMap.erase id }

/-- Method `SignalBasePrivate::disconnect(l, wait)` run by the thread `tid`. -/
def disconnect (p : SignalBasePrivate) (l : Nat) (wait : Bool) (tid : Nat) : Disconnected :=
  match p.subscriberMap.find l with
  | none => { returned := false, waits := false, subscriber := none, signal := p }
  | some s =>
    let subscriberMap := p.subscriberMap.erase l
    let s1 := { s with enabled := false }
    let p1 := { p with
      subscriberMap := subscriberMap
      hooks := if subscriberMap.isEmpty && p.onSubscribers then p.hooks ++ [false] else p.hooks }
    if s1.activeThreads.isEmpty ||
        (decide (s1.activeThreads.length = 1) && decide (s1.activeThreads.head? = some tid)) then
      { returned := true, waits := false, subscriber := some s1, signal := p1 }
    else
      { returned := true, waits := wait && !s1.waitForInactive tid, subscriber := some s1,
        signal := p1 }

/-- Loop of `SignalBasePrivate::disconnectAll(wait)` run by the thread `tid`; `fuel`
bounds the number of turns. -/
def disconnectAllLoop (wait : Bool) (tid : Nat) : Nat → Bool → SignalBasePrivate →
    Bool × SignalBasePrivate
  | 0, ret, p => (ret, p)
  | fuel + 1, ret, p =>
    match p.subscriberMap with
    | [] => (ret, p)
    | (link, _) :: _ =>
      disconnectAllLoop wait tid fuel (ret && (p.disconnect link wait tid).returned)
        (p.disconnect link wait tid).signal

/-- Method `SignalBasePrivate::disconnectAll(wait)`: every turn takes the first
subscriber out of the map, so the size of the map bounds the number of turns. -/
def disconnectAll (p : SignalBasePrivate) (wait : Bool) (tid : Nat) : Bool × SignalBasePrivate :=
  disconnectAllLoop wait tid p.subscriberMap.length true p

end SignalBasePrivate

/-- An operation on a signal: connection of a subscriber, connection of a subscriber
that is tracked (`createNewTrackLink`, `connect`, then the assignment of the link), the
disconnections. -/
inductive SignalOp where
  | connect (src : SignalSubscriber)
  | connectTracked (src : SignalSubscriber)
  | disconnect (link : Nat)
  | asyncDisconnect (link : Nat)
  | disconnectAll
  | disconnectTrackLink (id : Nat)
  deriving DecidableEq, Repr

/-- The signal after one operation run by the thread `tid`. -/
def SignalBasePrivate.apply (isConvertibleTo : Signature → Signature → Bool) (tid : Nat)
    (p : SignalBasePrivate) : SignalOp → SignalBasePrivate
  | .connect src => (p.connect isConvertibleTo src).2
  | .connectTracked src =>
    match (p.createNewTrackLink.2.connect isConvertibleTo src) with
    | (Except.ok link, p1) => p1.setTrackLink p.createNewTrackLink.1 link
    | (Except.error _, p1) => p1
  | .disconnect link => (p.disconnect link true tid).signal
  | .asyncDisconnect link => (p.disconnect link false tid).signal
  | .disconnectAll => (p.disconnectAll true tid).2
  | .disconnectTrackLink id => p.disconnectTrackLink id

/-- The signal after a sequence of operations. -/
def SignalBasePrivate.applyAll (isConvertibleTo : Signature → Signature → Bool) (tid : Nat)
    (p : SignalBasePrivate) (ops : List SignalOp) : SignalBasePrivate :=
  ops.foldl (SignalBasePrivate.apply isConvertibleTo tid) p

/-! ### Sample signals -/

/-- Signature of a tuple of the given elements. -/
def tupleSignature (children : List String) : Signature :=
  { isValid := true, toString := "(" ++ String.join children ++ ")", children := children }

/-- The dynamic signature `m`. -/
def dynamicSignature : Signature := { isValid := true, toString := "m", children := [] }

/-- A subscriber made from a function of the given parameters, called in the thread
of the emission. -/
def functionSubscriber (parameters : List String) : SignalSubscriber :=
  { handler := some { dynamic := false, parametersSignature := tupleSignature parameters },
    target := none, threadingModel := MetaCallType.direct, executionContext := false,
    linkId := 0, enabled := true, activeThreads := [] }

/-- A subscriber made from a dynamic function, whose parameters are not known. -/
def dynamicSubscriber : SignalSubscriber :=
  { handler := some { dynamic := true, parametersSignature := Signature.none },
    target := none, threadingModel := MetaCallType.direct, executionContext := false,
    linkId := 0, enabled := true, activeThreads := [] }

/-- Convertibility of signatures taken for the samples: equality of the texts. -/
def sameSignature (a b : Signature) : Bool := decide (a.toString = b.toString)

/-! ## ServiceBoundObject: subscriptions of sockets to signals -/

namespace ServiceBoundObject

/-- Method `registerEvent(objectId, eventId, remoteSignalLinkId)`, and
`registerEventWithSignature`, which differs by the signature bound to `forwardEvent`
only; `currentSocket` is `_currentSocket`, `signal` tells whether the object has the
signal `eventId`, and `linkId` is the link that `_object.connect(eventId, mc)`
returns. -/
def registerEvent (b : ServiceBoundObject) (currentSocket : TransportSocketPtr)
    (_objectId eventId remoteSignalLinkId : Nat) (signal : Bool) (linkId : Nat) :
    Except String Nat × ServiceBoundObject :=
  if !signal then (Except.error "No such signal", b)
  else
    let links := ((b._links.find currentSocket).getD []).assign remoteSignalLinkId
      { localSignalLinkId := linkId, event := eventId }
    (Except.ok linkId, { b with _links := b._links.assign currentSocket links })

/-- Method `unregisterEvent(objectId, event, remoteSignalLinkId)`. -/
def unregisterEvent (b : ServiceBoundObject) (currentSocket : TransportSocketPtr)
    (objectId _event remoteSignalLinkId : Nat) : Except String Unit × ServiceBoundObject :=
  let sl := (b._links.find currentSocket).getD []
  match sl.find remoteSignalLinkId with
  | none =>
    (Except.error ("Unregister request failed for " ++ toString remoteSignalLinkId ++ " " ++
      toString objectId),
     { b with _links := b._links.assign currentSocket sl })
  | some it =>
    let b1 := { b with unlinked := b.unlinked ++ [it.localSignalLinkId] }
    if (sl.erase remoteSignalLinkId).isEmpty then
      (Except.ok (), { b1 with _links := b1._links.erase currentSocket })
    else
      (Except.ok (),
       { b1 with _links := b1._links.assign currentSocket (sl.erase remoteSignalLinkId) })

end ServiceBoundObject

/-- A call of a socket on the subscriptions of a bound object, with the link that
`_object.connect` returns for a registration. -/
inductive LinkCall where
  | registerEvent (eventId remoteSignalLinkId linkId : Nat)
  | registerEventWithSignature (eventId remoteSignalLinkId : Nat) (signature : String)
      (linkId : Nat)
  | unregisterEvent (event remoteSignalLinkId : Nat)
  deriving DecidableEq, Repr

/-- The bound object after one call issued from `socket`, on an object that has every
signal asked for. -/
def ServiceBoundObject.link (socket : TransportSocketPtr) (b : ServiceBoundObject) :
    LinkCall → ServiceBoundObject
  | .registerEvent eventId remoteSignalLinkId linkId =>
    (b.registerEvent socket b._objectId eventId remoteSignalLinkId true linkId).2
  | .registerEventWithSignature eventId remoteSignalLinkId _ linkId =>
    (b.registerEvent socket b._objectId eventId remoteSignalLinkId true linkId).2
  | .unregisterEvent event remoteSignalLinkId =>
    (b.unregisterEvent socket b._objectId event remoteSignalLinkId).2

/-- The local links made by a sequence of calls. -/
def LinkCall.created : LinkCall → List Nat
  | .registerEvent _ _ linkId => [linkId]
  | .registerEventWithSignature _ _ _ linkId => [linkId]
  | .unregisterEvent _ _ => []

/-! ## forwardEvent -/

/-- Method `GenericFunctionParameters::convert(sig)`: an element of the result is
`none` when it is a reference without a type. `convertCopy value elt` is the
conversion of one value to the type of the signature `elt` (the type of the value
itself when the signature is not known). -/
def GenericFunctionParameters.convert (convertCopy : String → String → Option String)
    (sig : Signature) (src : List String) : List (Option String) :=
  if sig.children.length ≠ src.length then []
  else List.zipWith (fun elt value => convertCopy value elt) sig.children src

/-- The message of type Event that `forwardEvent` sends: the values given to
`setValues` with their signature, and the flag `DynamicPayload`. -/
structure EventMessage where
  service : Nat
  object : Nat
  event : Nat
  signature : String
  values : List String
  dynamicPayload : Bool
  deriving DecidableEq, Repr

/-- Function `forwardEvent(params, service, object, event, sig, client, context,
signature)`: the message sent on the socket, `none` when an exception leaves the
function. `messageFlags` is `client->remoteCapability("MessageFlags", false)`, `parse`
builds a `Signature` from a text (`none` when it throws), and `setValuesThrows` tells
whether `msg.setValues` throws for the given values and signature. The lines that
write to the log are left out. -/
def forwardEvent (parse : String → Option Signature)
    (convertCopy : String → String → Option String)
    (setValuesThrows : List String → String → Bool) (params : List String)
    (service object event : Nat) (sig : Signature) (messageFlags : Bool)
    (signature : String) : Option EventMessage :=
  let processed : Option (List String) :=
    if decide (signature ≠ "") && messageFlags then
      match parse signature with
      | none => none
      | some forced =>
        let res := GenericFunctionParameters.convert convertCopy forced params
        if res.all (fun r => r.isSome) then
          if setValuesThrows (res.filterMap id) "m" then none else some (res.filterMap id)
        else none
    else none
  match processed with
  | some values =>
    some { service := service, object := object, event := event, signature := "m",
           values := values, dynamicPayload := true }
  | none =>
    if !setValuesThrows params sig.toString then
      some { service := service, object := object, event := event, signature := sig.toString,
             values := params, dynamicPayload := false }
    else if !messageFlags then none
    else if setValuesThrows params "m" then none
    else
      some { service := service, object := object, event := event, signature := "m",
             values := params, dynamicPayload := true }

/-! ## ListTypeInterface -/

/-- What `ListTypeInterface::element` ends with: the value of `(*it).rawValue()`, the
`std::runtime_error` thrown, or the dereference of the iterator `end()`. -/
inductive ElementResult (α : Type) where
  | value (a : α)
  | thrown (what : String)
  | endDereferenced
  deriving DecidableEq, Repr

/-- Loop `while (p != index && it != iend)` of `ListTypeInterface::element`: `p` and
the elements from `it` on when the loop is left. -/
def elementLoop {α : Type} (index : Int) : Int → List α → Int × List α
  | p, [] => (p, [])
  | p, a :: rest =>
    if p ≠ index then elementLoop index (wrapInt (p + 1)) rest else (p, a :: rest)

/-- Method `ListTypeInterface::element(storage, index)` on the list held by
`storage`, in iteration order. -/
def ListTypeInterface.element {α : Type} (storage : List α) (index : Int) : ElementResult α :=
  let r := elementLoop index 0 storage
  if r.1 > index then ElementResult.thrown "Index out of range"
  else
    match r.2 with
    | a :: _ => ElementResult.value a
    | [] => ElementResult.endDereferenced

/-! ### Samples -/

/-- Parser of the forced signatures of the samples: the text is a tuple of elements of
one letter. -/
def parseTuple (text : String) : Option Signature :=
  some (tupleSignature ((text.data.filter (fun c => c ≠ '(' && c ≠ ')')).map
    (fun c => String.mk [c])))

/-- Conversion of the samples: every value converts to every type. -/
def convertAny (value _elt : String) : Option String := some value

/-- Encoding of the samples: `setValues` never throws. -/
def setValuesOk (_values : List String) (_signature : String) : Bool := false

/-! ### Samples of the endpoint and subscription scenarios -/

/-- Loopback endpoint that a service of machine `M` lists next to its public one. -/
def urlLoop : Url := tcpUrl "127.0.0.1" 5000

/-- Service `loop` of the remote machine `M`, which lists a public and a loopback
endpoint. -/
def infoLoop : ServiceInfo := remoteInfo "loop" [urlA, urlLoop]

/-- Two registrations to the event 100 issued under the same remote link 5, for which
the object made the local links 11 and 12. -/
def reusedLink : List LinkCall :=
  [LinkCall.registerEvent 100 5 11, LinkCall.registerEvent 100 5 12]

/-- A bound object of id 1 after the socket 9 has issued the calls of `reusedLink`. -/
def twiceRegistered : ServiceBoundObject :=
  reusedLink.foldl (ServiceBoundObject.link 9) (ServiceBoundObject.create 1)

/-- A signal of signature `(i)` with the hook set. -/
def intSignal : SignalBasePrivate := SignalBasePrivate.create (tupleSignature ["i"]) true

/-- A tracked subscriber is connected and its track link disconnected, then a second
subscriber is connected. -/
def trackedThenConnect : List SignalOp :=
  [SignalOp.connectTracked (functionSubscriber ["i"]), SignalOp.disconnectTrackLink 1,
   SignalOp.connect (functionSubscriber ["i"])]

/-- The same sequence with `disconnect` of the link 2 in place of
`disconnectTrackLink`. -/
def connectDisconnectConnect : List SignalOp :=
  [SignalOp.connect (functionSubscriber ["i"]), SignalOp.disconnect 2,
   SignalOp.connect (functionSubscriber ["i"])]

/-! ## Lemmas on std::map -/

namespace StdMap

variable {K V W : Type}

theorem find_assign_self [DecidableEq K] [StdLess K] (m : StdMap K V) (k : K) (v : V) :
    find (assign m k v) k = some v := by
  induction m with
  | nil => simp [assign, find]
  | cons e t ih =>
    obtain ⟨k', v'⟩ := e
    by_cases h1 : k' = k
    · simp [assign, find, h1]
    · by_cases h2 : StdLess.less k k' = true
      · simp [assign, find, h1, h2]
      · simp [assign, find, h1, h2, ih]

theorem find_assign_ne [DecidableEq K] [StdLess K] (m : StdMap K V) (k j : K) (v : V)
    (hne : j ≠ k) : find (assign m k v) j = find m j := by
  have hne2 : ¬ k = j := fun h => hne h.symm
  induction m with
  | nil => simp [assign, find, hne2]
  | cons e t ih =>
    obtain ⟨k', v'⟩ := e
    by_cases h1 : k' = k
    · subst h1
      simp [assign, find, hne2]
    · by_cases h2 : StdLess.less k k' = true
      · simp [assign, find, h1, h2, hne2]
      · simp [assign, find, h1, h2, ih]

theorem erase_nil [DecidableEq K] (k : K) : erase ([] : StdMap K V) k = [] := rfl

theorem erase_cons_self [DecidableEq K] (t : StdMap K V) (k : K) (v : V) :
    erase ((k, v) :: t) k = erase t k := by
  simp [erase, List.filter]

theorem erase_cons_ne [DecidableEq K] (t : StdMap K V) (k j : K) (v : V) (h : j ≠ k) :
    erase ((j, v) :: t) k = (j, v) :: erase t k := by
  simp [erase, List.filter, h]

theorem find_erase_self [DecidableEq K] (m : StdMap K V) (k : K) :
    find (erase m k) k = none := by
  induction m with
  | nil => simp [erase, find]
  | cons e t ih =>
    obtain ⟨k', v'⟩ := e
    by_cases h1 : k' = k
    · subst h1
      rw [erase_cons_self]
      exact ih
    · rw [erase_cons_ne _ _ _ _ h1]
      simp [find, h1, ih]

theorem find_erase_ne [DecidableEq K] (m : StdMap K V) (k j : K) (hne : j ≠ k) :
    find (erase m k) j = find m j := by
  induction m with
  | nil => simp [erase, find]
  | cons e t ih =>
    obtain ⟨k', v'⟩ := e
    by_cases h1 : k' = k
    · subst h1
      have h2 : ¬ k' = j := fun h => hne h.symm
      rw [erase_cons_self]
      simp [find, h2, ih]
    · rw [erase_cons_ne _ _ _ _ h1]
      by_cases h3 : k' = j
      · simp [find, h3]
      · simp [find, h3, ih]

theorem mem_of_find [DecidableEq K] (m : StdMap K V) (k : K) (v : V)
    (h : find m k = some v) : (k, v) ∈ m := by
  induction m with
  | nil => simp [find] at h
  | cons e t ih =>
    obtain ⟨k', v'⟩ := e
    by_cases h1 : k' = k
    · simp [find, h1] at h
      simp [h1, h]
    · simp [find, h1] at h
      exact List.mem_cons_of_mem _ (ih h)

theorem erase_of_find_none [DecidableEq K] (m : StdMap K V) (k : K)
    (h : find m k = none) : erase m k = m := by
  induction m with
  | nil => rfl
  | cons e t ih =>
    obtain ⟨k', v'⟩ := e
    by_cases h1 : k' = k
    · simp [find, h1] at h
    · simp only [find, h1, if_false] at h
      rw [erase_cons_ne _ _ _ _ h1, ih h]

theorem erase_assign_of_find_none [DecidableEq K] [StdLess K] (m : StdMap K V) (k : K)
    (v : V) (h : find m k = none) : erase (assign m k v) k = m := by
  induction m with
  | nil => simp [assign, erase_cons_self, erase_nil]
  | cons e t ih =>
    obtain ⟨k', v'⟩ := e
    by_cases h1 : k' = k
    · simp [find, h1] at h
    · simp only [find, h1, if_false] at h
      by_cases h2 : StdLess.less k k' = true
      · simp only [assign, h1, h2, if_false, if_true]
        rw [erase_cons_self, erase_cons_ne _ _ _ _ h1, erase_of_find_none t k h]
      · have h3 : StdLess.less k k' = false := by simpa using h2
        simp only [assign, h1, h3, if_false, Bool.false_eq_true]
        rw [erase_cons_ne _ _ _ _ h1, ih h]

theorem find_map_val [DecidableEq K] (m : StdMap K V) (g : V → W) (k : K) :
    find ((m.map (fun e => (e.1, g e.2)) : StdMap K W)) k = (find m k).map g := by
  induction m with
  | nil => rfl
  | cons e t ih =>
    obtain ⟨k', v'⟩ := e
    by_cases h1 : k' = k
    · simp [find, h1]
    · simpa [find, h1] using ih

theorem filter_assign_of_find_none [DecidableEq K] [StdLess K] (m : StdMap K V) (k : K)
    (v : V) (p : K × V → Bool) (h : find m k = none) (hm : ∀ e ∈ m, p e = true)
    (hk : p (k, v) = false) : (assign m k v).filter p = m := by
  induction m with
  | nil => simp [assign, List.filter, hk]
  | cons e t ih =>
    obtain ⟨k', v'⟩ := e
    have he : p (k', v') = true := hm _ (List.mem_cons_self _ _)
    have ht : ∀ e ∈ t, p e = true := fun e h => hm e (List.mem_cons_of_mem _ h)
    by_cases h1 : k' = k
    · simp [find, h1] at h
    · simp only [find, h1, if_false] at h
      by_cases h2 : StdLess.less k k' = true
      · simp only [assign, h1, h2, if_false, if_true]
        rw [List.filter_cons_of_neg (by simp [hk]), List.filter_cons_of_pos he,
          List.filter_eq_self.2 ht]
      · have h3 : StdLess.less k k' = false := by simpa using h2
        simp only [assign, h1, h3, if_false, Bool.false_eq_true]
        rw [List.filter_cons_of_pos he, ih h ht]

theorem erase_map_assign_of_find_none [DecidableEq K] [StdLess K] (m : StdMap K V) (k : K)
    (v : V) (g : V → V) (h : find m k = none) (hm : ∀ e ∈ m, g e.2 = e.2) :
    erase (((assign m k v).map (fun e => (e.1, g e.2)) : StdMap K V)) k = m := by
  induction m with
  | nil => simp [assign, erase_cons_self, erase_nil]
  | cons e t ih =>
    obtain ⟨k', v'⟩ := e
    have he : g v' = v' := hm (k', v') (List.mem_cons_self _ _)
    have ht : ∀ e ∈ t, g e.2 = e.2 := fun e h => hm e (List.mem_cons_of_mem _ h)
    have hmap : (t.map (fun e => (e.1, g e.2)) : StdMap K V) = t := by
      conv_rhs => rw [← List.map_id t]
      apply List.map_congr_left
      intro e hmem
      rw [ht e hmem]
      rfl
    by_cases h1 : k' = k
    · simp [find, h1] at h
    · simp only [find, h1, if_false] at h
      by_cases h2 : StdLess.less k k' = true
      · simp only [assign, h1, h2, if_false, if_true, List.map_cons]
        rw [erase_cons_self, erase_cons_ne _ _ _ _ h1, he, hmap, erase_of_find_none t k h]
      · have h3 : StdLess.less k k' = false := by simpa using h2
        simp only [assign, h1, h3, if_false, Bool.false_eq_true, List.map_cons]
        rw [erase_cons_ne _ _ _ _ h1, he, ih h ht]

theorem find_assign [DecidableEq K] [StdLess K] (m : StdMap K V) (k j : K) (v : V) :
    find (assign m k v) j = if j = k then some v else find m j := by
  by_cases h : j = k
  · subst h; simp [find_assign_self]
  · simp [h, find_assign_ne _ _ _ _ h]

theorem find_erase [DecidableEq K] (m : StdMap K V) (k j : K) :
    find (erase m k) j = if j = k then none else find m j := by
  by_cases h : j = k
  · subst h; simp [find_erase_self]
  · simp [h, find_erase_ne _ _ _ h]

end StdMap

/-! ## Lemmas on the choice of the endpoints -/

theorem substr_prefix_iff (h : String) :
    substr h 0 4 = "127." ↔ starts_with h "127." = true := by
  have hlit : ("127." : String).data = ['1', '2', '7', '.'] := rfl
  unfold substr starts_with
  rw [String.ext_iff, hlit, List.isPrefixOf_iff_prefix, List.prefix_iff_eq_take]
  simp only [List.drop_zero, List.length_cons, List.length_nil]
  exact eq_comm

theorem isLoopback_eq (url : Url) : isLoopback url = loopbackHost url := by
  unfold isLoopback loopbackHost
  by_cases h : starts_with url.host "127." = true
  · simp [h, (substr_prefix_iff url.host).2 h]
  · have h2 : ¬ substr url.host 0 4 = "127." := fun h3 => h ((substr_prefix_iff url.host).1 h3)
    simp [h, h2]

theorem filterEndpoints_cons (protocol : String) (url : Url) (rest : List Url) :
    filterEndpoints protocol (url :: rest) =
      if !url.isValid then filterEndpoints protocol rest
      else if isLoopback url then
        if decide (protocol = "") || decide (url.protocol = protocol) then [url]
        else filterEndpoints protocol rest
      else url :: filterEndpoints protocol rest := by
  simp only [filterEndpoints, isLoopback]

theorem filterEndpoints_of_loopback (protocol : String) (l : List Url)
    (hl : ∀ u ∈ l, isLoopback u = true) :
    filterEndpoints protocol l = (l.find? (preferred protocol)).toList := by
  induction l with
  | nil => rfl
  | cons url rest ih =>
    have h1 : isLoopback url = true := hl url (List.mem_cons_self _ _)
    have ih2 := ih (fun u hu => hl u (List.mem_cons_of_mem _ hu))
    rw [filterEndpoints_cons]
    by_cases hv : url.isValid = true
    · by_cases hp : (decide (protocol = "") || decide (url.protocol = protocol)) = true
      · simp [hv, h1, hp, preferred, List.find?, ← isLoopback_eq]
      · simp only [Bool.not_eq_true] at hp
        simp [hv, h1, hp, preferred, List.find?, ih2, ← isLoopback_eq]
    · simp only [Bool.not_eq_true] at hv
      simp [hv, preferred, List.find?, ih2]

theorem filterEndpoints_of_no_loopback (protocol : String) (l : List Url)
    (hl : ∀ u ∈ l, isLoopback u = false) :
    filterEndpoints protocol l = l.filter (fun u => u.isValid) := by
  induction l with
  | nil => rfl
  | cons url rest ih =>
    have h1 : isLoopback url = false := hl url (List.mem_cons_self _ _)
    have ih2 := ih (fun u hu => hl u (List.mem_cons_of_mem _ hu))
    rw [filterEndpoints_cons]
    by_cases hv : url.isValid = true
    · simp [hv, h1, ih2]
    · simp only [Bool.not_eq_true] at hv
      simp [hv, ih2]

theorem localhost_only_eq (input : List Url) :
    localhost_only input = input.filter isLoopback := by
  unfold localhost_only
  congr 1
  funext u
  rw [isLoopback_eq, loopbackHost]

theorem find?_filter_loopback (protocol : String) (l : List Url) :
    (l.filter isLoopback).find? (preferred protocol) = l.find? (preferred protocol) := by
  induction l with
  | nil => rfl
  | cons url rest ih =>
    by_cases h1 : isLoopback url = true
    · simp only [List.filter_cons, h1, if_true, List.find?_cons]
      rw [ih]
    · simp only [Bool.not_eq_true] at h1
      have : preferred protocol url = false := by simp [preferred, h1, ← isLoopback_eq]
      simp only [List.filter_cons, h1, List.find?_cons, this]
      simpa using ih

theorem find?_isSome_of_mem (q : Url → Bool) (l : List Url) (u : Url) (hu : u ∈ l)
    (hq : q u = true) : ∃ w, l.find? q = some w := by
  cases h : l.find? q with
  | some w => exact ⟨w, rfl⟩
  | none =>
    rw [List.find?_eq_none] at h
    exact absurd hq (h u hu)

theorem socketEndpoints_local_preferred (stdPartition : (Url → Bool) → List Url → List Url)
    (servInfo : ServiceInfo) (protocol : String) (u : Url)
    (hu : servInfo.endpoints.find? (preferred protocol) = some u) :
    socketEndpoints stdPartition servInfo.machineId servInfo protocol = [u] := by
  have hmem : u ∈ servInfo.endpoints := List.mem_of_find?_eq_some hu
  have hpref : preferred protocol u = true := List.find?_some hu
  have hlo : isLoopback u = true := by
    rw [isLoopback_eq]
    simp only [preferred, Bool.and_eq_true] at hpref
    exact hpref.1.2
  have hne : localhost_only servInfo.endpoints ≠ [] := by
    rw [localhost_only_eq]
    intro h
    have : u ∈ servInfo.endpoints.filter isLoopback := List.mem_filter.2 ⟨hmem, hlo⟩
    rw [h] at this
    exact absurd this (List.not_mem_nil _)
  have hlen : ¬ (localhost_only servInfo.endpoints).length = 0 := by
    rw [List.length_eq_zero]
    exact hne
  have hsorted : sortedEndpoints stdPartition servInfo.machineId servInfo
      = localhost_only servInfo.endpoints := by
    simp [sortedEndpoints, hlen]
  have hfilter : filterEndpoints protocol (localhost_only servInfo.endpoints) = [u] := by
    rw [localhost_only_eq, filterEndpoints_of_loopback, find?_filter_loopback, hu]
    · rfl
    · intro w hw
      exact (List.mem_filter.1 hw).2
  simp [socketEndpoints, hsorted, hfilter]

theorem socketEndpoints_local_no_loopback (stdPartition : (Url → Bool) → List Url → List Url)
    (servInfo : ServiceInfo) (protocol : String)
    (hno : ∀ w ∈ servInfo.endpoints, loopbackHost w = false) :
    ∀ u ∈ servInfo.endpoints, u.isValid = true →
      u ∈ socketEndpoints stdPartition servInfo.machineId servInfo protocol := by
  intro u hmem hvalid
  have hnil : localhost_only servInfo.endpoints = [] := by
    rw [localhost_only_eq, List.filter_eq_nil_iff]
    intro w hw
    rw [isLoopback_eq, hno w hw]
    simp
  have hsorted : sortedEndpoints stdPartition servInfo.machineId servInfo
      = servInfo.endpoints := by
    simp [sortedEndpoints, hnil]
  have hfilter : filterEndpoints protocol servInfo.endpoints
      = servInfo.endpoints.filter (fun w => w.isValid) :=
    filterEndpoints_of_no_loopback protocol _ (fun w hw => by rw [isLoopback_eq, hno w hw])
  have hin : u ∈ filterEndpoints protocol servInfo.endpoints := by
    rw [hfilter]
    exact List.mem_filter.2 ⟨hmem, hvalid⟩
  have hnotempty : (filterEndpoints protocol servInfo.endpoints).isEmpty = false := by
    cases hf : filterEndpoints protocol servInfo.endpoints with
    | nil => rw [hf] at hin; exact absurd hin (List.not_mem_nil _)
    | cons a t => rfl
  simp only [socketEndpoints, hsorted, hnotempty, Bool.false_and, Bool.false_eq_true, if_false]
  exact hin

/-! ## Lemmas on the operations of the directory -/

namespace ServiceDirectory

theorem registerService_of_name_bound (s : ServiceDirectory) (sbo : Option TransportSocketPtr)
    (svcinfo : ServiceInfo) (h : s.nameToIdx.find svcinfo.name ≠ none) :
    failed (registerService s sbo svcinfo).1 ∧ (registerService s sbo svcinfo).2 = s := by
  cases sbo with
  | none => exact ⟨⟨_, rfl⟩, rfl⟩
  | some socket =>
    cases hf : s.nameToIdx.find svcinfo.name with
    | none => exact absurd hf h
    | some old => simp [registerService, hf, failed]

theorem registerService_ok (s : ServiceDirectory) (socket : TransportSocketPtr)
    (svcinfo : ServiceInfo) (h : s.nameToIdx.find svcinfo.name = none) :
    registerService s (some socket) svcinfo =
      (.ok ((s.servicesCount + 1) % UINT_RANGE),
        { s with
          servicesCount := (s.servicesCount + 1) % UINT_RANGE
          nameToIdx := s.nameToIdx.assign svcinfo.name ((s.servicesCount + 1) % UINT_RANGE)
          socketToIdx :=
            if (s.servicesCount + 1) % UINT_RANGE ≠ Service_ServiceDirectory then
              s.socketToIdx.assign socket
                (((s.socketToIdx.find socket).getD []) ++ [(s.servicesCount + 1) % UINT_RANGE])
            else s.socketToIdx
          pendingServices := s.pendingServices.assign ((s.servicesCount + 1) % UINT_RANGE)
            { svcinfo with serviceId := (s.servicesCount + 1) % UINT_RANGE }
          idxToSocket := s.idxToSocket.assign ((s.servicesCount + 1) % UINT_RANGE) socket }) := by
  simp [registerService, h]

theorem registerService_ok_inv (s : ServiceDirectory) (sbo : Option TransportSocketPtr)
    (svcinfo : ServiceInfo) (idx : Nat)
    (h : (registerService s sbo svcinfo).1 = .ok idx) :
    s.nameToIdx.find svcinfo.name = none ∧ idx = (s.servicesCount + 1) % UINT_RANGE ∧
      ∃ socket, sbo = some socket := by
  cases sbo with
  | none => simp [registerService] at h
  | some socket =>
    cases hf : s.nameToIdx.find svcinfo.name with
    | some old => simp [registerService, hf] at h
    | none =>
      rw [registerService_ok s socket svcinfo hf] at h
      simp only [Except.ok.injEq] at h
      exact ⟨rfl, h.symm, socket, rfl⟩

theorem registerService_error (s : ServiceDirectory) (sbo : Option TransportSocketPtr)
    (svcinfo : ServiceInfo) (h : failed (registerService s sbo svcinfo).1) :
    (registerService s sbo svcinfo).2 = s := by
  cases sbo with
  | none => rfl
  | some socket =>
    cases hf : s.nameToIdx.find svcinfo.name with
    | some old => simp [registerService, hf]
    | none =>
      obtain ⟨e, he⟩ := h
      rw [registerService_ok s socket svcinfo hf] at he
      simp at he

theorem serviceReady_ok (s : ServiceDirectory) (idx : Nat) (info : ServiceInfo)
    (h : s.pendingServices.find idx = some info) :
    serviceReady s idx =
      (.ok (),
        { s with
          connectedServices := s.connectedServices.assign idx info
          pendingServices := s.pendingServices.erase idx
          emitted :=
            if hidden info.name then s.emitted
            else s.emitted ++ [Emission.serviceAdded idx info.name] }) := by
  cases hh : starts_with info.name "_" <;> simp [serviceReady, h, hidden, hh]

theorem serviceReady_error (s : ServiceDirectory) (idx : Nat)
    (h : s.pendingServices.find idx = none) :
    failed (serviceReady s idx).1 ∧ (serviceReady s idx).2 = s := by
  simp [serviceReady, h, failed]

theorem unregisterFound_ok (s : ServiceDirectory) (idx : Nat) (pending : Bool)
    (info : ServiceInfo) (hn : s.nameToIdx.find info.name ≠ none) :
    unregisterFound s idx pending info =
      (.ok (),
        { s with
          nameToIdx := s.nameToIdx.erase info.name
          pendingServices := if pending then s.pendingServices.erase idx else s.pendingServices
          connectedServices :=
            if pending then s.connectedServices else s.connectedServices.erase idx
          socketToIdx := s.socketToIdx.map (fun e => (e.1, e.2.erase idx))
          emitted :=
            if hidden info.name then s.emitted
            else s.emitted ++ [Emission.serviceRemoved idx info.name] }) := by
  cases hf : s.nameToIdx.find info.name with
  | none => exact absurd hf hn
  | some old =>
    cases hh : starts_with info.name "_" <;> simp [unregisterFound, hf, hidden, hh]

theorem unregisterFound_error (s : ServiceDirectory) (idx : Nat) (pending : Bool)
    (info : ServiceInfo) (hn : s.nameToIdx.find info.name = none) :
    failed (unregisterFound s idx pending info).1 ∧ (unregisterFound s idx pending info).2 = s := by
  simp [unregisterFound, hn, failed]

theorem unregisterService_eq (s : ServiceDirectory) (idx : Nat) (info : ServiceInfo)
    (h : record s idx = some info) :
    unregisterService s idx =
      unregisterFound s idx (s.connectedServices.find idx).isNone info := by
  unfold record at h
  cases hc : s.connectedServices.find idx with
  | some r =>
    rw [hc] at h
    simp only [Option.some.injEq] at h
    simp [unregisterService, hc, h]
  | none =>
    rw [hc] at h
    simp only at h
    simp [unregisterService, hc, h]

theorem unregisterService_not_found (s : ServiceDirectory) (idx : Nat)
    (h : record s idx = none) :
    failed (unregisterService s idx).1 ∧ (unregisterService s idx).2 = s := by
  unfold record at h
  cases hc : s.connectedServices.find idx with
  | some r => rw [hc] at h; simp at h
  | none =>
    rw [hc] at h
    simp only at h
    simp [unregisterService, hc, h, failed]

theorem unregisterService_error (s : ServiceDirectory) (idx : Nat)
    (h : failed (unregisterService s idx).1) : (unregisterService s idx).2 = s := by
  cases hr : record s idx with
  | none => exact (unregisterService_not_found s idx hr).2
  | some info =>
    rw [unregisterService_eq s idx info hr] at h ⊢
    cases hn : s.nameToIdx.find info.name with
    | none => exact (unregisterFound_error s idx _ info hn).2
    | some old =>
      have hn2 : s.nameToIdx.find info.name ≠ none := by rw [hn]; simp
      rw [unregisterFound_ok s idx _ info hn2] at h
      obtain ⟨e, he⟩ := h
      simp at he

theorem unregisterService_ok_inv (s : ServiceDirectory) (idx : Nat)
    (h : (unregisterService s idx).1 = .ok ()) :
    ∃ info, record s idx = some info ∧ s.nameToIdx.find info.name ≠ none := by
  cases hr : record s idx with
  | none =>
    obtain ⟨⟨e, he⟩, _⟩ := unregisterService_not_found s idx hr
    rw [he] at h
    simp at h
  | some info =>
    refine ⟨info, rfl, ?_⟩
    intro hn
    rw [unregisterService_eq s idx info hr] at h
    obtain ⟨⟨e, he⟩, _⟩ := unregisterFound_error s idx (s.connectedServices.find idx).isNone info hn
    rw [he] at h
    simp at h

theorem result_cases' {α : Type} (r : Except String α) :
    (∃ a, r = .ok a) ∨ failed r := by
  cases r with
  | ok a => exact Or.inl ⟨a, rfl⟩
  | error e => exact Or.inr ⟨e, rfl⟩

theorem result_cases (r : Except String Unit) : r = .ok () ∨ failed r := by
  cases r with
  | ok u => exact Or.inl rfl
  | error e => exact Or.inr ⟨e, rfl⟩

theorem registerService_emitted (s : ServiceDirectory) (sbo : Option TransportSocketPtr)
    (svcinfo : ServiceInfo) : (registerService s sbo svcinfo).2.emitted = s.emitted := by
  cases sbo with
  | none => rfl
  | some socket =>
    cases hf : s.nameToIdx.find svcinfo.name with
    | some old => simp [registerService, hf]
    | none => rw [registerService_ok s socket svcinfo hf]

theorem unregisterService_ok (s : ServiceDirectory) (idx : Nat) (info : ServiceInfo)
    (hr : record s idx = some info) (hn : s.nameToIdx.find info.name ≠ none) :
    unregisterService s idx =
      (.ok (),
        { s with
          nameToIdx := s.nameToIdx.erase info.name
          pendingServices :=
            if (s.connectedServices.find idx).isNone then s.pendingServices.erase idx
            else s.pendingServices
          connectedServices :=
            if (s.connectedServices.find idx).isNone then s.connectedServices
            else s.connectedServices.erase idx
          socketToIdx := s.socketToIdx.map (fun e => (e.1, e.2.erase idx))
          emitted :=
            if hidden info.name then s.emitted
            else s.emitted ++ [Emission.serviceRemoved idx info.name] }) := by
  rw [unregisterService_eq s idx info hr, unregisterFound_ok s idx _ info hn]

theorem updateServiceInfo_loop (s : ServiceDirectory) (svcinfo : ServiceInfo) :
    (s.connectedServices.map (fun e =>
      if svcinfo.sessionId = e.2.sessionId then
        (e.1, { e.2 with endpoints := svcinfo.endpoints })
      else e) : StdMap Nat ServiceInfo)
    = s.connectedServices.map (fun e => (e.1, withEndpoints svcinfo e.2)) := by
  apply List.map_congr_left
  intro e _
  unfold withEndpoints
  split <;> rfl

theorem withEndpoints_serviceId (svcinfo r : ServiceInfo) :
    (withEndpoints svcinfo r).serviceId = r.serviceId := by
  unfold withEndpoints; split <;> rfl

theorem updateServiceInfo_connected (s : ServiceDirectory) (svcinfo : ServiceInfo) (j : Nat) :
    (updateServiceInfo s svcinfo).2.connectedServices.find j
      = if j = svcinfo.serviceId ∧ s.connectedServices.find j ≠ none then some svcinfo
        else (s.connectedServices.find j).map (withEndpoints svcinfo) := by
  have hmap := fun k => StdMap.find_map_val s.connectedServices (withEndpoints svcinfo) k
  unfold updateServiceInfo
  simp only [updateServiceInfo_loop]
  cases hc : s.connectedServices.find svcinfo.serviceId with
  | some r =>
    have h1 : StdMap.find (s.connectedServices.map
        (fun e => (e.1, withEndpoints svcinfo e.2)) : StdMap Nat ServiceInfo) svcinfo.serviceId
        = some (withEndpoints svcinfo r) := by rw [hmap, hc]; rfl
    simp only [h1]
    by_cases hj : j = svcinfo.serviceId
    · subst hj
      simp [hc, StdMap.find_assign_self]
    · simp [hj, StdMap.find_assign_ne _ _ _ _ hj, hmap]
  | none =>
    have h1 : StdMap.find (s.connectedServices.map
        (fun e => (e.1, withEndpoints svcinfo e.2)) : StdMap Nat ServiceInfo) svcinfo.serviceId
        = none := by rw [hmap, hc]; rfl
    simp only [h1]
    have hgoal : StdMap.find (s.connectedServices.map
        (fun e => (e.1, withEndpoints svcinfo e.2)) : StdMap Nat ServiceInfo) j
        = if j = svcinfo.serviceId ∧ s.connectedServices.find j ≠ none then some svcinfo
          else (s.connectedServices.find j).map (withEndpoints svcinfo) := by
      rw [hmap]
      by_cases hj : j = svcinfo.serviceId
      · subst hj; simp [hc]
      · simp [hj]
    cases hp : s.pendingServices.find svcinfo.serviceId <;> exact hgoal

theorem updateServiceInfo_pending (s : ServiceDirectory) (svcinfo : ServiceInfo) (j : Nat) :
    (updateServiceInfo s svcinfo).2.pendingServices.find j
      = if j = svcinfo.serviceId ∧ s.connectedServices.find j = none
          ∧ s.pendingServices.find j ≠ none then some svcinfo
        else s.pendingServices.find j := by
  have hmap := fun k => StdMap.find_map_val s.connectedServices (withEndpoints svcinfo) k
  unfold updateServiceInfo
  simp only [updateServiceInfo_loop]
  cases hc : s.connectedServices.find svcinfo.serviceId with
  | some r =>
    have h1 : StdMap.find (s.connectedServices.map
        (fun e => (e.1, withEndpoints svcinfo e.2)) : StdMap Nat ServiceInfo) svcinfo.serviceId
        = some (withEndpoints svcinfo r) := by rw [hmap, hc]; rfl
    simp only [h1]
    by_cases hj : j = svcinfo.serviceId
    · subst hj; simp [hc]
    · simp [hj]
  | none =>
    have h1 : StdMap.find (s.connectedServices.map
        (fun e => (e.1, withEndpoints svcinfo e.2)) : StdMap Nat ServiceInfo) svcinfo.serviceId
        = none := by rw [hmap, hc]; rfl
    simp only [h1]
    cases hp : s.pendingServices.find svcinfo.serviceId with
    | none =>
      by_cases hj : j = svcinfo.serviceId
      · subst hj; simp [hc, hp]
      · simp [hj]
    | some r =>
      by_cases hj : j = svcinfo.serviceId
      · subst hj; simp [hc, hp, StdMap.find_assign_self]
      · simp [hj, StdMap.find_assign_ne _ _ _ _ hj]

theorem updateServiceInfo_frame (s : ServiceDirectory) (svcinfo : ServiceInfo) :
    (updateServiceInfo s svcinfo).2.nameToIdx = s.nameToIdx ∧
      (updateServiceInfo s svcinfo).2.socketToIdx = s.socketToIdx ∧
      (updateServiceInfo s svcinfo).2.idxToSocket = s.idxToSocket ∧
      (updateServiceInfo s svcinfo).2.servicesCount = s.servicesCount ∧
      (updateServiceInfo s svcinfo).2.emitted = s.emitted := by
  unfold updateServiceInfo
  simp only
  split
  · exact ⟨rfl, rfl, rfl, rfl, rfl⟩
  · split <;> exact ⟨rfl, rfl, rfl, rfl, rfl⟩

end ServiceDirectory

/-! ## Using up ids: registration and loss of a hidden service -/

namespace ServiceDirectory

theorem churn_cycle (s : ServiceDirectory) (hclean : Clean s)
    (hfree : Free s ((s.servicesCount + 1) % UINT_RANGE)) :
    onSocketDisconnected (registerService s (some 7) tmpInfo).2 7
      = { s with servicesCount := (s.servicesCount + 1) % UINT_RANGE } := by
  obtain ⟨hname, hval, hsock⟩ := hclean
  obtain ⟨h1, hp, hc, hi, hids⟩ := hfree
  have hname2 : s.nameToIdx.find tmpInfo.name = none := hname
  rw [registerService_ok s 7 tmpInfo hname2]
  generalize hidx : (s.servicesCount + 1) % UINT_RANGE = idx at *
  have hne : idx ≠ Service_ServiceDirectory := h1
  have hf7 : StdMap.find (StdMap.assign s.socketToIdx 7 [idx]) 7 = some [idx] :=
    StdMap.find_assign_self _ _ _
  have hrec : record
      { s with
        servicesCount := idx
        nameToIdx := s.nameToIdx.assign tmpInfo.name idx
        socketToIdx := s.socketToIdx.assign 7 [idx]
        pendingServices := s.pendingServices.assign idx { tmpInfo with serviceId := idx }
        idxToSocket := (s.idxToSocket.assign idx 7).filter (fun e => decide (e.2 ≠ 7)) } idx
      = some { tmpInfo with serviceId := idx } := by
    simp [record, hc, StdMap.find_assign_self]
  simp only [onSocketDisconnected, hsock, Option.getD_none, List.nil_append, hne, ne_eq,
    not_false_eq_true, if_true, hf7, unregisterAll, List.foldl_cons, List.foldl_nil]
  rw [unregisterService_ok _ idx _ hrec (by simp [StdMap.find_assign_self])]
  simp only [hc, Option.isNone_none, if_true]
  have e1 : StdMap.erase (StdMap.assign s.nameToIdx tmpInfo.name idx) tmpInfo.name
      = s.nameToIdx := StdMap.erase_assign_of_find_none _ _ _ hname2
  have e2 : StdMap.erase (StdMap.assign s.pendingServices idx { tmpInfo with serviceId := idx })
      idx = s.pendingServices := StdMap.erase_assign_of_find_none _ _ _ hp
  have e3 : (StdMap.assign s.idxToSocket idx 7).filter (fun e => decide (e.2 ≠ 7))
      = s.idxToSocket :=
    StdMap.filter_assign_of_find_none _ _ _ _ hi (fun e he => by simpa using hval e he)
      (by simp)
  have e4 : StdMap.erase (((StdMap.assign s.socketToIdx 7 [idx]).map
      (fun e => (e.1, e.2.erase idx)) : StdMap Nat (List Nat))) 7 = s.socketToIdx :=
    StdMap.erase_map_assign_of_find_none s.socketToIdx 7 [idx] (fun ids => ids.erase idx) hsock
      (fun e he => List.erase_of_not_mem (hids e he))
  have hh : hidden tmpInfo.name = true := by decide
  simp only [e1, e2, e3, e4, hh, if_true]

end ServiceDirectory

open ServiceDirectory

theorem exec_append (calls more : List Call) :
    exec (calls ++ more) = more.foldl History.step (exec calls) := by
  simp [exec, List.foldl_append]

theorem run_append (calls more : List Call) :
    run (calls ++ more) = more.foldl call (run calls) := by
  simp [run, List.foldl_append]

theorem foldl_step_state (calls : List Call) : ∀ (h : History),
    (calls.foldl History.step h).state = calls.foldl call h.state := by
  induction calls with
  | nil => intro h; rfl
  | cons c t ih => intro h; simp only [List.foldl_cons]; rw [ih]; rfl

theorem exec_state (calls : List Call) : (exec calls).state = run calls :=
  foldl_step_state calls History.init

theorem churn_step (h : History) (hclean : Clean h.state)
    (hfree : Free h.state ((h.state.servicesCount + 1) % UINT_RANGE)) :
    (churnCalls.foldl History.step h).state
        = { h.state with servicesCount := (h.state.servicesCount + 1) % UINT_RANGE } ∧
      (churnCalls.foldl History.step h).returned
        = h.returned ++ [(h.state.servicesCount + 1) % UINT_RANGE] := by
  have hname : h.state.nameToIdx.find tmpInfo.name = none := hclean.1
  have hcycle := churn_cycle h.state hclean hfree
  simp only [churnCalls, List.foldl_cons, List.foldl_nil, History.step, call, returnedBy,
    List.append_nil]
  refine ⟨hcycle, ?_⟩
  rw [registerService_ok h.state 7 tmpInfo hname]

theorem churn_run (n : Nat) : ∀ (h : History), Clean h.state →
    (∀ k, k < n → Free h.state ((h.state.servicesCount + k + 1) % UINT_RANGE)) →
    h.state.servicesCount < UINT_RANGE →
    ((churn n).foldl History.step h).state
        = { h.state with servicesCount := (h.state.servicesCount + n) % UINT_RANGE } ∧
      ∃ ids, ((churn n).foldl History.step h).returned = h.returned ++ ids ∧ ids.length = n := by
  induction n with
  | zero =>
    intro h _ _ hlt
    refine ⟨?_, [], by simp [churn], rfl⟩
    simp [churn, Nat.mod_eq_of_lt hlt]
  | succ n ih =>
    intro h hclean hfree hlt
    obtain ⟨hst, hret⟩ := churn_step h hclean (hfree 0 (Nat.succ_pos n))
    have hR : 0 < UINT_RANGE := by decide
    have hclean2 : Clean (churnCalls.foldl History.step h).state := by
      rw [hst]; exact hclean
    have hcount : (churnCalls.foldl History.step h).state.servicesCount
        = (h.state.servicesCount + 1) % UINT_RANGE := by rw [hst]
    have hfree2 : ∀ k, k < n → Free (churnCalls.foldl History.step h).state
        (((churnCalls.foldl History.step h).state.servicesCount + k + 1) % UINT_RANGE) := by
      intro k hk
      have := hfree (k + 1) (Nat.succ_lt_succ hk)
      rw [hcount]
      have e : ((h.state.servicesCount + 1) % UINT_RANGE + k + 1) % UINT_RANGE
          = (h.state.servicesCount + (k + 1) + 1) % UINT_RANGE := by
        rw [Nat.add_assoc, Nat.mod_add_mod]
        congr 1
        omega
      rw [e, hst]
      exact this
    obtain ⟨hst2, ids, hret2, hlen⟩ := ih _ hclean2 hfree2 (by rw [hcount]; exact Nat.mod_lt _ hR)
    simp only [churn, List.foldl_append]
    refine ⟨?_, (h.state.servicesCount + 1) % UINT_RANGE :: ids, ?_, by simp [hlen]⟩
    · rw [hst2, hst]
      simp only
      congr 1
      rw [Nat.mod_add_mod]
      congr 1
      omega
    · rw [hret2, hret]
      simp

/-- State and returned ids after `pre` followed by `n` rounds of churn. -/
theorem exec_churn (pre : List Call) (n : Nat) (hclean : Clean (run pre))
    (hfree : ∀ k, k < n → Free (run pre) (((run pre).servicesCount + k + 1) % UINT_RANGE))
    (hlt : (run pre).servicesCount < UINT_RANGE) :
    run (pre ++ churn n)
        = { run pre with servicesCount := ((run pre).servicesCount + n) % UINT_RANGE } ∧
      ∃ ids, (exec (pre ++ churn n)).returned = (exec pre).returned ++ ids ∧ ids.length = n := by
  have h := churn_run n (exec pre) (by rw [exec_state]; exact hclean)
    (by rw [exec_state]; exact hfree) (by rw [exec_state]; exact hlt)
  rw [exec_state] at h
  rw [← exec_state, exec_append]
  exact h

theorem find_singleton_ne {V : Type} (k j : Nat) (v : V) (h : j ≠ k) :
    StdMap.find [(k, v)] j = none := by
  have : ¬ k = j := fun e => h e.symm
  simp [StdMap.find, this]

theorem wrapCalls_state :
    run wrapCalls = { run [Call.registerService (some 0) (mkInfo "ServiceDirectory" [])] with
        servicesCount := 2 ^ 32 - 1 } ∧
      ∃ ids, (exec wrapCalls).returned = [1] ++ ids ∧ ids.length = 2 ^ 32 - 2 := by
  have hpre : run [Call.registerService (some 0) (mkInfo "ServiceDirectory" [])]
      = { connectedServices := [],
          pendingServices := [(1, { mkInfo "ServiceDirectory" [] with serviceId := 1 })],
          nameToIdx := [("ServiceDirectory", 1)], socketToIdx := [], idxToSocket := [(1, 0)],
          servicesCount := 1, emitted := [] } := rfl
  have hret : (exec [Call.registerService (some 0) (mkInfo "ServiceDirectory" [])]).returned
      = [1] := rfl
  have h := exec_churn [Call.registerService (some 0) (mkInfo "ServiceDirectory" [])]
    (2 ^ 32 - 2)
    (by rw [hpre]; unfold Clean; decide)
    (by
      intro k hk
      rw [hpre]
      have h1 : (1 + k + 1) % UINT_RANGE ≠ 1 := by unfold UINT_RANGE; omega
      refine ⟨h1, find_singleton_ne _ _ _ h1, rfl, find_singleton_ne _ _ _ h1, ?_⟩
      intro e he
      simp at he)
    (by rw [hpre]; decide)
  rw [hret] at h
  refine ⟨?_, h.2⟩
  rw [wrapCalls, h.1, hpre]
  rfl

theorem collideCalls_state :
    run collideCalls =
      { connectedServices := [(1, { mkInfo "ServiceDirectory" [] with serviceId := 1 })],
        pendingServices := [(1, { mkInfo "b" [] with serviceId := 1 })],
        nameToIdx := [("ServiceDirectory", 1), ("b", 1)], socketToIdx := [],
        idxToSocket := [(1, 5)], servicesCount := 1,
        emitted := [Emission.serviceAdded 1 "ServiceDirectory"] } := by
  have hpre : run [Call.registerService (some 0) (mkInfo "ServiceDirectory" []),
        Call.serviceReady 1]
      = { connectedServices := [(1, { mkInfo "ServiceDirectory" [] with serviceId := 1 })],
          pendingServices := [],
          nameToIdx := [("ServiceDirectory", 1)], socketToIdx := [], idxToSocket := [(1, 0)],
          servicesCount := 1, emitted := [Emission.serviceAdded 1 "ServiceDirectory"] } := rfl
  have h := exec_churn [Call.registerService (some 0) (mkInfo "ServiceDirectory" []),
      Call.serviceReady 1] (2 ^ 32 - 1)
    (by rw [hpre]; unfold Clean; decide)
    (by
      intro k hk
      rw [hpre]
      have h1 : (1 + k + 1) % UINT_RANGE ≠ 1 := by unfold UINT_RANGE; omega
      refine ⟨h1, rfl, find_singleton_ne _ _ _ h1, find_singleton_ne _ _ _ h1, ?_⟩
      intro e he
      simp at he)
    (by rw [hpre]; decide)
  rw [collideCalls, run_append, h.1, hpre]
  rfl

namespace ServiceDirectory

/-! ### Frame: the id counter -/

theorem serviceReady_count (s : ServiceDirectory) (idx : Nat) :
    (serviceReady s idx).2.servicesCount = s.servicesCount := by
  cases hp : s.pendingServices.find idx with
  | none => rw [(serviceReady_error s idx hp).2]
  | some info => rw [serviceReady_ok s idx info hp]

theorem unregisterService_cases (s : ServiceDirectory) (idx : Nat) :
    (unregisterService s idx).2 = s ∨
      ∃ info, record s idx = some info ∧ s.nameToIdx.find info.name ≠ none ∧
        (unregisterService s idx).1 = .ok () := by
  rcases result_cases (unregisterService s idx).1 with h | h
  · obtain ⟨info, hr, hn⟩ := unregisterService_ok_inv s idx h
    exact Or.inr ⟨info, hr, hn, h⟩
  · exact Or.inl (unregisterService_error s idx h)

theorem unregisterService_count (s : ServiceDirectory) (idx : Nat) :
    (unregisterService s idx).2.servicesCount = s.servicesCount := by
  rcases unregisterService_cases s idx with h | ⟨info, hr, hn, _⟩
  · rw [h]
  · rw [unregisterService_ok s idx info hr hn]

theorem unregisterAll_induct (P : ServiceDirectory → Prop)
    (hP : ∀ s idx, P s → P (unregisterService s idx).2) (ids : List Nat) :
    ∀ s, P s → P (unregisterAll s ids) := by
  induction ids with
  | nil => intro s h; exact h
  | cons idx rest ih =>
    intro s h
    simp only [unregisterAll, List.foldl_cons]
    exact ih _ (hP s idx h)

theorem onSocketDisconnected_eq (s : ServiceDirectory) (socket : TransportSocketPtr) :
    onSocketDisconnected s socket =
      match s.socketToIdx.find socket with
      | none => { s with idxToSocket := s.idxToSocket.filter (fun e => decide (e.2 ≠ socket)) }
      | some ids =>
        { unregisterAll
            { s with idxToSocket := s.idxToSocket.filter (fun e => decide (e.2 ≠ socket)) } ids
          with socketToIdx :=
            (unregisterAll
              { s with idxToSocket := s.idxToSocket.filter (fun e => decide (e.2 ≠ socket)) }
              ids).socketToIdx.erase socket } := by
  rfl

theorem onSocketDisconnected_count (s : ServiceDirectory) (socket : TransportSocketPtr) :
    (onSocketDisconnected s socket).servicesCount = s.servicesCount := by
  rw [onSocketDisconnected_eq]
  cases s.socketToIdx.find socket with
  | none => rfl
  | some ids =>
    simp only
    exact unregisterAll_induct (fun t => t.servicesCount = s.servicesCount)
      (fun t idx h => (unregisterService_count t idx).trans h) ids _ rfl

end ServiceDirectory

theorem call_count (s : ServiceDirectory) (c : Call) (h : returnedBy s c = []) :
    (call s c).servicesCount = s.servicesCount := by
  cases c with
  | registerService sbo svcinfo =>
    simp only [call]
    rcases hr : (registerService s sbo svcinfo).1 with e | idx
    · rw [registerService_error s sbo svcinfo ⟨e, hr⟩]
    · simp [returnedBy, hr] at h
  | serviceReady idx => exact serviceReady_count s idx
  | unregisterService idx => exact unregisterService_count s idx
  | updateServiceInfo svcinfo => exact (updateServiceInfo_frame s svcinfo).2.2.2.1
  | onSocketDisconnected socket => exact onSocketDisconnected_count s socket

theorem returnedBy_cases (s : ServiceDirectory) (c : Call) :
    returnedBy s c = [] ∨
      ∃ socket svcinfo, c = Call.registerService (some socket) svcinfo ∧
        s.nameToIdx.find svcinfo.name = none ∧
        returnedBy s c = [(s.servicesCount + 1) % UINT_RANGE] := by
  cases c with
  | registerService sbo svcinfo =>
    rcases hr : (registerService s sbo svcinfo).1 with e | idx
    · left; simp [returnedBy, hr]
    · right
      obtain ⟨hf, hidx, socket, hs⟩ := registerService_ok_inv s sbo svcinfo idx hr
      exact ⟨socket, svcinfo, by rw [hs], hf, by simp [returnedBy, hr, hidx]⟩
  | _ => left; rfl

theorem exec_returned (calls : List Call) :
    (exec calls).returned.length < UINT_RANGE →
      (exec calls).returned = List.range' 1 (exec calls).returned.length ∧
      (exec calls).state.servicesCount = (exec calls).returned.length := by
  induction calls using List.reverseRecOn with
  | nil => intro _; exact ⟨rfl, rfl⟩
  | append_singleton calls c ih =>
    intro hlen
    rw [exec_append] at hlen ⊢
    simp only [List.foldl_cons, List.foldl_nil, History.step, List.length_append] at hlen ⊢
    obtain ⟨hret, hcount⟩ := ih (by omega)
    rcases returnedBy_cases (exec calls).state c with h | ⟨socket, svcinfo, hc, hf, h⟩
    · rw [h]
      simp only [List.append_nil, List.length_nil, Nat.add_zero]
      exact ⟨hret, by rw [call_count _ _ h]; exact hcount⟩
    · rw [h] at hlen ⊢
      simp only [List.length_singleton] at hlen ⊢
      have hmod : ((exec calls).state.servicesCount + 1) % UINT_RANGE
          = (exec calls).returned.length + 1 := by
        rw [hcount]; exact Nat.mod_eq_of_lt hlen
      refine ⟨?_, ?_⟩
      · rw [hmod, List.range'_1_concat, ← hret]
        congr 2
        omega
      · rw [hc]
        simp only [call]
        rw [registerService_ok _ socket svcinfo hf]
        exact hmod

namespace ServiceDirectory

theorem updateServiceInfo_connected_ne_none (s : ServiceDirectory) (svcinfo : ServiceInfo)
    (j : Nat) :
    (updateServiceInfo s svcinfo).2.connectedServices.find j ≠ none ↔
      s.connectedServices.find j ≠ none := by
  rw [updateServiceInfo_connected]
  split
  · rename_i h; simp [h.2]
  · cases s.connectedServices.find j <;> simp

theorem updateServiceInfo_pending_ne_none (s : ServiceDirectory) (svcinfo : ServiceInfo)
    (j : Nat) :
    (updateServiceInfo s svcinfo).2.pendingServices.find j ≠ none ↔
      s.pendingServices.find j ≠ none := by
  rw [updateServiceInfo_pending]
  split
  · rename_i h; simp [h.2.2]
  · rfl

/-! ### The keys of the two maps -/

theorem KeysInv_registerService (s : ServiceDirectory) (sbo : Option TransportSocketPtr)
    (svcinfo : ServiceInfo) (h : KeysInv s) (hlt : s.servicesCount + 1 < UINT_RANGE) :
    KeysInv (registerService s sbo svcinfo).2 := by
  rcases result_cases' (registerService s sbo svcinfo).1 with ⟨idx, hok⟩ | herr
  · obtain ⟨hf, _, socket, hs⟩ := registerService_ok_inv s sbo svcinfo idx hok
    subst hs
    rw [registerService_ok s socket svcinfo hf, Nat.mod_eq_of_lt hlt]
    obtain ⟨hb, hd⟩ := h
    constructor
    · intro j hj
      show j ≤ s.servicesCount + 1
      simp only [stored, StdMap.find_assign] at hj
      by_cases hje : j = s.servicesCount + 1
      · omega
      · simp only [hje, if_false] at hj
        have := hb j hj
        omega
    · intro j hj
      simp only [StdMap.find_assign] at hj
      by_cases hje : j = s.servicesCount + 1
      · have := hb j (Or.inr hj.2)
        omega
      · simp only [hje, if_false] at hj
        exact hd j hj
  · rw [registerService_error s sbo svcinfo herr]
    exact h

theorem KeysInv_serviceReady (s : ServiceDirectory) (idx : Nat) (h : KeysInv s) :
    KeysInv (serviceReady s idx).2 := by
  cases hp : s.pendingServices.find idx with
  | none => rw [(serviceReady_error s idx hp).2]; exact h
  | some info =>
    rw [serviceReady_ok s idx info hp]
    obtain ⟨hb, hd⟩ := h
    have hst : s.stored idx := Or.inl (by rw [hp]; simp)
    constructor
    · intro j hj
      simp only [stored, StdMap.find_assign, StdMap.find_erase] at hj
      by_cases hje : j = idx
      · subst hje; exact hb j hst
      · simp only [hje, if_false] at hj
        exact hb j hj
    · intro j hj
      simp only [StdMap.find_assign, StdMap.find_erase] at hj
      by_cases hje : j = idx
      · simp [hje] at hj
      · simp only [hje, if_false] at hj
        exact hd j hj

theorem KeysInv_unregisterService (s : ServiceDirectory) (idx : Nat) (h : KeysInv s) :
    KeysInv (unregisterService s idx).2 := by
  rcases unregisterService_cases s idx with he | ⟨info, hr, hn, _⟩
  · rw [he]; exact h
  · rw [unregisterService_ok s idx info hr hn]
    obtain ⟨hb, hd⟩ := h
    have hp : ∀ j, StdMap.find (if (s.connectedServices.find idx).isNone
        then s.pendingServices.erase idx else s.pendingServices) j ≠ none →
        s.pendingServices.find j ≠ none := by
      intro j hj
      split at hj
      · rw [StdMap.find_erase] at hj
        by_cases hje : j = idx
        · simp [hje] at hj
        · simpa [hje] using hj
      · exact hj
    have hc : ∀ j, StdMap.find (if (s.connectedServices.find idx).isNone
        then s.connectedServices else s.connectedServices.erase idx) j ≠ none →
        s.connectedServices.find j ≠ none := by
      intro j hj
      split at hj
      · exact hj
      · rw [StdMap.find_erase] at hj
        by_cases hje : j = idx
        · simp [hje] at hj
        · simpa [hje] using hj
    constructor
    · intro j hj
      exact hb j (hj.elim (fun x => Or.inl (hp j x)) (fun x => Or.inr (hc j x)))
    · intro j hj
      exact hd j ⟨hp j hj.1, hc j hj.2⟩

theorem KeysInv_updateServiceInfo (s : ServiceDirectory) (svcinfo : ServiceInfo)
    (h : KeysInv s) : KeysInv (updateServiceInfo s svcinfo).2 := by
  obtain ⟨hb, hd⟩ := h
  constructor
  · intro j hj
    rw [(updateServiceInfo_frame s svcinfo).2.2.2.1]
    apply hb j
    unfold stored at hj ⊢
    rw [updateServiceInfo_pending_ne_none, updateServiceInfo_connected_ne_none] at hj
    exact hj
  · intro j hj
    rw [updateServiceInfo_pending_ne_none, updateServiceInfo_connected_ne_none] at hj
    exact hd j hj

theorem KeysInv_onSocketDisconnected (s : ServiceDirectory) (socket : TransportSocketPtr)
    (h : KeysInv s) : KeysInv (onSocketDisconnected s socket) := by
  rw [onSocketDisconnected_eq]
  cases s.socketToIdx.find socket with
  | none => exact h
  | some ids =>
    exact unregisterAll_induct KeysInv KeysInv_unregisterService ids
      { s with idxToSocket := s.idxToSocket.filter (fun e => decide (e.2 ≠ socket)) } h

end ServiceDirectory

namespace ServiceDirectory

/-! ### The `serviceId` of the stored records -/

theorem IdInv_registerService (s : ServiceDirectory) (sbo : Option TransportSocketPtr)
    (svcinfo : ServiceInfo) (h : IdInv s) : IdInv (registerService s sbo svcinfo).2 := by
  rcases result_cases' (registerService s sbo svcinfo).1 with ⟨idx, hok⟩ | herr
  · obtain ⟨hf, _, socket, hs⟩ := registerService_ok_inv s sbo svcinfo idx hok
    subst hs
    rw [registerService_ok s socket svcinfo hf]
    intro j info hj
    simp only [StdMap.find_assign] at hj
    by_cases hje : j = (s.servicesCount + 1) % UINT_RANGE
    · rcases hj with hj | hj
      · simp only [hje, if_true, Option.some.injEq] at hj
        rw [← hj, hje]
      · exact h j info (Or.inr hj)
    · simp only [hje, if_false] at hj
      exact h j info hj
  · rw [registerService_error s sbo svcinfo herr]
    exact h

theorem IdInv_serviceReady (s : ServiceDirectory) (idx : Nat) (h : IdInv s) :
    IdInv (serviceReady s idx).2 := by
  cases hp : s.pendingServices.find idx with
  | none => rw [(serviceReady_error s idx hp).2]; exact h
  | some r =>
    rw [serviceReady_ok s idx r hp]
    intro j info hj
    simp only [StdMap.find_assign, StdMap.find_erase] at hj
    by_cases hje : j = idx
    · simp only [hje, if_true, Option.some.injEq] at hj
      rcases hj with hj | hj
      · simp at hj
      · rw [← hj, hje]
        exact h idx r (Or.inl hp)
    · simp only [hje, if_false] at hj
      exact h j info hj

theorem IdInv_unregisterService (s : ServiceDirectory) (idx : Nat) (h : IdInv s) :
    IdInv (unregisterService s idx).2 := by
  rcases unregisterService_cases s idx with he | ⟨r, hr, hn, _⟩
  · rw [he]; exact h
  · rw [unregisterService_ok s idx r hr hn]
    intro j info hj
    apply h j info
    rcases hj with hj | hj
    · left
      split at hj
      · rw [StdMap.find_erase] at hj
        by_cases hje : j = idx
        · simp [hje] at hj
        · simpa [hje] using hj
      · exact hj
    · right
      split at hj
      · exact hj
      · rw [StdMap.find_erase] at hj
        by_cases hje : j = idx
        · simp [hje] at hj
        · simpa [hje] using hj

theorem IdInv_updateServiceInfo (s : ServiceDirectory) (svcinfo : ServiceInfo)
    (h : IdInv s) : IdInv (updateServiceInfo s svcinfo).2 := by
  intro j info hj
  rw [updateServiceInfo_pending, updateServiceInfo_connected] at hj
  rcases hj with hj | hj
  · split at hj
    · rename_i hc
      simp only [Option.some.injEq] at hj
      rw [← hj, hc.1]
    · exact h j info (Or.inl hj)
  · split at hj
    · rename_i hc
      simp only [Option.some.injEq] at hj
      rw [← hj, hc.1]
    · cases hf : s.connectedServices.find j with
      | none => rw [hf] at hj; simp at hj
      | some r =>
        rw [hf] at hj
        simp only [Option.map_some', Option.some.injEq] at hj
        rw [← hj, withEndpoints_serviceId]
        exact h j r (Or.inr hf)

theorem IdInv_onSocketDisconnected (s : ServiceDirectory) (socket : TransportSocketPtr)
    (h : IdInv s) : IdInv (onSocketDisconnected s socket) := by
  rw [onSocketDisconnected_eq]
  cases s.socketToIdx.find socket with
  | none => exact h
  | some ids =>
    exact unregisterAll_induct IdInv IdInv_unregisterService ids
      { s with idxToSocket := s.idxToSocket.filter (fun e => decide (e.2 ≠ socket)) } h

/-! ### The ids that stay stored -/

theorem stored_unregisterService (s : ServiceDirectory) (idx j : Nat) (h : s.stored j)
    (hne : (unregisterService s idx).1 = .ok () → j ≠ idx) :
    (unregisterService s idx).2.stored j := by
  rcases unregisterService_cases s idx with he | ⟨r, hr, hn, hok⟩
  · rw [he]; exact h
  · have hj := hne hok
    rw [unregisterService_ok s idx r hr hn]
    unfold stored at h ⊢
    simp only
    rcases h with h | h
    · left
      split
      · rw [StdMap.find_erase_ne _ _ _ hj]; exact h
      · exact h
    · right
      split
      · exact h
      · rw [StdMap.find_erase_ne _ _ _ hj]; exact h

theorem stored_unregisterAll (ids : List Nat) (j : Nat) : ∀ (s : ServiceDirectory),
    s.stored j → j ∉ unregisteredIn s ids → (unregisterAll s ids).stored j := by
  induction ids with
  | nil => intro s h _; exact h
  | cons idx rest ih =>
    intro s h hnot
    simp only [unregisteredIn, List.mem_append, not_or] at hnot
    simp only [unregisterAll, List.foldl_cons]
    apply ih _ _ hnot.2
    apply stored_unregisterService s idx j h
    intro hok hje
    apply hnot.1
    rw [hok, hje]
    simp

end ServiceDirectory

theorem stored_call (s : ServiceDirectory) (c : Call) (j : Nat) (h : s.stored j)
    (hnot : j ∉ removedBy s c) : (call s c).stored j := by
  cases c with
  | registerService sbo svcinfo =>
    simp only [call]
    rcases result_cases' (registerService s sbo svcinfo).1 with ⟨idx, hok⟩ | herr
    · obtain ⟨hf, _, socket, hs⟩ := registerService_ok_inv s sbo svcinfo idx hok
      subst hs
      rw [registerService_ok s socket svcinfo hf]
      unfold stored at h ⊢
      simp only [StdMap.find_assign]
      rcases h with h | h
      · left; split
        · simp
        · exact h
      · right; exact h
    · rw [registerService_error s sbo svcinfo herr]; exact h
  | serviceReady idx =>
    simp only [call]
    cases hp : s.pendingServices.find idx with
    | none => rw [(serviceReady_error s idx hp).2]; exact h
    | some r =>
      rw [serviceReady_ok s idx r hp]
      unfold stored at h ⊢
      simp only [StdMap.find_assign, StdMap.find_erase]
      by_cases hje : j = idx
      · right; simp [hje]
      · simpa [hje] using h
  | unregisterService idx =>
    simp only [call]
    apply stored_unregisterService s idx j h
    intro hok hje
    apply hnot
    simp [removedBy, hok, hje]
  | updateServiceInfo svcinfo =>
    simp only [call]
    unfold stored at h ⊢
    rw [updateServiceInfo_pending_ne_none, updateServiceInfo_connected_ne_none]
    exact h
  | onSocketDisconnected socket =>
    simp only [call, removedBy, unregisteredBy] at hnot ⊢
    rw [onSocketDisconnected_eq]
    cases hf : s.socketToIdx.find socket with
    | none => exact h
    | some ids =>
      rw [hf] at hnot
      exact stored_unregisterAll ids j
        { s with idxToSocket := s.idxToSocket.filter (fun e => decide (e.2 ≠ socket)) } h hnot

theorem stored_returned (s : ServiceDirectory) (c : Call) (j : Nat) (h : j ∈ returnedBy s c) :
    (call s c).stored j := by
  rcases returnedBy_cases s c with h0 | ⟨socket, svcinfo, hc, hf, hret⟩
  · rw [h0] at h; simp at h
  · rw [hret] at h
    simp only [List.mem_singleton] at h
    subst hc
    simp only [call]
    rw [registerService_ok s socket svcinfo hf]
    left
    simp only [StdMap.find_assign, h, if_true]
    simp

theorem KeysInv_call (s : ServiceDirectory) (c : Call) (h : s.KeysInv)
    (hlt : returnedBy s c = [] ∨ s.servicesCount + 1 < UINT_RANGE) : (call s c).KeysInv := by
  cases c with
  | registerService sbo svcinfo =>
    simp only [call]
    rcases hlt with h0 | hlt
    · rcases result_cases' (registerService s sbo svcinfo).1 with ⟨idx, hok⟩ | herr
      · simp [returnedBy, hok] at h0
      · rw [registerService_error s sbo svcinfo herr]; exact h
    · exact KeysInv_registerService s sbo svcinfo h hlt
  | serviceReady idx => exact KeysInv_serviceReady s idx h
  | unregisterService idx => exact KeysInv_unregisterService s idx h
  | updateServiceInfo svcinfo => exact KeysInv_updateServiceInfo s svcinfo h
  | onSocketDisconnected socket => exact KeysInv_onSocketDisconnected s socket h

theorem IdInv_call (s : ServiceDirectory) (c : Call) (h : s.IdInv) : (call s c).IdInv := by
  cases c with
  | registerService sbo svcinfo => exact IdInv_registerService s sbo svcinfo h
  | serviceReady idx => exact IdInv_serviceReady s idx h
  | unregisterService idx => exact IdInv_unregisterService s idx h
  | updateServiceInfo svcinfo => exact IdInv_updateServiceInfo s svcinfo h
  | onSocketDisconnected socket => exact IdInv_onSocketDisconnected s socket h

theorem exec_IdInv (calls : List Call) : (exec calls).state.IdInv := by
  induction calls using List.reverseRecOn with
  | nil =>
    intro j info hj
    simp [exec, History.init, ServiceDirectory.init, StdMap.find] at hj
  | append_singleton calls c ih =>
    rw [exec_append]
    exact IdInv_call _ c ih

theorem exec_KeysInv (calls : List Call) :
    (exec calls).returned.length < UINT_RANGE →
      (exec calls).state.KeysInv ∧ ∀ j ∈ (exec calls).live, (exec calls).state.stored j := by
  induction calls using List.reverseRecOn with
  | nil =>
    intro _
    refine ⟨⟨?_, ?_⟩, ?_⟩
    · intro j hj
      simp [exec, History.init, ServiceDirectory.init, stored, StdMap.find] at hj
    · intro j hj
      simp [exec, History.init, ServiceDirectory.init, StdMap.find] at hj
    · intro j hj
      simp [exec, History.init] at hj
  | append_singleton calls c ih =>
    intro hlen
    have hlen0 := hlen
    rw [exec_append] at hlen ⊢
    simp only [List.foldl_cons, List.foldl_nil, History.step, List.length_append] at hlen ⊢
    obtain ⟨hkeys, hlive⟩ := ih (by omega)
    obtain ⟨_, hcount⟩ := exec_returned calls (by omega)
    constructor
    · apply KeysInv_call _ c hkeys
      rcases returnedBy_cases (exec calls).state c with h0 | ⟨_, _, _, _, hret⟩
      · exact Or.inl h0
      · right
        rw [hret] at hlen
        simp only [List.length_singleton] at hlen
        omega
    · intro j hj
      simp only [List.mem_filter, List.mem_append, decide_eq_true_eq] at hj
      rcases hj.1 with hl | hr
      · exact stored_call _ c j (hlive j hl) hj.2
      · exact stored_returned _ c j hr

theorem unregisterService_connected_sub (s : ServiceDirectory) (idx j : Nat)
    (h : (unregisterService s idx).2.connectedServices.find j ≠ none) :
    s.connectedServices.find j ≠ none := by
  rcases unregisterService_cases s idx with he | ⟨info, hr, hn, _⟩
  · rw [he] at h; exact h
  · rw [unregisterService_ok s idx info hr hn] at h
    simp only at h
    split at h
    · exact h
    · rw [StdMap.find_erase] at h
      by_cases hje : j = idx
      · simp [hje] at h
      · simpa [hje] using h

/-- A key of `connectedServices` after a call was one before, or the call is
`serviceReady` of that key. -/
theorem call_connected (s : ServiceDirectory) (c : Call) (j : Nat)
    (h : (call s c).connectedServices.find j ≠ none) :
    s.connectedServices.find j ≠ none ∨ c = Call.serviceReady j := by
  cases c with
  | registerService sbo svcinfo =>
    left
    simp only [call] at h
    rcases result_cases' (registerService s sbo svcinfo).1 with ⟨idx, hok⟩ | herr
    · obtain ⟨hf, _, socket, hs⟩ := registerService_ok_inv s sbo svcinfo idx hok
      subst hs
      rw [registerService_ok s socket svcinfo hf] at h
      exact h
    · rw [registerService_error s sbo svcinfo herr] at h
      exact h
  | serviceReady idx =>
    simp only [call] at h
    cases hp : s.pendingServices.find idx with
    | none =>
      rw [(serviceReady_error s idx hp).2] at h
      exact Or.inl h
    | some info =>
      rw [serviceReady_ok s idx info hp] at h
      simp only [StdMap.find_assign] at h
      by_cases hje : j = idx
      · right; rw [hje]
      · left; simpa [hje] using h
  | unregisterService idx =>
    left
    exact unregisterService_connected_sub s idx j h
  | updateServiceInfo svcinfo =>
    left
    simp only [call] at h
    exact (updateServiceInfo_connected_ne_none s svcinfo j).1 h
  | onSocketDisconnected socket =>
    left
    simp only [call] at h
    rw [onSocketDisconnected_eq] at h
    cases hf : s.socketToIdx.find socket with
    | none => rw [hf] at h; exact h
    | some ids =>
      rw [hf] at h
      by_contra hcon
      have hnone : s.connectedServices.find j = none := hcon
      have := unregisterAll_induct (fun t => t.connectedServices.find j = none)
        (fun t k ht => by
          by_contra h3
          exact (unregisterService_connected_sub t k j h3) ht) ids
        { s with idxToSocket := s.idxToSocket.filter (fun e => decide (e.2 ≠ socket)) } hnone
      exact h this

/-- Every key of `connectedServices` has been the argument of a call of
`serviceReady`. -/
theorem run_connected (calls : List Call) (j : Nat)
    (h : (run calls).connectedServices.find j ≠ none) : Call.serviceReady j ∈ calls := by
  induction calls using List.reverseRecOn with
  | nil => simp [run, ServiceDirectory.init, StdMap.find] at h
  | append_singleton calls c ih =>
    rw [run_append] at h
    simp only [List.foldl_cons, List.foldl_nil] at h
    rcases call_connected _ c j h with h1 | h1
    · exact List.mem_append_left _ (ih h1)
    · rw [h1]; simp

/-! ## The loop of onSocketDisconnected -/

namespace ServiceDirectory

theorem record_eq_some (s : ServiceDirectory) (idx : Nat) (info : ServiceInfo) :
    record s idx = some info ↔
      s.connectedServices.find idx = some info ∨
        (s.connectedServices.find idx = none ∧ s.pendingServices.find idx = some info) := by
  unfold record
  cases hc : s.connectedServices.find idx with
  | none => simp
  | some r => simp

theorem record_eq_none (s : ServiceDirectory) (idx : Nat) :
    record s idx = none ↔
      s.connectedServices.find idx = none ∧ s.pendingServices.find idx = none := by
  unfold record
  cases hc : s.connectedServices.find idx with
  | none => simp
  | some r => simp

/-- One call of `unregisterService` in a state whose name index is consistent and
whose maps are disjoint. -/
theorem unregisterService_step (s : ServiceDirectory) (idx : Nat) (hN : NameInv s)
    (hD : Disjoint s) :
    NameInv (unregisterService s idx).2 ∧ Disjoint (unregisterService s idx).2 ∧
    (∀ j, (unregisterService s idx).2.pendingServices.find j
      = if j = idx then none else s.pendingServices.find j) ∧
    (∀ j, (unregisterService s idx).2.connectedServices.find j
      = if j = idx then none else s.connectedServices.find j) ∧
    (∀ name, (unregisterService s idx).2.nameToIdx.find name
      = if (record s idx).map (fun r => r.name) = some name then none
        else s.nameToIdx.find name) ∧
    (unregisterService s idx).2.emitted = s.emitted ++ removalOf s idx ∧
    (unregisterService s idx).2.idxToSocket = s.idxToSocket ∧
    (unregisterService s idx).2.servicesCount = s.servicesCount := by
  cases hr : record s idx with
  | none =>
    rw [(unregisterService_not_found s idx hr).2]
    obtain ⟨hc, hp⟩ := (record_eq_none s idx).1 hr
    refine ⟨hN, hD, ?_, ?_, ?_, ?_, rfl, rfl⟩
    · intro j
      by_cases hj : j = idx
      · simp [hj, hp]
      · simp [hj]
    · intro j
      by_cases hj : j = idx
      · simp [hj, hc]
      · simp [hj]
    · intro name; simp
    · simp [removalOf, hr]
  | some info =>
    have hname : s.nameToIdx.find info.name = some idx := by
      rcases (record_eq_some s idx info).1 hr with h | ⟨_, h⟩
      · exact hN idx info (Or.inr h)
      · exact hN idx info (Or.inl h)
    have hn : s.nameToIdx.find info.name ≠ none := by rw [hname]; simp
    have hp : ∀ j, StdMap.find (if (s.connectedServices.find idx).isNone
        then s.pendingServices.erase idx else s.pendingServices) j
        = if j = idx then none else s.pendingServices.find j := by
      intro j
      cases hc : s.connectedServices.find idx with
      | none => simp [StdMap.find_erase]
      | some r =>
        have hpn : s.pendingServices.find idx = none := by
          by_contra hcon
          exact hD idx ⟨hcon, by rw [hc]; simp⟩
        by_cases hj : j = idx
        · simp [hj, hpn]
        · simp [hj]
    have hc : ∀ j, StdMap.find (if (s.connectedServices.find idx).isNone
        then s.connectedServices else s.connectedServices.erase idx) j
        = if j = idx then none else s.connectedServices.find j := by
      intro j
      cases hc : s.connectedServices.find idx with
      | none =>
        by_cases hj : j = idx
        · simp [hj, hc]
        · simp [hj]
      | some r => simp [StdMap.find_erase]
    rw [unregisterService_ok s idx info hr hn]
    refine ⟨?_, ?_, hp, hc, ?_, ?_, rfl, rfl⟩
    · intro j r hj
      simp only [hp, hc] at hj
      by_cases hje : j = idx
      · simp [hje] at hj
      · simp only [hje, if_false] at hj
        have hjn := hN j r hj
        show StdMap.find (s.nameToIdx.erase info.name) r.name = some j
        rw [StdMap.find_erase]
        have hne : r.name ≠ info.name := by
          intro heq
          rw [heq, hname] at hjn
          exact hje (Option.some.inj hjn).symm
        simp [hne, hjn]
    · intro j hj
      simp only [hp, hc] at hj
      by_cases hje : j = idx
      · simp [hje] at hj
      · simp only [hje, if_false] at hj
        exact hD j hj
    · intro name
      show StdMap.find (s.nameToIdx.erase info.name) name = _
      rw [StdMap.find_erase]
      by_cases hne : name = info.name
      · simp [hne]
      · have : ¬ info.name = name := fun h => hne h.symm
        simp [hne, this]
    · cases hh : hidden info.name <;> simp [removalOf, hr, hh]

theorem record_unregisterService (s : ServiceDirectory) (idx j : Nat) (hN : NameInv s)
    (hD : Disjoint s) :
    record (unregisterService s idx).2 j = if j = idx then none else record s j := by
  obtain ⟨_, _, hp, hc, _⟩ := unregisterService_step s idx hN hD
  unfold record
  rw [hp, hc]
  by_cases hj : j = idx
  · simp [hj]
  · simp [hj]

theorem mem_removalOf (s : ServiceDirectory) (idx : Nat) (e : Emission)
    (h : e ∈ removalOf s idx) :
    ∃ info, record s idx = some info ∧ hidden info.name = false ∧
      e = Emission.serviceRemoved idx info.name := by
  unfold removalOf at h
  cases hr : record s idx with
  | none => rw [hr] at h; simp at h
  | some info =>
    rw [hr] at h
    cases hh : hidden info.name with
    | true => simp [hh] at h
    | false =>
      simp [hh] at h
      exact ⟨info, rfl, hh, h⟩

theorem mem_removals (ids : List Nat) : ∀ (s : ServiceDirectory), NameInv s → Disjoint s →
    ∀ e, e ∈ removals s ids →
      ∃ idx, idx ∈ ids ∧ ∃ info, record s idx = some info ∧ hidden info.name = false ∧
        e = Emission.serviceRemoved idx info.name := by
  induction ids with
  | nil => intro s _ _ e h; simp [removals] at h
  | cons idx0 rest ih =>
    intro s hN hD e h
    simp only [removals, List.mem_append] at h
    rcases h with h | h
    · obtain ⟨info, hr, hh, he⟩ := mem_removalOf s idx0 e h
      exact ⟨idx0, List.mem_cons_self _ _, info, hr, hh, he⟩
    · obtain ⟨hN1, hD1, _⟩ := unregisterService_step s idx0 hN hD
      obtain ⟨idx, hmem, info, hr, hh, he⟩ := ih _ hN1 hD1 e h
      rw [record_unregisterService s idx0 idx hN hD] at hr
      by_cases hj : idx = idx0
      · simp [hj] at hr
      · simp only [hj, if_false] at hr
        exact ⟨idx, List.mem_cons_of_mem _ hmem, info, hr, hh, he⟩

theorem count_removals (ids : List Nat) : ∀ (s : ServiceDirectory), NameInv s → Disjoint s →
    ∀ idx, idx ∈ ids → ∀ info, record s idx = some info →
      (removals s ids).count (Emission.serviceRemoved idx info.name)
        = if hidden info.name then 0 else 1 := by
  induction ids with
  | nil => intro s _ _ idx h; simp at h
  | cons idx0 rest ih =>
    intro s hN hD idx hmem info hr
    obtain ⟨hN1, hD1, _⟩ := unregisterService_step s idx0 hN hD
    simp only [removals, List.count_append]
    by_cases hj : idx = idx0
    · subst hj
      have h2 : (removals (unregisterService s idx).2 rest).count
          (Emission.serviceRemoved idx info.name) = 0 := by
        rw [List.count_eq_zero]
        intro hin
        obtain ⟨j, _, r, hrj, _, he⟩ := mem_removals rest _ hN1 hD1 _ hin
        rw [record_unregisterService s idx j hN hD] at hrj
        simp only [Emission.serviceRemoved.injEq] at he
        simp [he.1] at hrj
      rw [h2]
      cases hh : hidden info.name <;> simp [removalOf, hr, hh]
    · have hmem2 : idx ∈ rest := by
        rcases List.mem_cons.1 hmem with h | h
        · exact absurd h hj
        · exact h
      have hr1 : record (unregisterService s idx0).2 idx = some info := by
        rw [record_unregisterService s idx0 idx hN hD]
        simp [hj, hr]
      rw [ih _ hN1 hD1 idx hmem2 info hr1]
      have h1 : (removalOf s idx0).count (Emission.serviceRemoved idx info.name) = 0 := by
        rw [List.count_eq_zero]
        intro hin
        obtain ⟨r, _, _, he⟩ := mem_removalOf s idx0 _ hin
        simp only [Emission.serviceRemoved.injEq] at he
        exact hj he.1
      rw [h1]
      simp

theorem unregisterService_name_none (s : ServiceDirectory) (idx : Nat) (name : String)
    (h : s.nameToIdx.find name = none) :
    (unregisterService s idx).2.nameToIdx.find name = none := by
  rcases unregisterService_cases s idx with he | ⟨info, hr, hn, _⟩
  · rw [he]; exact h
  · rw [unregisterService_ok s idx info hr hn]
    show StdMap.find (s.nameToIdx.erase info.name) name = none
    rw [StdMap.find_erase, h]
    simp

/-- The loop of `onSocketDisconnected` in a state whose name index is consistent and
whose maps are disjoint. -/
theorem unregisterAll_spec (ids : List Nat) : ∀ (s : ServiceDirectory), NameInv s →
    Disjoint s →
    NameInv (unregisterAll s ids) ∧ Disjoint (unregisterAll s ids) ∧
    (∀ j, (unregisterAll s ids).pendingServices.find j
      = if j ∈ ids then none else s.pendingServices.find j) ∧
    (∀ j, (unregisterAll s ids).connectedServices.find j
      = if j ∈ ids then none else s.connectedServices.find j) ∧
    (∀ idx, idx ∈ ids → ∀ info, record s idx = some info →
      (unregisterAll s ids).nameToIdx.find info.name = none) ∧
    (unregisterAll s ids).emitted = s.emitted ++ removals s ids ∧
    (unregisterAll s ids).idxToSocket = s.idxToSocket ∧
    (unregisterAll s ids).servicesCount = s.servicesCount := by
  induction ids with
  | nil =>
    intro s hN hD
    refine ⟨hN, hD, ?_, ?_, ?_, ?_, rfl, rfl⟩
    · intro j; simp [unregisterAll]
    · intro j; simp [unregisterAll]
    · intro idx h; simp at h
    · simp [unregisterAll, removals]
  | cons idx0 rest ih =>
    intro s hN hD
    obtain ⟨hN1, hD1, hp1, hc1, hn1, he1, hi1, hk1⟩ := unregisterService_step s idx0 hN hD
    obtain ⟨hN2, hD2, hp2, hc2, hn2, he2, hi2, hk2⟩ := ih _ hN1 hD1
    have hunf : unregisterAll s (idx0 :: rest)
        = unregisterAll (unregisterService s idx0).2 rest := by
      simp [unregisterAll]
    rw [hunf]
    refine ⟨hN2, hD2, ?_, ?_, ?_, ?_, ?_, ?_⟩
    · intro j
      rw [hp2, hp1]
      by_cases h1 : j ∈ rest
      · simp [h1]
      · by_cases h2 : j = idx0
        · simp [h2]
        · simp [h1, h2]
    · intro j
      rw [hc2, hc1]
      by_cases h1 : j ∈ rest
      · simp [h1]
      · by_cases h2 : j = idx0
        · simp [h2]
        · simp [h1, h2]
    · intro idx hmem info hr
      by_cases h2 : idx = idx0
      · subst h2
        have hfirst : (unregisterService s idx).2.nameToIdx.find info.name = none := by
          rw [hn1, hr]; simp
        exact unregisterAll_induct (fun t => t.nameToIdx.find info.name = none)
          (fun t k ht => unregisterService_name_none t k info.name ht) rest _ hfirst
      · have hmem2 : idx ∈ rest := by
          rcases List.mem_cons.1 hmem with h | h
          · exact absurd h h2
          · exact h
        apply hn2 idx hmem2 info
        rw [record_unregisterService s idx0 idx hN hD]
        simp [h2, hr]
    · rw [he2, he1, List.append_assoc]
      rfl
    · rw [hi2, hi1]
    · rw [hk2, hk1]

theorem NameInv_of_forall (s : ServiceDirectory)
    (h : ∀ e ∈ s.pendingServices ++ s.connectedServices, s.nameToIdx.find e.2.name = some e.1) :
    NameInv s := by
  intro idx info hf
  rcases hf with hf | hf
  · exact h (idx, info) (List.mem_append_left _ (StdMap.mem_of_find _ _ _ hf))
  · exact h (idx, info) (List.mem_append_right _ (StdMap.mem_of_find _ _ _ hf))

theorem Disjoint_of_forall (s : ServiceDirectory)
    (h : ∀ e ∈ s.pendingServices, s.connectedServices.find e.1 = none) : Disjoint s := by
  intro idx hboth
  obtain ⟨r, hr⟩ := Option.ne_none_iff_exists'.1 hboth.1
  exact hboth.2 (h (idx, r) (StdMap.mem_of_find _ _ _ hr))

theorem onSocketDisconnected_none (s : ServiceDirectory) (socket : TransportSocketPtr)
    (hf : s.socketToIdx.find socket = none) :
    onSocketDisconnected s socket
      = { s with idxToSocket := s.idxToSocket.filter (fun e => decide (e.2 ≠ socket)) } := by
  rw [onSocketDisconnected_eq, hf]

theorem onSocketDisconnected_some (s : ServiceDirectory) (socket : TransportSocketPtr)
    (ids : List Nat) (hf : s.socketToIdx.find socket = some ids) :
    onSocketDisconnected s socket
      = { unregisterAll
            { s with idxToSocket := s.idxToSocket.filter (fun e => decide (e.2 ≠ socket)) } ids
          with socketToIdx :=
            (unregisterAll
              { s with idxToSocket := s.idxToSocket.filter (fun e => decide (e.2 ≠ socket)) }
              ids).socketToIdx.erase socket } := by
  rw [onSocketDisconnected_eq, hf]

end ServiceDirectory

/-! ## TransportSocketCache: promises and events -/

theorem stateOf_assign (promises : Promises) (p q : Nat) (st : FutureState TransportSocketPtr) :
    stateOf (promises.assign p st) q = if q = p then st else stateOf promises q := by
  unfold stateOf
  rw [StdMap.find_assign]
  by_cases h : q = p <;> simp [h]

theorem multiSetError_running (promises : Promises) (p : Nat) (err : String)
    (h : stateOf promises p = FutureState.running) :
    multiSetError promises p err = promises.assign p (FutureState.finishedWithError err) := by
  simp [multiSetError, h, Promise.setError]

theorem multiSetError_set (promises : Promises) (p : Nat) (err : String)
    (h : stateOf promises p ≠ FutureState.running) :
    multiSetError promises p err = promises := by
  unfold multiSetError Promise.setError
  cases hs : stateOf promises p <;> simp_all

theorem multiSetValue_running (promises : Promises) (p : Nat) (val : TransportSocketPtr)
    (h : stateOf promises p = FutureState.running) :
    multiSetValue promises p val = promises.assign p (FutureState.finishedWithValue val) := by
  simp [multiSetValue, h, Promise.setValue]

theorem multiSetValue_set (promises : Promises) (p : Nat) (val : TransportSocketPtr)
    (h : stateOf promises p ≠ FutureState.running) :
    multiSetValue promises p val = promises := by
  unfold multiSetValue Promise.setValue
  cases hs : stateOf promises p <;> simp_all

theorem stateOf_multiSetError (promises : Promises) (p q : Nat) (err : String) :
    stateOf (multiSetError promises p err) q =
      if q = p ∧ stateOf promises p = FutureState.running then FutureState.finishedWithError err
      else stateOf promises q := by
  by_cases h : stateOf promises p = FutureState.running
  · rw [multiSetError_running _ _ _ h, stateOf_assign]
    by_cases hq : q = p <;> simp [hq, h]
  · rw [multiSetError_set _ _ _ h]; simp [h]

theorem stateOf_multiSetValue (promises : Promises) (p q : Nat) (val : TransportSocketPtr) :
    stateOf (multiSetValue promises p val) q =
      if q = p ∧ stateOf promises p = FutureState.running then FutureState.finishedWithValue val
      else stateOf promises q := by
  by_cases h : stateOf promises p = FutureState.running
  · rw [multiSetValue_running _ _ _ h, stateOf_assign]
    by_cases hq : q = p <;> simp [hq, h]
  · rw [multiSetValue_set _ _ _ h]; simp [h]

/-- A promise that is set keeps its state through `multiSetError`. -/
theorem stateOf_multiSetError_of_set (promises : Promises) (p q : Nat) (err : String)
    (h : stateOf promises q ≠ FutureState.running) :
    stateOf (multiSetError promises p err) q = stateOf promises q := by
  rw [stateOf_multiSetError]
  by_cases hq : q = p
  · subst hq; simp [h]
  · simp [hq]

/-- A promise that is set keeps its state through `multiSetValue`. -/
theorem stateOf_multiSetValue_of_set (promises : Promises) (p q : Nat) (val : TransportSocketPtr)
    (h : stateOf promises q ≠ FutureState.running) :
    stateOf (multiSetValue promises p val) q = stateOf promises q := by
  rw [stateOf_multiSetValue]
  by_cases hq : q = p
  · subst hq; simp [h]
  · simp [hq]

namespace TransportSocketCache

theorem handleAll_nil (c : TransportSocketCache) : c.handleAll [] = c := rfl

theorem handleAll_cons (c : TransportSocketCache) (e : SocketEvent) (l : List SocketEvent) :
    c.handleAll (e :: l) = (c.handle e).handleAll l := rfl

theorem handleAll_append (c : TransportSocketCache) (l₁ l₂ : List SocketEvent) :
    c.handleAll (l₁ ++ l₂) = (c.handleAll l₁).handleAll l₂ := by
  simp [handleAll, List.foldl_append]

/-- A `disconnected` event of a machine whose attempt still counts more than one
socket only decrements the count. -/
theorem onSocketDisconnected_pending (c : TransportSocketCache) (error : String)
    (socket : TransportSocketPtr) (servInfo : ServiceInfo) (url : Url)
    (tsca : TransportSocketConnectionAttempt) (hd : c._dying = false)
    (ha : c._attempts.find servInfo.machineId = some tsca) (hc : tsca.socket_count ≠ 1) :
    c.onSocketDisconnected error socket servInfo url =
      { c with
        _attempts := c._attempts.assign servInfo.machineId
          { tsca with socket_count := tsca.socket_count - 1 } } := by
  have h : tsca.socket_count - 1 ≠ 0 := by omega
  simp [onSocketDisconnected, ha, hd, h]

/-- The `disconnected` event that brings the count of the attempt to zero fails the
promise of the attempt, unless it is set. -/
theorem onSocketDisconnected_last (c : TransportSocketCache) (error : String)
    (socket : TransportSocketPtr) (servInfo : ServiceInfo) (url : Url)
    (tsca : TransportSocketConnectionAttempt) (hd : c._dying = false)
    (ha : c._attempts.find servInfo.machineId = some tsca) (hc : tsca.socket_count = 1) :
    c.onSocketDisconnected error socket servInfo url =
      { c with
        _attempts := c._attempts.assign servInfo.machineId
          { tsca with socket_count := tsca.socket_count - 1 }
        promises := multiSetError c.promises tsca.promise
          ("Failed to connect to service " ++ servInfo.name ++ " on machine " ++
            servInfo.machineId ++ ". All endpoints are unavailable.") } := by
  have h : tsca.socket_count - 1 = 0 := by omega
  simp [onSocketDisconnected, ha, hd, h, String.append_assoc]

/-- No event removes or changes a slot. -/
theorem handle_sockets (c : TransportSocketCache) (e : SocketEvent) :
    (c.handle e)._sockets = c._sockets := by
  cases e with
  | connected socket servInfo url =>
    simp only [handle, onSocketConnected]
    split
    · rfl
    · split
      · rfl
      · split
        · rfl
        · split
          · rfl
          · split <;> rfl
  | disconnected error socket servInfo url =>
    simp only [handle, onSocketDisconnected]
    split
    · rfl
    · split
      · rfl
      · split <;> rfl

theorem handle_dying (c : TransportSocketCache) (e : SocketEvent) :
    (c.handle e)._dying = c._dying := by
  cases e with
  | connected socket servInfo url =>
    simp only [handle, onSocketConnected]
    split
    · rfl
    · split
      · rfl
      · split
        · rfl
        · split
          · rfl
          · split <;> rfl
  | disconnected error socket servInfo url =>
    simp only [handle, onSocketDisconnected]
    split
    · rfl
    · split
      · rfl
      · split <;> rfl

/-- A promise that is set keeps its state through every event. -/
theorem handle_stateOf_of_set (c : TransportSocketCache) (e : SocketEvent) (q : Nat)
    (h : stateOf c.promises q ≠ FutureState.running) :
    stateOf (c.handle e).promises q = stateOf c.promises q := by
  cases e with
  | connected socket servInfo url =>
    simp only [handle, onSocketConnected]
    split
    · rfl
    · split
      · exact stateOf_multiSetError_of_set _ _ _ _ h
      · split
        · rfl
        · split
          · rfl
          · split
            · rfl
            · exact stateOf_multiSetValue_of_set _ _ _ _ h
  | disconnected error socket servInfo url =>
    simp only [handle, onSocketDisconnected]
    split
    · rfl
    · split
      · exact stateOf_multiSetError_of_set _ _ _ _ h
      · split
        · rfl
        · exact stateOf_multiSetError_of_set _ _ _ _ h

theorem handleAll_stateOf_of_set (events : List SocketEvent) (c : TransportSocketCache) (q : Nat)
    (h : stateOf c.promises q ≠ FutureState.running) :
    stateOf (c.handleAll events).promises q = stateOf c.promises q := by
  induction events generalizing c with
  | nil => rfl
  | cons e l ih =>
    rw [handleAll_cons, ih (c.handle e) (by rw [handle_stateOf_of_set c e q h]; exact h),
      handle_stateOf_of_set c e q h]

theorem handleAll_sockets (events : List SocketEvent) (c : TransportSocketCache) :
    (c.handleAll events)._sockets = c._sockets := by
  induction events generalizing c with
  | nil => rfl
  | cons e l ih => rw [handleAll_cons, ih, handle_sockets]

theorem handleAll_dying (events : List SocketEvent) (c : TransportSocketCache) :
    (c.handleAll events)._dying = c._dying := by
  induction events generalizing c with
  | nil => rfl
  | cons e l ih => rw [handleAll_cons, ih, handle_dying]

end TransportSocketCache

namespace TransportSocketCache

theorem launched_nil (protocol : String) : launched protocol [] = [] := rfl

/-- The launching loop leaves the promises alone and adds one to the count of the
attempt for every connection it starts. -/
theorem launch_spec (machineId protocol : String) (prom : Nat) (l : List Url)
    (c : TransportSocketCache) (tsca : TransportSocketConnectionAttempt)
    (ha : c._attempts.find machineId = some tsca) :
    (launch machineId protocol prom l c)._dying = c._dying ∧
    (launch machineId protocol prom l c).promises = c.promises ∧
    (launch machineId protocol prom l c).nextPromise = c.nextPromise ∧
    (launch machineId protocol prom l c)._attempts.find machineId =
      some { tsca with socket_count := tsca.socket_count + (launched protocol l).length } := by
  induction l generalizing c tsca with
  | nil => simp [launch, launched, ha]
  | cons url rest ih =>
    cases hskip : (decide (protocol ≠ "") && decide (protocol ≠ url.protocol)) with
    | true =>
      have hl : launched protocol (url :: rest) = launched protocol rest := by
        simp only [launched, List.filter_cons, hskip]; simp
      rw [hl]
      have : launch machineId protocol prom (url :: rest) c =
          launch machineId protocol prom rest c := by
        simp only [launch, hskip, if_true]
      rw [this]
      exact ih c tsca ha
    | false =>
      have hl : launched protocol (url :: rest) = url :: launched protocol rest := by
        simp only [launched, List.filter_cons, hskip]; simp
      rw [hl]
      simp only [launch, hskip]
      simp only [Bool.false_eq_true, if_false, ha]
      obtain ⟨h1, h2, h3, h4⟩ := ih
        { c with
          nextSocket := c.nextSocket + 1
          nextLink := c.nextLink + 2
          _sockets := c._sockets.assign machineId
            (((c._sockets.find machineId).getD []).assign url.str
              { socket := c.nextSocket, promise := prom, url := url,
                connectSignalLink := c.nextLink, disconnectSignalLink := c.nextLink + 1 })
          _attempts := c._attempts.assign machineId
            { tsca with socket_count := tsca.socket_count + 1 }
          calls := c.calls ++ [SocketCall.connectedConnect c.nextSocket,
            SocketCall.disconnectedConnect c.nextSocket, SocketCall.connect c.nextSocket url] }
        { tsca with socket_count := tsca.socket_count + 1 }
        (StdMap.find_assign_self _ _ _)
      refine ⟨h1, h2, h3, ?_⟩
      rw [h4]
      simp only [List.length_cons, Nat.cast_add, Nat.cast_one]
      congr 2
      omega

/-- A call of `socket` that misses the cache and has an endpoint starts a race: the
future returned is a new pending promise, held by the attempt of the machine, which
counts the connections started. -/
theorem socket_starts_race (c : TransportSocketCache)
    (stdPartition : (Url → Bool) → List Url → List Url) (self : String)
    (servInfo : ServiceInfo) (protocol : String) (hd : c._dying = false)
    (hmiss : (c._sockets.find servInfo.machineId).bind
      (fun tscm => cacheCheck c.promises tscm
        (socketEndpoints stdPartition self servInfo protocol)) = none)
    (hne : (socketEndpoints stdPartition self servInfo protocol).isEmpty = false) :
    (c.socket stdPartition self servInfo protocol).1 = c.nextPromise ∧
    (c.socket stdPartition self servInfo protocol).2._dying = false ∧
    stateOf (c.socket stdPartition self servInfo protocol).2.promises c.nextPromise =
      FutureState.running ∧
    (c.socket stdPartition self servInfo protocol).2._attempts.find servInfo.machineId =
      some { promise := c.nextPromise,
             socket_count :=
               ((launched protocol (socketEndpoints stdPartition self servInfo protocol)).length : Int),
             successful := false } := by
  obtain ⟨c2, hc2⟩ : ∃ c2 : TransportSocketCache, c2 =
      { c with
        nextPromise := c.nextPromise + 1
        promises := c.promises.assign c.nextPromise FutureState.running
        _attempts := c._attempts.assign servInfo.machineId
          { promise := c.nextPromise, socket_count := 0, successful := false }
        _sockets := c._sockets.assign servInfo.machineId
          ((c._sockets.find servInfo.machineId).getD []) } := ⟨_, rfl⟩
  have hsock : c.socket stdPartition self servInfo protocol =
      (c.nextPromise, launch servInfo.machineId protocol c.nextPromise
        (socketEndpoints stdPartition self servInfo protocol) c2) := by
    rw [hc2]
    simp only [socket, hd, hmiss, hne, Bool.false_eq_true, if_false]
  obtain ⟨h1, h2, _, h4⟩ := launch_spec servInfo.machineId protocol c.nextPromise
    (socketEndpoints stdPartition self servInfo protocol) c2
    { promise := c.nextPromise, socket_count := 0, successful := false }
    (by rw [hc2]; exact StdMap.find_assign_self _ _ _)
  rw [hsock]
  refine ⟨rfl, ?_, ?_, ?_⟩
  · show (launch _ _ _ _ c2)._dying = false
    rw [h1, hc2]; exact hd
  · show stateOf (launch _ _ _ _ c2).promises c.nextPromise = FutureState.running
    rw [h2, hc2]
    show stateOf (c.promises.assign c.nextPromise FutureState.running) c.nextPromise = _
    rw [stateOf_assign]; simp
  · show (launch _ _ _ _ c2)._attempts.find servInfo.machineId = _
    rw [h4]; simp

/-- The cache after `disconnected` events of one machine, fewer than the count of
its attempt: only the count has changed. -/
theorem handleAll_disconnected (events : List SocketEvent) (c : TransportSocketCache)
    (M : String) (tsca : TransportSocketConnectionAttempt) (hd : c._dying = false)
    (ha : c._attempts.find M = some tsca)
    (hev : ∀ e ∈ events, e.isConnected = false ∧ e.machineId = M)
    (hlen : (events.length : Int) < tsca.socket_count) :
    (c.handleAll events)._dying = false ∧
    (c.handleAll events)._sockets = c._sockets ∧
    (c.handleAll events).promises = c.promises ∧
    (c.handleAll events).calls = c.calls ∧
    (c.handleAll events)._attempts.find M =
      some { tsca with socket_count := tsca.socket_count - (events.length : Int) } := by
  induction events generalizing c tsca with
  | nil => simp [handleAll_nil, hd, ha]
  | cons e l ih =>
    obtain ⟨he1, he2⟩ := hev e (List.mem_cons_self _ _)
    cases e with
    | connected socket servInfo url => simp [SocketEvent.isConnected] at he1
    | disconnected error socket servInfo url =>
      simp only [SocketEvent.machineId] at he2
      subst he2
      simp only [List.length_cons, Nat.cast_add, Nat.cast_one] at hlen
      have hstep := onSocketDisconnected_pending c error socket servInfo url tsca hd ha
        (by omega)
      rw [handleAll_cons]
      simp only [handle]
      rw [hstep]
      obtain ⟨h1, h2, h3, h4, h5⟩ := ih
        { c with
          _attempts := c._attempts.assign servInfo.machineId
            { tsca with socket_count := tsca.socket_count - 1 } }
        { tsca with socket_count := tsca.socket_count - 1 } hd
        (StdMap.find_assign_self _ _ _)
        (fun e he => hev e (List.mem_cons_of_mem _ he))
        (by show (l.length : Int) < tsca.socket_count - 1; omega)
      refine ⟨h1, h2, h3, h4, ?_⟩
      rw [h5]
      simp only [List.length_cons, Nat.cast_add, Nat.cast_one]
      congr 2
      omega

end TransportSocketCache

namespace TransportSocketCache

/-- The first `connected` event of a race gives its socket to the promise of the
slot of its url and marks the attempt as successful. -/
theorem onSocketConnected_first (c : TransportSocketCache) (socket : TransportSocketPtr)
    (servInfo : ServiceInfo) (url : Url) (tsca : TransportSocketConnectionAttempt)
    (tscm : StdMap String TransportSocketConnection) (tsc : TransportSocketConnection)
    (hd : c._dying = false) (ha : c._attempts.find servInfo.machineId = some tsca)
    (hs : tsca.successful = false) (hm : c._sockets.find servInfo.machineId = some tscm)
    (hu : tscm.find url.str = some tsc) :
    c.onSocketConnected socket servInfo url =
      { c with
        promises := multiSetValue c.promises tsc.promise socket
        _attempts := c._attempts.assign servInfo.machineId { tsca with successful := true } } := by
  simp [onSocketConnected, ha, hd, hs, hm, hu]

/-- A `connected` event that comes after the attempt of its machine was successful:
the cache disconnects the socket and changes nothing else. -/
theorem onSocketConnected_late (c : TransportSocketCache) (socket : TransportSocketPtr)
    (servInfo : ServiceInfo) (url : Url) (tsca : TransportSocketConnectionAttempt)
    (hd : c._dying = false) (ha : c._attempts.find servInfo.machineId = some tsca)
    (hs : tsca.successful = true) :
    c.onSocketConnected socket servInfo url =
      { c with calls := c.calls ++ [SocketCall.disconnect socket] } := by
  simp [onSocketConnected, ha, hd, hs]

/-- An attempt that was successful stays successful through every event. -/
theorem handle_successful (c : TransportSocketCache) (e : SocketEvent) (M : String)
    (h : ∃ tsca, c._attempts.find M = some tsca ∧ tsca.successful = true) :
    ∃ tsca, (c.handle e)._attempts.find M = some tsca ∧ tsca.successful = true := by
  obtain ⟨tsca, ha, hs⟩ := h
  cases e with
  | connected socket servInfo url =>
    simp only [handle, onSocketConnected]
    split
    · exact ⟨tsca, ha, hs⟩
    · rename_i a ha'
      split
      · exact ⟨tsca, ha, hs⟩
      · split
        · exact ⟨tsca, ha, hs⟩
        · rename_i hsa
          split
          · exact ⟨tsca, ha, hs⟩
          · split
            · exact ⟨tsca, ha, hs⟩
            · show ∃ t, (c._attempts.assign servInfo.machineId _).find M = some t ∧ _
              rw [StdMap.find_assign]
              by_cases hM : M = servInfo.machineId
              · simp [hM]
              · simp [hM, ha, hs]
  | disconnected error socket servInfo url =>
    simp only [handle, onSocketDisconnected]
    split
    · exact ⟨tsca, ha, hs⟩
    · rename_i a ha'
      split
      · exact ⟨tsca, ha, hs⟩
      · by_cases hM : M = servInfo.machineId
        · subst hM
          rw [ha] at ha'
          cases ha'
          split
          · show ∃ t, (c._attempts.assign servInfo.machineId _).find servInfo.machineId =
              some t ∧ _
            rw [StdMap.find_assign_self]
            exact ⟨_, rfl, hs⟩
          · show ∃ t, (c._attempts.assign servInfo.machineId _).find servInfo.machineId =
              some t ∧ _
            rw [StdMap.find_assign_self]
            exact ⟨_, rfl, hs⟩
        · split
          · show ∃ t, (c._attempts.assign servInfo.machineId _).find M = some t ∧ _
            rw [StdMap.find_assign_ne _ _ _ _ hM]
            exact ⟨tsca, ha, hs⟩
          · show ∃ t, (c._attempts.assign servInfo.machineId _).find M = some t ∧ _
            rw [StdMap.find_assign_ne _ _ _ _ hM]
            exact ⟨tsca, ha, hs⟩

theorem handleAll_successful (events : List SocketEvent) (c : TransportSocketCache) (M : String)
    (h : ∃ tsca, c._attempts.find M = some tsca ∧ tsca.successful = true) :
    ∃ tsca, (c.handleAll events)._attempts.find M = some tsca ∧ tsca.successful = true := by
  induction events generalizing c with
  | nil => exact h
  | cons e l ih => rw [handleAll_cons]; exact ih _ (handle_successful c e M h)

end TransportSocketCache

namespace TransportSocketCache

theorem isFinished_and_hasError (st : FutureState TransportSocketPtr) :
    (st.isFinished && st.hasError) = st.hasError := by
  cases st <;> rfl

/-- The lookup of `socket` answers with the promise of a slot of one of the
endpoints, which is not failed. -/
theorem cacheCheck_some (promises : Promises) (tscm : StdMap String TransportSocketConnection)
    (endpoints : List Url) (p : Nat) (h : cacheCheck promises tscm endpoints = some p) :
    ∃ url ∈ endpoints, ∃ tsc, tscm.find url.str = some tsc ∧ tsc.promise = p ∧
      (stateOf promises p).hasError = false := by
  induction endpoints with
  | nil => simp [cacheCheck] at h
  | cons url rest ih =>
    simp only [cacheCheck] at h
    split at h
    · rename_i tsc htsc
      rw [isFinished_and_hasError] at h
      split at h
      · obtain ⟨u, hu, r⟩ := ih h
        exact ⟨u, List.mem_cons_of_mem _ hu, r⟩
      · rename_i hne
        cases h
        exact ⟨url, List.mem_cons_self _ _, tsc, htsc, rfl, by simpa using hne⟩
    · obtain ⟨u, hu, r⟩ := ih h
      exact ⟨u, List.mem_cons_of_mem _ hu, r⟩

/-- The lookup of `socket` misses exactly when every slot of an endpoint holds a
failed promise. -/
theorem cacheCheck_eq_none (promises : Promises) (tscm : StdMap String TransportSocketConnection)
    (endpoints : List Url) :
    cacheCheck promises tscm endpoints = none ↔
      ∀ url ∈ endpoints, ∀ tsc, tscm.find url.str = some tsc →
        (stateOf promises tsc.promise).hasError = true := by
  induction endpoints with
  | nil => simp [cacheCheck]
  | cons url rest ih =>
    simp only [cacheCheck, List.mem_cons, forall_eq_or_imp]
    split
    · rename_i tsc htsc
      rw [isFinished_and_hasError]
      split
      · rename_i herr
        rw [ih]
        constructor
        · intro h
          refine ⟨?_, h⟩
          intro t ht
          rw [htsc] at ht; cases ht; exact herr
        · intro h; exact h.2
      · rename_i herr
        constructor
        · intro h; cases h
        · intro h; exact absurd (h.1 tsc htsc) herr
    · rename_i hnone
      rw [ih]
      constructor
      · intro h
        refine ⟨?_, h⟩
        intro t ht
        rw [hnone] at ht; cases ht
      · intro h; exact h.2

/-- A call of `socket` that hits the cache returns the promise found and leaves the
cache as it is. -/
theorem socket_hit (c : TransportSocketCache)
    (stdPartition : (Url → Bool) → List Url → List Url) (self : String)
    (servInfo : ServiceInfo) (protocol : String)
    (tscm : StdMap String TransportSocketConnection) (p : Nat) (hd : c._dying = false)
    (hm : c._sockets.find servInfo.machineId = some tscm)
    (hp : cacheCheck c.promises tscm (socketEndpoints stdPartition self servInfo protocol) =
      some p) :
    c.socket stdPartition self servInfo protocol = (p, c) := by
  simp [socket, hd, hm, hp]

/-- The loops of `close` visit the slots in order. -/
theorem close_eq_foldl (c : TransportSocketCache) (isConnected : TransportSocketPtr → Bool) :
    c.close isConnected = c.slots.foldl (closeSlot isConnected) { c with _dying := true } := by
  unfold close slots
  generalize ({ c with _dying := true } : TransportSocketCache) = c0
  generalize c._sockets = m
  induction m generalizing c0 with
  | nil => rfl
  | cons mcm rest ih =>
    simp only [List.foldl_cons, List.flatMap_cons, List.foldl_append]
    rw [ih]
    congr 1
    generalize mcm.2 = l
    induction l generalizing c0 with
    | nil => rfl
    | cons e t iht => simp only [List.foldl_cons, List.map_cons]; exact iht _

/-- The cache after the visit of some slots by `close`. -/
theorem foldl_closeSlot (isConnected : TransportSocketPtr → Bool)
    (l : List TransportSocketConnection) (c : TransportSocketCache) :
    (l.foldl (closeSlot isConnected) c)._dying = c._dying ∧
    (l.foldl (closeSlot isConnected) c)._sockets = c._sockets ∧
    (l.foldl (closeSlot isConnected) c)._attempts = c._attempts ∧
    (l.foldl (closeSlot isConnected) c).calls = c.calls ++ l.flatMap (closeCalls isConnected) ∧
    ∀ q, stateOf (l.foldl (closeSlot isConnected) c).promises q =
      if stateOf c.promises q = FutureState.running ∧ q ∈ l.map (fun tsc => tsc.promise) then
        FutureState.finishedWithError "session closed"
      else stateOf c.promises q := by
  induction l generalizing c with
  | nil => simp
  | cons tsc rest ih =>
    obtain ⟨h1, h2, h3, h4, h5⟩ := ih (closeSlot isConnected c tsc)
    simp only [List.foldl_cons]
    refine ⟨h1, h2, h3, ?_, ?_⟩
    · rw [h4]
      simp only [closeSlot, closeCalls, List.flatMap_cons]
      by_cases hc : isConnected tsc.socket = true <;> simp [hc]
    · intro q
      rw [h5]
      show (if stateOf (multiSetError c.promises tsc.promise "session closed") q =
          FutureState.running ∧ _ then _ else
          stateOf (multiSetError c.promises tsc.promise "session closed") q) = _
      have hm := stateOf_multiSetError c.promises tsc.promise q "session closed"
      by_cases hq : q = tsc.promise
      · subst hq
        by_cases hr : stateOf c.promises tsc.promise = FutureState.running
        · simp [hr] at hm; simp [hm, hr]
        · simp [hr] at hm; simp [hm, hr]
      · simp [hq] at hm; simp [hm, hq]

end TransportSocketCache

/-! ## ServiceBoundObject: the in-flight map -/

namespace StdMap

variable {K V : Type}

theorem mem_assign [DecidableEq K] [StdLess K] (m : StdMap K V) (k : K) (v : V) (e : K × V)
    (h : e ∈ assign m k v) : e = (k, v) ∨ e ∈ m := by
  induction m with
  | nil =>
    simp only [assign, List.mem_singleton] at h
    exact Or.inl h
  | cons hd t ih =>
    obtain ⟨k', v'⟩ := hd
    simp only [assign] at h
    split at h
    · rcases List.mem_cons.mp h with h | h
      · exact Or.inl h
      · exact Or.inr (List.mem_cons_of_mem _ h)
    · split at h
      · rcases List.mem_cons.mp h with h | h
        · exact Or.inl h
        · exact Or.inr h
      · rcases List.mem_cons.mp h with h | h
        · exact Or.inr (h ▸ List.mem_cons_self _ _)
        · rcases ih h with h | h
          · exact Or.inl h
          · exact Or.inr (List.mem_cons_of_mem _ h)

theorem mem_erase [DecidableEq K] (m : StdMap K V) (k : K) (e : K × V) (h : e ∈ erase m k) :
    e ∈ m := by
  unfold erase at h
  exact (List.mem_filter.mp h).1

theorem assign_ne_nil [DecidableEq K] [StdLess K] (m : StdMap K V) (k : K) (v : V) :
    assign m k v ≠ [] := by
  cases m with
  | nil => simp [assign]
  | cons hd t =>
    obtain ⟨k', v'⟩ := hd
    simp only [assign]
    split
    · simp
    · split <;> simp

end StdMap

namespace ServiceBoundObject

/-- After `_removeCachedFuture` with a live kit there is no element under
`(sock, id)`. -/
theorem inFlight_removeCachedFuture (b : ServiceBoundObject) (sock : TransportSocketPtr)
    (id : Nat) : (b._removeCachedFuture true sock id).inFlight sock id = none := by
  unfold _removeCachedFuture inFlight
  simp only [Bool.not_true, Bool.false_eq_true, if_false]
  split
  · rename_i h; simp [h]
  · rename_i futures h
    split
    · rename_i h2; simp [h, h2]
    · split
      · simp [StdMap.find_erase_self]
      · simp [StdMap.find_assign_self, StdMap.find_erase_self]

/-- Method `_removeCachedFuture` changes the in-flight map only. -/
theorem removeCachedFuture_frame (b : ServiceBoundObject) (kit : Bool)
    (sock : TransportSocketPtr) (id : Nat) :
    ∃ m, b._removeCachedFuture kit sock id = { b with _cancelables := m } := by
  unfold _removeCachedFuture
  split
  · exact ⟨b._cancelables, rfl⟩
  · split
    · exact ⟨b._cancelables, rfl⟩
    · split
      · exact ⟨b._cancelables, rfl⟩
      · split
        · exact ⟨_, rfl⟩
        · exact ⟨_, rfl⟩

/-- Without a kit `_removeCachedFuture` does nothing. -/
theorem removeCachedFuture_no_kit (b : ServiceBoundObject) (sock : TransportSocketPtr)
    (id : Nat) : b._removeCachedFuture false sock id = b := by
  simp [_removeCachedFuture]

/-- When there is no element under `(sock, id)`, `_removeCachedFuture` does nothing. -/
theorem removeCachedFuture_absent (b : ServiceBoundObject) (kit : Bool)
    (sock : TransportSocketPtr) (id : Nat) (h : b.inFlight sock id = none) :
    b._removeCachedFuture kit sock id = b := by
  unfold _removeCachedFuture
  unfold inFlight at h
  split
  · rfl
  · split
    · rfl
    · rename_i futures hf
      rw [hf] at h
      simp only [Option.bind] at h
      split
      · rfl
      · rename_i x hx
        rw [hx] at h; cases h

theorem NoEmptyInner_removeCachedFuture (b : ServiceBoundObject) (kit : Bool)
    (sock : TransportSocketPtr) (id : Nat) (h : b.NoEmptyInner) :
    (b._removeCachedFuture kit sock id).NoEmptyInner := by
  unfold _removeCachedFuture
  split
  · exact h
  · split
    · exact h
    · split
      · exact h
      · split
        · intro e he
          exact h e (StdMap.mem_erase _ _ _ he)
        · rename_i hlen
          intro e he
          rcases StdMap.mem_assign _ _ _ _ he with he | he
          · subst he
            intro hnil
            apply hlen
            have hnil' : StdMap.erase _ id = [] := hnil
            rw [hnil']; rfl
          · exact h e he

theorem NoEmptyInner_of_cancelables (b b' : ServiceBoundObject)
    (h : b'._cancelables = b._cancelables) (hb : b.NoEmptyInner) : b'.NoEmptyInner := by
  unfold NoEmptyInner; rw [h]; exact hb

theorem NoEmptyInner_send (b : ServiceBoundObject) (socket : TransportSocketPtr) (ret : Message)
    (h : b.NoEmptyInner) : (b.send socket ret).NoEmptyInner := h

theorem NoEmptyInner_serverResultAdapter (b : ServiceBoundObject)
    (future : FutureState AnyReference) (socket : TransportSocketPtr)
    (replyaddr : MessageAddress) (kit : Bool) (cancelRequested : Option Nat)
    (conv : Except Thrown Converted) (h : b.NoEmptyInner) :
    (b.serverResultAdapter future socket replyaddr kit cancelRequested conv).NoEmptyInner := by
  unfold serverResultAdapter
  split
  · exact NoEmptyInner_send _ _ _ (NoEmptyInner_removeCachedFuture _ _ _ _ h)
  · exact NoEmptyInner_send _ _ _ (NoEmptyInner_removeCachedFuture _ _ _ _ h)
  · split
    · exact h
    · dsimp only
      split
      · exact h
      · exact h
  · exact NoEmptyInner_send _ _ _ (NoEmptyInner_removeCachedFuture _ _ _ _ h)
  · exact h

theorem NoEmptyInner_serverResultAdapterNext (b : ServiceBoundObject)
    (inner : FutureState AnyReference) (socket : TransportSocketPtr)
    (replyaddr : MessageAddress) (kit remoteCancelableCalls : Bool)
    (conv : Except Thrown Converted) (h : b.NoEmptyInner) :
    (b.serverResultAdapterNext inner socket replyaddr kit remoteCancelableCalls
      conv).NoEmptyInner :=
  NoEmptyInner_send _ _ _ (NoEmptyInner_removeCachedFuture _ _ _ _ h)

theorem NoEmptyInner_cancelCall (b : ServiceBoundObject) (socket : TransportSocketPtr)
    (origMsgId : Nat) (state : FutureState AnyReference) (h : b.NoEmptyInner) :
    (b.cancelCall socket origMsgId state).NoEmptyInner := by
  unfold cancelCall
  split
  · exact h
  · split
    · exact h
    · rename_i fut hfut
      have h1 : ServiceBoundObject.NoEmptyInner
          { b with
            atomics := b.atomics.assign fut.cancelRequested (wrapInt (b.atomic fut.cancelRequested + 1))
            atomicOps := b.atomicOps ++ [AtomicOp.increment fut.cancelRequested]
            cancels := b.cancels ++ [fut.future] } := h
      split
      · have h2 := NoEmptyInner_removeCachedFuture _ true socket origMsgId h1
        split
        · exact h2
        · dsimp only
          split
          · exact h2
          · exact h2
      · exact h1

theorem NoEmptyInner_onSocketDisconnected (b : ServiceBoundObject) (client : TransportSocketPtr)
    (error : String) (h : b.NoEmptyInner) : (b.onSocketDisconnected client error).NoEmptyInner := by
  have h1 : ServiceBoundObject.NoEmptyInner { b with _cancelables := b._cancelables.erase client } :=
    fun e he => h e (StdMap.mem_erase _ _ _ he)
  unfold onSocketDisconnected
  dsimp only
  split
  · exact h1
  · exact h1

theorem NoEmptyInner_onMessageCatch (b : ServiceBoundObject) (msg : Message)
    (socket : TransportSocketPtr) (thrown : Thrown) (h : b.NoEmptyInner) :
    (b.onMessageCatch msg socket thrown).NoEmptyInner := by
  unfold onMessageCatch
  split
  · exact NoEmptyInner_serverResultAdapter _ _ _ _ _ _ _ h
  · exact h

theorem NoEmptyInner_onMessage (b : ServiceBoundObject) (currentVersion startId : Nat)
    (msg : Message) (socket : TransportSocketPtr) (env : Dispatch) (h : b.NoEmptyInner) :
    (b.onMessage currentVersion startId msg socket env).NoEmptyInner := by
  unfold onMessage
  split
  · exact NoEmptyInner_serverResultAdapter _ _ _ _ _ _ _ h
  · split
    · exact h
    · split
      · split
        · exact NoEmptyInner_onMessageCatch _ _ _ _ h
        · split
          · exact NoEmptyInner_onMessageCatch _ _ _ _ h
          · split
            · exact NoEmptyInner_onMessageCatch _ _ _ _ h
            · intro e he
              rcases StdMap.mem_assign _ _ _ _ he with he | he
              · subst he
                exact StdMap.assign_ne_nil _ _ _
              · exact h e he
      · split
        · exact h
        · split
          · exact NoEmptyInner_onMessageCatch _ _ _ _ h
          · split
            · exact NoEmptyInner_onMessageCatch _ _ _ _ h
            · exact h
      · split
        · exact NoEmptyInner_onMessageCatch _ _ _ _ h
        · exact NoEmptyInner_cancelCall _ _ _ _ h
      · exact h

theorem NoEmptyInner_step (currentVersion startId : Nat) (b : ServiceBoundObject) (e : BoundEvent)
    (h : b.NoEmptyInner) : (step currentVersion startId b e).NoEmptyInner := by
  cases e with
  | message msg socket env => exact NoEmptyInner_onMessage _ _ _ _ _ _ h
  | finished future socket replyaddr cancelRequested conv =>
    exact NoEmptyInner_serverResultAdapter _ _ _ _ _ _ _ h
  | finishedNext inner socket replyaddr remoteCancelableCalls conv =>
    exact NoEmptyInner_serverResultAdapterNext _ _ _ _ _ _ _ h
  | socketDisconnected client error => exact NoEmptyInner_onSocketDisconnected b client error h

theorem NoEmptyInner_reached (currentVersion startId objectId : Nat) (events : List BoundEvent) :
    (reached currentVersion startId objectId events).NoEmptyInner := by
  unfold reached
  have h0 : (create objectId).NoEmptyInner := by
    intro e he; cases he
  generalize create objectId = b at h0
  induction events generalizing b with
  | nil => exact h0
  | cons e l ih => exact ih _ (NoEmptyInner_step _ _ _ _ h0)

end ServiceBoundObject

namespace ServiceBoundObject

theorem wrapInt_of_range (x : Int) (h1 : -(2 ^ 31) ≤ x) (h2 : x < 2 ^ 31) : wrapInt x = x := by
  unfold wrapInt; omega

theorem atomic_assign_self (b : ServiceBoundObject) (a : Nat) (v : Int) :
    (b.atomics.assign a v).find a = some v := StdMap.find_assign_self _ _ _

/-- A Cancel message that names no element of the in-flight map does nothing. -/
theorem cancelCall_absent (b : ServiceBoundObject) (socket : TransportSocketPtr)
    (origMsgId : Nat) (state : FutureState AnyReference)
    (h : b.inFlight socket origMsgId = none) : b.cancelCall socket origMsgId state = b := by
  unfold cancelCall
  unfold inFlight at h
  split
  · rfl
  · rename_i futures hf
    rw [hf] at h
    simp only [Option.bind] at h
    split
    · rfl
    · rename_i fut hfut
      rw [hfut] at h; cases h

/-- The two lookups of `cancelCall` find the element given by `inFlight`. -/
theorem inFlight_eq_some (b : ServiceBoundObject) (socket : TransportSocketPtr) (id : Nat)
    (fut : Cancelable) (h : b.inFlight socket id = some fut) :
    ∃ futures, b._cancelables.find socket = some futures ∧ futures.find id = some fut := by
  unfold inFlight at h
  cases hf : b._cancelables.find socket with
  | none => rw [hf] at h; cases h
  | some futures => rw [hf] at h; exact ⟨futures, rfl, h⟩

/-- A Cancel message handled while the future of the call is running (or is finished
without a value): the counter is incremented and `cancel()` is called on the
future. -/
theorem cancelCall_not_value (b : ServiceBoundObject) (socket : TransportSocketPtr)
    (origMsgId : Nat) (state : FutureState AnyReference) (fut : Cancelable)
    (h : b.inFlight socket origMsgId = some fut)
    (hs : ∀ val, state ≠ FutureState.finishedWithValue val) :
    b.cancelCall socket origMsgId state =
      { b with
        atomics := b.atomics.assign fut.cancelRequested
          (wrapInt (b.atomic fut.cancelRequested + 1))
        atomicOps := b.atomicOps ++ [AtomicOp.increment fut.cancelRequested]
        cancels := b.cancels ++ [fut.future] } := by
  obtain ⟨futures, hf, hfut⟩ := inFlight_eq_some b socket origMsgId fut h
  unfold cancelCall
  cases state with
  | finishedWithValue val => exact absurd rfl (hs val)
  | running => simp only [hf, hfut]
  | canceled => simp only [hf, hfut]
  | finishedWithError e => simp only [hf, hfut]

/-- A Cancel message handled when the future of the call has finished with a future:
the element is removed from the map, and `cancel()` is called on both futures, the
increment of the counter being taken back, unless the increment brought the counter
to zero. -/
theorem cancelCall_inner (b : ServiceBoundObject) (socket : TransportSocketPtr)
    (origMsgId inner : Nat) (fut : Cancelable)
    (h : b.inFlight socket origMsgId = some fut)
    (hc : wrapInt (b.atomic fut.cancelRequested + 1) ≠ 0) :
    b.cancelCall socket origMsgId (FutureState.finishedWithValue (AnyReference.future inner)) =
      { b._removeCachedFuture true socket origMsgId with
        atomics := (b.atomics.assign fut.cancelRequested
          (wrapInt (b.atomic fut.cancelRequested + 1))).assign fut.cancelRequested
          (wrapInt (wrapInt (b.atomic fut.cancelRequested + 1) - 1))
        atomicOps := b.atomicOps ++ [AtomicOp.increment fut.cancelRequested,
          AtomicOp.decrement fut.cancelRequested]
        cancels := b.cancels ++ [fut.future, inner] } := by
  obtain ⟨futures, hf, hfut⟩ := inFlight_eq_some b socket origMsgId fut h
  unfold cancelCall
  simp only [hf, hfut]
  simp only [hc, ne_eq, not_false_eq_true, if_true]
  obtain ⟨m1, hm1⟩ := removeCachedFuture_frame b true socket origMsgId
  have hm2 : ServiceBoundObject._removeCachedFuture
      { b with
        atomics := b.atomics.assign fut.cancelRequested
          (wrapInt (b.atomic fut.cancelRequested + 1))
        atomicOps := b.atomicOps ++ [AtomicOp.increment fut.cancelRequested]
        cancels := b.cancels ++ [fut.future] } true socket origMsgId =
      { b with
        atomics := b.atomics.assign fut.cancelRequested
          (wrapInt (b.atomic fut.cancelRequested + 1))
        atomicOps := b.atomicOps ++ [AtomicOp.increment fut.cancelRequested]
        cancels := b.cancels ++ [fut.future]
        _cancelables := m1 } := by
    have := hm1
    unfold _removeCachedFuture at this ⊢
    simp only [Bool.not_true, Bool.false_eq_true, if_false, hf, hfut] at this ⊢
    split at this
    · rename_i hl
      simp only [hl, if_true]
      have hm : m1 = b._cancelables.erase socket := by
        have := congrArg ServiceBoundObject._cancelables this
        exact this.symm
      rw [hm]
    · rename_i hl
      simp only [hl, if_false]
      have hm : m1 = b._cancelables.assign socket (futures.erase origMsgId) := by
        have := congrArg ServiceBoundObject._cancelables this
        exact this.symm
      rw [hm]
  rw [hm2, hm1]
  simp [List.append_assoc]

/-- The reply adapter run on a future finished with a future: the adapter of the
future returned is bound to it and, when the counter is not zero, one unit is taken
from the counter and `cancel()` is called on the future returned. -/
theorem serverResultAdapter_inner (b : ServiceBoundObject) (socket : TransportSocketPtr)
    (replyaddr : MessageAddress) (kit : Bool) (a inner : Nat)
    (conv : Except Thrown Converted) :
    b.serverResultAdapter (FutureState.finishedWithValue (AnyReference.future inner)) socket
        replyaddr kit (some a) conv =
      if b.atomic a ≠ 0 then
        { b with
          adapters := b.adapters ++
            [{ next := true, future := inner, socket := socket, replyaddr := replyaddr }]
          atomics := b.atomics.assign a (wrapInt (b.atomic a - 1))
          atomicOps := b.atomicOps ++ [AtomicOp.decrement a]
          cancels := b.cancels ++ [inner] }
      else
        { b with
          adapters := b.adapters ++
            [{ next := true, future := inner, socket := socket, replyaddr := replyaddr }] } := by
  unfold serverResultAdapter
  rfl

end ServiceBoundObject

namespace ServiceBoundObject

theorem atomic_eq (b : ServiceBoundObject) (a : Nat) : b.atomic a = (b.atomics.find a).getD 0 := rfl

/-- The Cancel messages handled before the future of the call is finished: each one
adds one to the counter and calls `cancel()` on the future of the call. -/
theorem callRun_early (socket : TransportSocketPtr) (replyaddr : MessageAddress)
    (a inner : Nat) (fut : Cancelable) (ha : fut.cancelRequested = a) (k : Nat)
    (b : ServiceBoundObject) (h : b.inFlight socket replyaddr.messageId = some fut)
    (h0 : 0 ≤ b.atomic a) (hk : b.atomic a + k < 2 ^ 31) :
    ((List.replicate k CallEvent.cancel).foldl (callStep socket replyaddr a inner)
      (b, false)).2 = false ∧
    ((List.replicate k CallEvent.cancel).foldl (callStep socket replyaddr a inner)
      (b, false)).1._cancelables = b._cancelables ∧
    ((List.replicate k CallEvent.cancel).foldl (callStep socket replyaddr a inner)
      (b, false)).1.atomic a = b.atomic a + k ∧
    ((List.replicate k CallEvent.cancel).foldl (callStep socket replyaddr a inner)
      (b, false)).1.cancels = b.cancels ++ List.replicate k fut.future := by
  induction k generalizing b with
  | zero => simp
  | succ n ih =>
    subst ha
    have hstep := cancelCall_not_value b socket replyaddr.messageId FutureState.running fut h
      (by intro val hv; cases hv)
    obtain ⟨b1, hb1⟩ : ∃ b1 : ServiceBoundObject, b1 =
        { b with
          atomics := b.atomics.assign fut.cancelRequested
            (wrapInt (b.atomic fut.cancelRequested + 1))
          atomicOps := b.atomicOps ++ [AtomicOp.increment fut.cancelRequested]
          cancels := b.cancels ++ [fut.future] } := ⟨_, rfl⟩
    rw [← hb1] at hstep
    have hfold : (List.replicate (n + 1) CallEvent.cancel).foldl
        (callStep socket replyaddr fut.cancelRequested inner) (b, false) =
        (List.replicate n CallEvent.cancel).foldl
          (callStep socket replyaddr fut.cancelRequested inner) (b1, false) := by
      rw [List.replicate_succ, List.foldl_cons]
      simp only [callStep, Bool.false_eq_true, if_false]
      rw [hstep]
    have hat : b1.atomic fut.cancelRequested = b.atomic fut.cancelRequested + 1 := by
      rw [hb1, atomic_eq]
      show ((b.atomics.assign _ _).find _).getD 0 = _
      rw [StdMap.find_assign_self]
      simp only [Option.getD_some]
      apply wrapInt_of_range <;> omega
    have hin : b1.inFlight socket replyaddr.messageId = some fut := by
      rw [hb1]; exact h
    obtain ⟨i1, i2, i3, i4⟩ := ih b1 hin (by rw [hat]; omega) (by rw [hat]; push_cast at hk; omega)
    rw [hfold]
    refine ⟨i1, ?_, ?_, ?_⟩
    · rw [i2, hb1]
    · rw [i3, hat]; push_cast; omega
    · rw [i4, hb1]
      show (b.cancels ++ [fut.future]) ++ List.replicate n fut.future = _
      rw [List.replicate_succ, List.append_assoc]; rfl

/-- The Cancel messages handled when the call has no element in the map do nothing. -/
theorem callRun_dropped (socket : TransportSocketPtr) (replyaddr : MessageAddress)
    (a inner : Nat) (m : Nat) (b : ServiceBoundObject)
    (h : b.inFlight socket replyaddr.messageId = none) :
    (List.replicate m CallEvent.cancel).foldl (callStep socket replyaddr a inner) (b, true) =
      (b, true) := by
  induction m with
  | zero => rfl
  | succ n ih =>
    rw [List.replicate_succ, List.foldl_cons]
    simp only [callStep, if_true]
    rw [cancelCall_absent b socket replyaddr.messageId _ h]
    exact ih

/-- The Cancel messages handled after the future of the call has finished with a
future: the first one calls `cancel()` on both futures and removes the element of the
call, the others are dropped. -/
theorem callRun_late (socket : TransportSocketPtr) (replyaddr : MessageAddress)
    (a inner : Nat) (fut : Cancelable) (ha : fut.cancelRequested = a) (m : Nat)
    (b : ServiceBoundObject) (h : b.inFlight socket replyaddr.messageId = some fut)
    (h0 : 0 ≤ b.atomic a) (hk : b.atomic a + 1 < 2 ^ 31) :
    ((List.replicate m CallEvent.cancel).foldl (callStep socket replyaddr a inner)
      (b, true)).1.cancels = b.cancels ++ (if m = 0 then [] else [fut.future, inner]) := by
  cases m with
  | zero => simp
  | succ n =>
    subst ha
    have hw : wrapInt (b.atomic fut.cancelRequested + 1) = b.atomic fut.cancelRequested + 1 := by
      apply wrapInt_of_range <;> omega
    have hstep := cancelCall_inner b socket replyaddr.messageId inner fut h
      (by rw [hw]; omega)
    rw [List.replicate_succ, List.foldl_cons]
    simp only [callStep, if_true]
    rw [hstep]
    rw [callRun_dropped]
    · simp
    · obtain ⟨m1, hm1⟩ := removeCachedFuture_frame b true socket replyaddr.messageId
      have hnone := inFlight_removeCachedFuture b socket replyaddr.messageId
      rw [hm1] at hnone ⊢
      exact hnone

end ServiceBoundObject

/-! ## Signals: the list of active threads -/

namespace SignalSubscriber

theorem removeActiveLoop_zero (id i : Nat) (v : List Nat) : removeActiveLoop id 0 i v = v := rfl

theorem removeActiveLoop_succ (id fuel i : Nat) (v : List Nat) :
    removeActiveLoop id (fuel + 1) i v =
      if i < v.length then
        if v.get? i = some id then
          removeActiveLoop id fuel (i + 1) (v.set i (v.getLastD id)).dropLast
        else removeActiveLoop id fuel (i + 1) v
      else v := rfl

/-- The loop changes nothing when no element from index `i` on is `id`. -/
theorem removeActiveLoop_of_absent (id : Nat) (fuel i : Nat) (v : List Nat)
    (h : ∀ k, i ≤ k → v.get? k ≠ some id) : removeActiveLoop id fuel i v = v := by
  induction fuel generalizing i with
  | zero => rfl
  | succ n ih =>
    rw [removeActiveLoop_succ]
    split
    · rw [if_neg (h i (Nat.le_refl i))]
      exact ih (i + 1) (fun k hk => h k (by omega))
    · rfl

/-- The loop skips the elements that are not `id`. -/
theorem removeActiveLoop_skip (id : Nat) (n fuel i : Nat) (v : List Nat)
    (hlen : i + n ≤ v.length) (h : ∀ k, i ≤ k → k < i + n → v.get? k ≠ some id) :
    removeActiveLoop id (fuel + n) i v = removeActiveLoop id fuel (i + n) v := by
  induction n generalizing i with
  | zero => rfl
  | succ m ih =>
    have h1 : fuel + (m + 1) = (fuel + m) + 1 := by omega
    rw [h1, removeActiveLoop_succ, if_pos (by omega), if_neg (h i (Nat.le_refl i) (by omega))]
    rw [ih (i + 1) (by omega) (fun k hk1 hk2 => h k (by omega) (by omega))]
    congr 1
    omega

/-- Fuel beyond the size of the vector is not used. -/
theorem removeActiveLoop_fuel (id : Nat) (fuel fuel' i : Nat) (v : List Nat)
    (h : v.length - i ≤ fuel) (h' : v.length - i ≤ fuel') :
    removeActiveLoop id fuel i v = removeActiveLoop id fuel' i v := by
  induction fuel generalizing fuel' i v with
  | zero =>
    cases fuel' with
    | zero => rfl
    | succ m =>
      rw [removeActiveLoop_zero, removeActiveLoop_succ, if_neg (by omega)]
  | succ n ih =>
    cases fuel' with
    | zero =>
      rw [removeActiveLoop_zero, removeActiveLoop_succ, if_neg (by omega)]
    | succ m =>
      rw [removeActiveLoop_succ, removeActiveLoop_succ]
      split
      · split
        · apply ih
          · simp only [List.length_dropLast, List.length_set]; omega
          · simp only [List.length_dropLast, List.length_set]; omega
        · apply ih <;> omega
      · rfl

/-- Writing at index `j` the value that is there changes nothing. -/
theorem set_of_get? (v : List Nat) (t j : Nat) (h : v.get? j = some t) : v.set j t = v := by
  induction v generalizing j with
  | nil => rfl
  | cons a rest ih =>
    cases j with
    | zero =>
      have ha : a = t := by simpa using h
      rw [ha]; rfl
    | succ m =>
      have hm : rest.get? m = some t := by simpa using h
      show a :: rest.set m t = a :: rest
      rw [ih m hm]

/-- Removing the element of index `j` by the exchange with the last one, when the last
one is the element of index `j` again. -/
theorem set_last_dropLast (L : List Nat) (t : Nat) (j : Nat)
    (hj : (L ++ [t]).get? j = some t) :
    ((L ++ [t]).set j ((L ++ [t]).getLastD t)).dropLast = L := by
  have hlast : (L ++ [t]).getLastD t = t := List.getLastD_concat t t L
  rw [hlast, set_of_get? _ t j hj, List.dropLast_concat]

/-- The first index of `t` in `L ++ [t]`. -/
theorem first_index (L : List Nat) (t : Nat) :
    ∃ j, j ≤ L.length ∧ (L ++ [t]).get? j = some t ∧
      ∀ k, k < j → (L ++ [t]).get? k ≠ some t := by
  induction L with
  | nil => exact ⟨0, Nat.le_refl _, rfl, fun k hk => absurd hk (Nat.not_lt_zero k)⟩
  | cons a rest ih =>
    by_cases ha : a = t
    · exact ⟨0, Nat.zero_le _, by rw [ha]; rfl, fun k hk => absurd hk (Nat.not_lt_zero k)⟩
    · obtain ⟨j, hjle, hjt, hbefore⟩ := ih
      refine ⟨j + 1, by simp only [List.length_cons]; omega, hjt, ?_⟩
      intro k hk
      cases k with
      | zero =>
        intro hget
        apply ha
        simpa using hget
      | succ m => exact hbefore m (by omega)

/-- When `t` is in `L` at most once, `addActive(t)` then `removeActive(t)` gives `L`
back. -/
theorem removeActive_addActive_of_count_le_one (L : List Nat) (t : Nat)
    (h : L.count t ≤ 1) : removeActive (addActive L t) t = L := by
  unfold removeActive addActive
  obtain ⟨j, hjle, hjt, hbefore⟩ := first_index L t
  have hlen : (L ++ [t]).length = (L.length - j) + 1 + j := by
    simp only [List.length_append, List.length_singleton]; omega
  rw [hlen]
  have hskip := removeActiveLoop_skip t j ((L.length - j) + 1) 0 (L ++ [t])
    (by simp only [List.length_append, List.length_singleton]; omega)
    (fun k _ hk => hbefore k (by omega))
  rw [hskip, Nat.zero_add, removeActiveLoop_succ,
    if_pos (by simp only [List.length_append, List.length_singleton]; omega), if_pos hjt,
    set_last_dropLast L t j hjt]
  apply removeActiveLoop_of_absent
  intro k hk hget
  -- `t` would be in `L` at the indices `j` and `k`
  have hkl : k < L.length := by
    by_contra hge
    rw [List.get?_eq_none.mpr (by omega)] at hget
    cases hget
  have hjl : j < L.length := by omega
  have hj' : L.get? j = some t := by
    rw [List.get?_eq_getElem?, List.getElem?_append_left hjl] at hjt
    rw [List.get?_eq_getElem?]; exact hjt
  have htwo : 2 ≤ L.count t := by
    have hsplit : L = L.take k ++ L.drop k := (List.take_append_drop k L).symm
    have h1 : t ∈ L.take k := by
      rw [List.mem_iff_get?]
      refine ⟨j, ?_⟩
      rw [List.get?_eq_getElem?, List.getElem?_take_of_lt (by omega), ← List.get?_eq_getElem?]
      exact hj'
    have h2 : t ∈ L.drop k := by
      rw [List.mem_iff_get?]
      refine ⟨0, ?_⟩
      rw [List.get?_eq_getElem?, List.getElem?_drop, ← List.get?_eq_getElem?]
      simpa using hget
    rw [hsplit, List.count_append]
    have c1 := List.count_pos_iff.mpr h1
    have c2 := List.count_pos_iff.mpr h2
    omega
  omega

end SignalSubscriber

namespace SignalSubscriber

/-- The exchange with the last entry and `pop_back` at an index that holds `id` keep
the entries of every other thread. -/
theorem count_set_last_dropLast (id x : Nat) (hx : x ≠ id) (v : List Nat) (i : Nat)
    (h : v.get? i = some id) :
    ((v.set i (v.getLastD id)).dropLast).count x = v.count x := by
  induction v generalizing i with
  | nil => cases h
  | cons a rest ih =>
    cases i with
    | zero =>
      have ha : a = id := by simpa using h
      subst ha
      cases rest with
      | nil =>
        simp [List.getLastD, List.count_cons, hx]
      | cons b rest2 =>
        have hlast : (a :: b :: rest2).getLastD a = (b :: rest2).getLast (by simp) := by
          simp [List.getLastD]
        rw [hlast]
        show ((b :: rest2).getLast (by simp) :: (b :: rest2).dropLast).count x = _
        have hsplit := List.dropLast_append_getLast (l := b :: rest2) (by simp)
        have hc : (b :: rest2).count x =
            ((b :: rest2).dropLast ++ [(b :: rest2).getLast (by simp)]).count x := by
          rw [hsplit]
        rw [List.count_cons_of_ne (a := x) (b := a) hx, hc,
          List.count_append, List.count_cons, List.count_cons]
        simp only [List.count_nil]
        omega
    | succ j =>
      have hj : rest.get? j = some id := by simpa using h
      have hne : rest ≠ [] := by
        intro hnil
        rw [hnil] at hj
        cases hj
      have hlast : (a :: rest).getLastD id = rest.getLastD id := by
        cases rest with
        | nil => exact absurd rfl hne
        | cons b rest2 => simp [List.getLastD]
      rw [hlast]
      show (a :: rest.set j (rest.getLastD id)).dropLast.count x = _
      have hne2 : rest.set j (rest.getLastD id) ≠ [] := by
        intro hnil
        apply hne
        have := congrArg List.length hnil
        simp only [List.length_set, List.length_nil] at this
        exact List.length_eq_zero.mp this
      obtain ⟨c, w, hw⟩ := List.exists_cons_of_ne_nil hne2
      rw [hw]
      show (a :: (c :: w).dropLast).count x = _
      rw [← hw, List.count_cons, List.count_cons, ih j hj]

/-- The loop of `removeActive` keeps the entries of every other thread. -/
theorem count_removeActiveLoop (id x : Nat) (hx : x ≠ id) (fuel i : Nat) (v : List Nat) :
    (removeActiveLoop id fuel i v).count x = v.count x := by
  induction fuel generalizing i v with
  | zero => rfl
  | succ n ih =>
    rw [removeActiveLoop_succ]
    split
    · split
      · rename_i hget
        rw [ih, count_set_last_dropLast id x hx v i hget]
      · exact ih _ _
    · rfl

/-- Method `removeActive(id)` removes no entry of another thread. -/
theorem count_removeActive (v : List Nat) (id x : Nat) (hx : x ≠ id) :
    (removeActive v id).count x = v.count x :=
  count_removeActiveLoop id x hx _ _ _

end SignalSubscriber

/-! ## Signals: connection and disconnection -/

namespace SignalSubscriber

/-- The test of `waitForInactive`, in terms of the list of active threads. -/
theorem idle_iff (activeThreads : List Nat) (tid : Nat) :
    (activeThreads.isEmpty ||
      (decide (activeThreads.length = 1) && decide (activeThreads.head? = some tid))) = true ↔
    (activeThreads = [] ∨ activeThreads = [tid]) := by
  cases activeThreads with
  | nil => simp
  | cons a rest =>
    cases rest with
    | nil => simp
    | cons b rest2 => simp

theorem waitForInactive_iff (s : SignalSubscriber) (tid : Nat) :
    s.waitForInactive tid = true ↔ (s.activeThreads = [] ∨ s.activeThreads = [tid]) := by
  rw [← idle_iff]
  unfold waitForInactive
  cases h1 : s.activeThreads.isEmpty <;>
    cases h2 : (decide (s.activeThreads.length = 1) && decide (s.activeThreads.head? = some tid)) <;>
    simp

/-- A subscriber that is not enabled never has its handler invoked by `call`. -/
theorem call_of_disabled (s : SignalSubscriber) (callType : MetaCallType) (tid : Nat)
    (pointerLock : Bool) (h : s.enabled = false) (m : Bool) :
    (s.call callType tid pointerLock).1 ≠ CallOutcome.handlerInvoked m := by
  unfold call
  cases hh : s.handler with
  | none =>
    cases ht : s.target with
    | none => simp
    | some target =>
      simp only
      split <;> simp
  | some handler =>
    simp only [h, Bool.not_false, if_true]
    split_ifs <;> simp

/-- A subscriber that is not enabled never has its handler invoked by a posted call. -/
theorem functorCall_of_disabled (s : SignalSubscriber) (tid : Nat) (h : s.enabled = false) :
    (s.functorCall tid).1 = false := by
  unfold functorCall
  simp [h]

end SignalSubscriber

namespace SignalBasePrivate

/-- The checks of `connect` are made when the signature of the signal is not `m` and
the one of the subscriber is valid. -/
theorem connect_ok (isConvertibleTo : Signature → Signature → Bool) (p : SignalBasePrivate)
    (src : SignalSubscriber)
    (h : (decide (p.signature.toString ≠ "m") && src.signature.isValid) = false ∨
      ((p.signature.children.length : Int) =
          (if src.signature.isValid then (src.signature.children.length : Int) else -1) ∧
        isConvertibleTo p.signature src.signature = true)) :
    p.connect isConvertibleTo src =
      (Except.ok (toSignalLink (wrapInt (p.linkUid + 1))),
       { p with
         linkUid := wrapInt (p.linkUid + 1)
         subscriberMap := p.subscriberMap.assign (toSignalLink (wrapInt (p.linkUid + 1)))
           { src with linkId := toSignalLink (wrapInt (p.linkUid + 1)), activeThreads := [] }
         hooks := if p.subscriberMap.isEmpty && p.onSubscribers then p.hooks ++ [true]
           else p.hooks }) := by
  unfold connect
  rcases h with h | ⟨h1, h2⟩
  · simp only [h, Bool.false_and, if_false]
    simp
  · simp only [h1, h2]
    simp

/-- An arity that differs is reported first. -/
theorem connect_arity_error (isConvertibleTo : Signature → Signature → Bool)
    (p : SignalBasePrivate) (src : SignalSubscriber) (hsig : p.signature.toString ≠ "m")
    (hvalid : src.signature.isValid = true)
    (h : src.signature.children.length ≠ p.signature.children.length) :
    p.connect isConvertibleTo src =
      (Except.error ("Subscriber has incorrect arity (expected " ++
        toString (p.signature.children.length : Int) ++ " , got " ++
        toString (src.signature.children.length : Int) ++ ")"), p) := by
  unfold connect
  have hne : (p.signature.children.length : Int) ≠ (src.signature.children.length : Int) := by
    intro heq
    apply h
    exact_mod_cast heq.symm
  simp [hsig, hvalid, hne]

/-- A signature that is not convertible is reported when the arities agree. -/
theorem connect_compatibility_error (isConvertibleTo : Signature → Signature → Bool)
    (p : SignalBasePrivate) (src : SignalSubscriber) (hsig : p.signature.toString ≠ "m")
    (hvalid : src.signature.isValid = true)
    (h : src.signature.children.length = p.signature.children.length)
    (hconv : isConvertibleTo p.signature src.signature = false) :
    p.connect isConvertibleTo src =
      (Except.error ("Subscriber is not compatible to signal : " ++ p.signature.toString ++
        " vs " ++ src.signature.toString), p) := by
  unfold connect
  simp [hsig, hvalid, h, hconv]

/-- What `disconnect` does for a link that is in the map. -/
theorem disconnect_of_find (p : SignalBasePrivate) (l : Nat) (wait : Bool) (tid : Nat)
    (s : SignalSubscriber) (hfind : p.subscriberMap.find l = some s) :
    p.disconnect l wait tid =
      { returned := true,
        waits := wait && !(s.activeThreads.isEmpty ||
          (decide (s.activeThreads.length = 1) && decide (s.activeThreads.head? = some tid))),
        subscriber := some { s with enabled := false },
        signal := { p with
          subscriberMap := p.subscriberMap.erase l
          hooks := if (p.subscriberMap.erase l).isEmpty && p.onSubscribers
            then p.hooks ++ [false] else p.hooks } } := by
  unfold disconnect
  simp only [hfind]
  cases h1 : s.activeThreads.isEmpty <;>
    cases h2 : (decide (s.activeThreads.length = 1) && decide (s.activeThreads.head? = some tid)) <;>
    simp [SignalSubscriber.waitForInactive, h1, h2]

end SignalBasePrivate

/-! ## TransportSocketCache: the sockets made by a race -/

namespace TransportSocketCache

/-- A race without a connection: for the service `a`, whose only endpoint has the
protocol `tcp`, and the protocol `tcps`, `socket` installs an attempt of count 0 on a
pending promise, and makes no call on any socket. -/
theorem socket_starts_no_connection :
    (create.socket stablePartition "self" infoA "tcps").2._attempts.find "M" =
      some { promise := 0, socket_count := 0, successful := false } ∧
    stateOf (create.socket stablePartition "self" infoA "tcps").2.promises 0 =
      FutureState.running ∧
    (create.socket stablePartition "self" infoA "tcps").2.calls = [] := by
  decide

end TransportSocketCache

/-! ## The list interface and the event bridge -/

theorem wrapInt_succ (n : Nat) (h : n + 1 < 2 ^ 31) : wrapInt ((n : Int) + 1) = (n : Int) + 1 := by
  unfold wrapInt
  omega

/-- The loop of `element` for an index that is not negative: it stops at the index, or
at the end of the list. -/
theorem elementLoop_reach {α : Type} (l : List α) (n k : Nat) (h : n + k < 2 ^ 31) :
    elementLoop ((n : Int) + (k : Int)) (n : Int) l =
      if k < l.length then ((n : Int) + (k : Int), l.drop k)
      else ((n : Int) + (l.length : Int), []) := by
  induction l generalizing n k with
  | nil => simp [elementLoop]
  | cons a rest ih =>
    cases k with
    | zero => simp [elementLoop]
    | succ m =>
      have hne : (n : Int) ≠ (n : Int) + ((m + 1 : Nat) : Int) := by omega
      rw [elementLoop, if_pos hne, wrapInt_succ n (by omega)]
      have hidx : (n : Int) + ((m + 1 : Nat) : Int) = ((n + 1 : Nat) : Int) + (m : Int) := by
        push_cast; omega
      have hcast : (n : Int) + 1 = ((n + 1 : Nat) : Int) := by push_cast; rfl
      rw [hidx, hcast, ih (n + 1) m (by omega)]
      by_cases hm : m < rest.length
      · rw [if_pos hm, if_pos (by simp only [List.length_cons]; omega)]
        rfl
      · rw [if_neg hm, if_neg (by simp only [List.length_cons]; omega)]
        simp only [List.length_cons]
        congr 1
        push_cast
        omega

/-- The loop of `element` for a negative index: it goes to the end of the list. -/
theorem elementLoop_negative {α : Type} (l : List α) (index : Int) (hneg : index < 0) (n : Nat)
    (h : n + l.length < 2 ^ 31) :
    elementLoop index (n : Int) l = ((n : Int) + (l.length : Int), []) := by
  induction l generalizing n with
  | nil => simp [elementLoop]
  | cons a rest ih =>
    have hne : (n : Int) ≠ index := by omega
    have hlen : n + 1 + rest.length < 2 ^ 31 := by
      simp only [List.length_cons] at h; omega
    have hcast : (n : Int) + 1 = ((n + 1 : Nat) : Int) := by push_cast; rfl
    rw [elementLoop, if_pos hne, wrapInt_succ n (by omega), hcast, ih (n + 1) hlen]
    simp only [List.length_cons]
    congr 1
    push_cast
    omega

/-- What `element` does on a list of fewer than `2 ^ 31` elements, for every index of
type `int`: a negative index throws, an index below the size gives the element, and
an index from the size on dereferences `end()`. -/
theorem ListTypeInterface.element_eq {α : Type} (l : List α) (index : Int)
    (hl : l.length < 2 ^ 31) (hi : index < 2 ^ 31) :
    ListTypeInterface.element l index =
      if index < 0 then ElementResult.thrown "Index out of range"
      else
        match l.get? index.toNat with
        | some a => ElementResult.value a
        | none => ElementResult.endDereferenced := by
  unfold ListTypeInterface.element
  by_cases hneg : index < 0
  · have h := elementLoop_negative l index hneg 0 (by omega)
    have h0 : ((0 : Nat) : Int) = 0 := rfl
    rw [h0] at h
    rw [h, if_pos hneg]
    simp only
    rw [if_pos (by omega)]
  · obtain ⟨k, rfl⟩ : ∃ k : Nat, index = (k : Int) := ⟨index.toNat, by omega⟩
    have h := elementLoop_reach l 0 k (by omega)
    have h0 : ((0 : Nat) : Int) + (k : Int) = (k : Int) := by simp
    have h1 : ((0 : Nat) : Int) = 0 := rfl
    rw [h0, h1] at h
    rw [h, if_neg hneg]
    simp only [Int.toNat_ofNat]
    by_cases hk : k < l.length
    · rw [if_pos hk]
      simp only
      rw [if_neg (by omega)]
      rw [List.get?_eq_getElem?, List.getElem?_eq_getElem hk, List.drop_eq_getElem_cons hk]
    · rw [if_neg hk]
      simp only
      rw [if_neg (by omega)]
      rw [List.get?_eq_getElem?, List.getElem?_eq_none (by omega)]

/-- The conversion to a signature of another arity gives an empty pack. -/
theorem GenericFunctionParameters.convert_of_arity (convertCopy : String → String → Option String)
    (sig : Signature) (src : List String) (h : sig.children.length ≠ src.length) :
    GenericFunctionParameters.convert convertCopy sig src = [] := by
  unfold GenericFunctionParameters.convert
  rw [if_pos h]

/-- A forced signature of another arity than the parameters, for a peer that has
`MessageFlags`: the message sent has no value. -/
theorem forwardEvent_of_arity (parse : String → Option Signature)
    (convertCopy : String → String → Option String)
    (setValuesThrows : List String → String → Bool) (params : List String)
    (service object event : Nat) (sig forced : Signature) (signature : String)
    (hsig : signature ≠ "") (hparse : parse signature = some forced)
    (harity : forced.children.length ≠ params.length)
    (hset : setValuesThrows [] "m" = false) :
    forwardEvent parse convertCopy setValuesThrows params service object event sig true signature =
      some { service := service, object := object, event := event, signature := "m",
             values := [], dynamicPayload := true } := by
  unfold forwardEvent
  simp [hsig, hparse, GenericFunctionParameters.convert_of_arity convertCopy forced params harity,
    hset]

/-! ## ServiceBoundObject: the in-flight map when a reply is sent -/

namespace ServiceBoundObject

/-- A message sent right after `_removeCachedFuture`, run with the kit of the object:
it is sent with the in-flight map that the object keeps afterwards, in which the call
has no element. -/
theorem send_after_remove (b : ServiceBoundObject) (socket : TransportSocketPtr) (id : Nat)
    (ret : Message) :
    ((b._removeCachedFuture true socket id).send socket ret).sent = b.sent ++ [(socket, ret)] ∧
    ((b._removeCachedFuture true socket id).send socket ret).inFlightAtSend =
      b.inFlightAtSend ++ [((b._removeCachedFuture true socket id).send socket ret)._cancelables] ∧
    entryOf ((b._removeCachedFuture true socket id).send socket ret)._cancelables socket id =
      none ∧
    ((b._removeCachedFuture true socket id).send socket ret).inFlight socket id = none := by
  have hnone := inFlight_removeCachedFuture b socket id
  obtain ⟨m, hm⟩ := removeCachedFuture_frame b true socket id
  rw [hm] at hnone ⊢
  exact ⟨rfl, rfl, hnone, hnone⟩

/-- The messages that `valueReply` builds are of type Reply or Error, for the address
given. -/
theorem valueReply_type (replyaddr : MessageAddress) (context : String)
    (conv : Except Thrown Converted) :
    (valueReply replyaddr context conv).address = replyaddr ∧
    ((valueReply replyaddr context conv).type = MessageType.reply ∨
      (valueReply replyaddr context conv).type = MessageType.error ∨
      (valueReply replyaddr context conv).type = MessageType.canceled) := by
  cases conv with
  | ok c => exact ⟨rfl, Or.inl rfl⟩
  | error t => cases t <;> exact ⟨rfl, Or.inr (Or.inl rfl)⟩

end ServiceBoundObject

/-! ## Claims -/

namespace ServiceDirectory

/-- C1: `registerService` of a record whose name is already in the name index
fails and leaves the directory as it was (all maps, the id counter and the
emissions), whatever the socket, and whether the service of that name is pending
or connected. In particular, when the directory is the one obtained by a first
registration `first` of that name followed by `serviceReady` of the id it got,
`service(name)` after the rejected call still answers the record of the first
registration. -/
theorem registerService_duplicate_name_rejected (s : ServiceDirectory)
    (sbo : Option TransportSocketPtr) (svcinfo : ServiceInfo)
    (h : s.nameToIdx.find svcinfo.name ≠ none) :
    failed (registerService s sbo svcinfo).1 ∧
      (registerService s sbo svcinfo).2 = s ∧
      service (registerService s sbo svcinfo).2 svcinfo.name = service s svcinfo.name ∧
      ∀ (s0 : ServiceDirectory) (socket : TransportSocketPtr) (first : ServiceInfo) (idx : Nat),
        (registerService s0 (some socket) first).1 = Except.ok idx →
        s = (serviceReady (registerService s0 (some socket) first).2 idx).2 →
        first.name = svcinfo.name →
        service (registerService s sbo svcinfo).2 svcinfo.name =
          Except.ok { first with serviceId := idx } := by
  obtain ⟨herr, hst⟩ := registerService_of_name_bound s sbo svcinfo h
  refine ⟨herr, hst, by rw [hst], ?_⟩
  intro s0 socket first idx hreg hs hname
  rw [hst]
  cases hf : s0.nameToIdx.find first.name with
  | some old => simp [registerService, hf] at hreg
  | none =>
    rw [registerService_ok s0 socket first hf] at hreg hs
    simp only [Except.ok.injEq] at hreg
    subst hreg
    rw [hs, ← hname]
    simp [serviceReady, service, StdMap.find_assign_self]

/-- Witness of C1: a second registration of `svc1`, through another socket and with
other endpoints, is rejected and `service("svc1")` answers the first record. -/
theorem registerService_duplicate_name_rejected_witness :
    failed (registerService svc1Ready (some 6) (mkInfo "svc1" [tcpUrl "10.0.0.1" 5555])).1 ∧
      (registerService svc1Ready (some 6) (mkInfo "svc1" [tcpUrl "10.0.0.1" 5555])).2
        = svc1Ready ∧
      service (registerService svc1Ready (some 6) (mkInfo "svc1" [tcpUrl "10.0.0.1" 5555])).2
        "svc1" = Except.ok { mkInfo "svc1" [] with serviceId := 1 } :=
  have h := registerService_duplicate_name_rejected svc1Ready (some 6)
    (mkInfo "svc1" [tcpUrl "10.0.0.1" 5555]) (by decide)
  ⟨h.1, h.2.1, h.2.2.2 ServiceDirectory.init 5 (mkInfo "svc1" []) 1 rfl rfl rfl⟩

end ServiceDirectory

/-- C2, evaluation of the code: after `a` has been registered (id 1) and made
ready, `updateServiceInfo` called for id 1 with a record named `b` stores that
record under id 1 of `connectedServices`, while the name index still maps `a`, and
not `b`, to 1: `service("a")` answers a record named `b`, and `unregisterService(1)`
fails with the "Mapping error" of the code. -/
theorem updateServiceInfo_breaks_name_index :
    (run renameCalls).connectedServices.find 1 = some { mkInfo "b" [] with serviceId := 1 } ∧
      (run renameCalls).nameToIdx.find "b" = none ∧
      (run renameCalls).nameToIdx.find "a" = some 1 ∧
      service (run renameCalls) "a" = Except.ok { mkInfo "b" [] with serviceId := 1 } ∧
      (unregisterService (run renameCalls) 1).1
        = Except.error "Unregister Service: Mapping error, service #1 (b) not in nameToIdx" := by
  exact ⟨rfl, rfl, rfl, rfl, rfl⟩

/-- C3, counterexample: once the directory has registered itself (id 1, made
ready) and `2 ^ 32 - 1` further registrations have brought the 32-bit id counter back
to `0`, the registration of `b` gets id 1 again, and id 1 is a key of
`pendingServices` and of `connectedServices`. -/
theorem id_pending_and_connected_after_wrap :
    (exec collideCalls).state.pendingServices.find 1
        = some { mkInfo "b" [] with serviceId := 1 } ∧
      (exec collideCalls).state.connectedServices.find 1
        = some { mkInfo "ServiceDirectory" [] with serviceId := 1 } := by
  rw [exec_state, collideCalls_state]
  exact ⟨rfl, rfl⟩

/-- C3 (amended): in every state reached from the empty directory by calls of
`registerService`, `serviceReady`, `unregisterService`, `updateServiceInfo` and
`onSocketDisconnected`, the record stored under a key of `pendingServices` or
`connectedServices` has that key as `serviceId`; and, as long as fewer than `2 ^ 32`
of the registrations have succeeded, no id is a key of both maps and every id
returned by a successful `registerService` and not unregistered since is a key of
exactly one of them. -/
theorem pending_connected_disjoint (calls : List Call) :
    ((exec calls).returned.length < 2 ^ 32 →
      (∀ idx, ¬ ((exec calls).state.pendingServices.find idx ≠ none ∧
        (exec calls).state.connectedServices.find idx ≠ none)) ∧
      (∀ idx, idx ∈ (exec calls).live →
        ((exec calls).state.pendingServices.find idx ≠ none ∧
          (exec calls).state.connectedServices.find idx = none) ∨
        ((exec calls).state.pendingServices.find idx = none ∧
          (exec calls).state.connectedServices.find idx ≠ none))) ∧
    (∀ idx info, (exec calls).state.pendingServices.find idx = some info ∨
      (exec calls).state.connectedServices.find idx = some info → info.serviceId = idx) := by
  refine ⟨?_, exec_IdInv calls⟩
  intro h
  obtain ⟨⟨_, hd⟩, hlive⟩ := exec_KeysInv calls h
  refine ⟨hd, ?_⟩
  intro idx hidx
  have hst := hlive idx hidx
  have hdi := hd idx
  unfold stored at hst
  by_cases hp : (exec calls).state.pendingServices.find idx = none
  · right
    exact ⟨hp, hst.resolve_left (fun x => x hp)⟩
  · left
    refine ⟨hp, ?_⟩
    by_contra hc
    exact hdi ⟨hp, hc⟩

/-- Witness of C3: after `sampleCalls` three registrations have succeeded, ids 1 and
2 are live, and id 2 is connected and not pending. -/
theorem pending_connected_disjoint_witness :
    (exec sampleCalls).returned = [1, 2, 3] ∧ (exec sampleCalls).live = [1, 2] ∧
      ((exec sampleCalls).state.pendingServices.find 2 = none ∧
        (exec sampleCalls).state.connectedServices.find 2 ≠ none) :=
  ⟨rfl, rfl,
    (((pending_connected_disjoint sampleCalls).1 (by decide)).2 2 (by decide)).resolve_left
      (by decide)⟩

namespace ServiceDirectory

/-- C4 as stated fails once the 32-bit id counter has wrapped: after the directory
has registered itself (id 1, made ready) and `2 ^ 32 - 1` further registrations have
brought the counter back to `0`, the service `b` is registered under the id 1 again;
it is pending and `serviceReady` has not been called for it, yet `service("b")`
answers a record, the one of the service `ServiceDirectory` stored under id 1 of
`connectedServices`. -/
theorem pending_name_resolved_after_wrap :
    (run collideCalls).nameToIdx.find "b" = some 1 ∧
    (run collideCalls).pendingServices.find 1 = some { mkInfo "b" [] with serviceId := 1 } ∧
    service (run collideCalls) "b" =
      Except.ok { mkInfo "ServiceDirectory" [] with serviceId := 1 } := by
  rw [collideCalls_state]
  exact ⟨rfl, rfl, rfl⟩

/-- C4, amended: `service(name)` answers a record exactly when the name index maps the
name to an id that is a key of `connectedServices`, and the record is the one stored
there; it fails for a name that is not in the index, and, in a directory reached from
the empty one by a sequence of calls of which fewer than `2 ^ 32` registrations have
succeeded, for a registered name whose id is still a key of `pendingServices`.
`services()` answers the records of `connectedServices`, one per entry, and does not
depend on `pendingServices`. -/
theorem service_two_phase_visibility (s : ServiceDirectory) (name : String) :
    (∀ info, service s name = Except.ok info ↔
      ∃ idx, s.nameToIdx.find name = some idx ∧ s.connectedServices.find idx = some info) ∧
    (s.nameToIdx.find name = none → failed (service s name)) ∧
    (∀ idx, s.nameToIdx.find name = some idx → s.connectedServices.find idx = none →
      failed (service s name)) ∧
    (∀ (calls : List Call) (idx : Nat), s = (exec calls).state →
      (exec calls).returned.length < 2 ^ 32 → s.nameToIdx.find name = some idx →
      s.pendingServices.find idx ≠ none → failed (service s name)) ∧
    (∀ info, info ∈ services s ↔ ∃ idx, (idx, info) ∈ s.connectedServices) ∧
    (services s).length = s.connectedServices.length ∧
    (∀ pending, services { s with pendingServices := pending } = services s) := by
  have h3 : ∀ idx, s.nameToIdx.find name = some idx → s.connectedServices.find idx = none →
      failed (service s name) := by
    intro idx h1 h2
    simp [failed, service, h1, h2]
  refine ⟨?_, ?_, h3, ?_, ?_, by simp [services], ?_⟩
  · intro info
    constructor
    · intro h
      cases h1 : s.nameToIdx.find name with
      | none => simp [service, h1] at h
      | some idx =>
        cases h2 : s.connectedServices.find idx with
        | none => simp [service, h1, h2] at h
        | some r =>
          simp [service, h1, h2] at h
          exact ⟨idx, rfl, by rw [h2, h]⟩
    · rintro ⟨idx, h1, h2⟩
      simp [service, h1, h2]
  · intro h1
    simp [failed, service, h1]
  · intro calls idx hs hlen hname hpending
    apply h3 idx hname
    by_contra hcon
    obtain ⟨⟨_, hd⟩, _⟩ := exec_KeysInv calls hlen
    rw [hs] at hpending hcon
    exact hd idx ⟨hpending, hcon⟩
  · intro info
    simp [services]
  · intro pending
    rfl

/-- Witness of C4: `svc1` is not resolved while pending and is resolved once ready;
an unknown name is not resolved. -/
theorem service_two_phase_visibility_witness :
    failed (service svc1Pending "svc1") ∧
      service svc1Ready "svc1" = Except.ok { mkInfo "svc1" [] with serviceId := 1 } ∧
      failed (service svc1Ready "other") :=
  ⟨(service_two_phase_visibility svc1Pending "svc1").2.2.2.1
      [Call.registerService (some 5) (mkInfo "svc1" [])] 1 rfl (by decide) rfl (by decide),
    ((service_two_phase_visibility svc1Ready "svc1").1 _).2 ⟨1, rfl, rfl⟩,
    (service_two_phase_visibility svc1Ready "other").2.1 rfl⟩

end ServiceDirectory

namespace ServiceDirectory

/-- C5: when `idx` is a key of `pendingServices`, `serviceReady(idx)` succeeds,
removes `idx` from `pendingServices` and stores the same record under `idx` in
`connectedServices`; the entries of both maps under the other ids, the name index,
both socket indexes and the id counter are unchanged, and a second `serviceReady`
of the same id fails without changing the directory. When `idx` is not a key of
`pendingServices` (unknown or already connected), the call fails and the directory
is unchanged. -/
theorem serviceReady_moves_pending_to_connected (s : ServiceDirectory) (idx : Nat) :
    (∀ info, s.pendingServices.find idx = some info →
      (serviceReady s idx).1 = Except.ok () ∧
      (serviceReady s idx).2.pendingServices.find idx = none ∧
      (serviceReady s idx).2.connectedServices.find idx = some info ∧
      (∀ j, j ≠ idx →
        (serviceReady s idx).2.pendingServices.find j = s.pendingServices.find j ∧
        (serviceReady s idx).2.connectedServices.find j = s.connectedServices.find j) ∧
      (serviceReady s idx).2.nameToIdx = s.nameToIdx ∧
      (serviceReady s idx).2.socketToIdx = s.socketToIdx ∧
      (serviceReady s idx).2.idxToSocket = s.idxToSocket ∧
      (serviceReady s idx).2.servicesCount = s.servicesCount ∧
      failed (serviceReady (serviceReady s idx).2 idx).1 ∧
      (serviceReady (serviceReady s idx).2 idx).2 = (serviceReady s idx).2) ∧
    (s.pendingServices.find idx = none →
      failed (serviceReady s idx).1 ∧ (serviceReady s idx).2 = s) := by
  refine ⟨?_, serviceReady_error s idx⟩
  intro info h
  have hnone : (serviceReady s idx).2.pendingServices.find idx = none := by
    rw [serviceReady_ok s idx info h]
    exact StdMap.find_erase_self _ _
  have h2 := serviceReady_error _ idx hnone
  rw [serviceReady_ok s idx info h] at h2 hnone ⊢
  refine ⟨rfl, hnone, StdMap.find_assign_self _ _ _, ?_, rfl, rfl, rfl, rfl, h2.1, h2.2⟩
  intro j hj
  exact ⟨StdMap.find_erase_ne _ _ _ hj, StdMap.find_assign_ne _ _ _ _ hj⟩

/-- Witness of C5: `serviceReady(1)` moves the pending `svc1`; a second call and a
call for the unknown id 7 fail. -/
theorem serviceReady_moves_pending_to_connected_witness :
    (serviceReady svc1Pending 1).1 = Except.ok () ∧
      (serviceReady svc1Pending 1).2.connectedServices.find 1
        = some { mkInfo "svc1" [] with serviceId := 1 } ∧
      failed (serviceReady svc1Ready 1).1 ∧ (serviceReady svc1Ready 1).2 = svc1Ready ∧
      failed (serviceReady svc1Ready 7).1 :=
  have h := (serviceReady_moves_pending_to_connected svc1Pending 1).1 _ rfl
  ⟨h.1, h.2.2.1, h.2.2.2.2.2.2.2.2.1, h.2.2.2.2.2.2.2.2.2,
    ((serviceReady_moves_pending_to_connected svc1Ready 7).2 rfl).1⟩

end ServiceDirectory

namespace ServiceDirectory

end ServiceDirectory

namespace ServiceDirectory

/-- C7: `registerService` never emits. A successful `serviceReady(idx)` emits
nothing when the name of the record starts with an underscore, and exactly one
`serviceAdded(idx, name)` otherwise; a successful `unregisterService(idx)` emits
nothing when the name of the record starts with an underscore, and exactly one
`serviceRemoved(idx, name)` otherwise; the two calls emit nothing when they fail. -/
theorem hidden_service_silence (s : ServiceDirectory) (idx : Nat) :
    (∀ sbo svcinfo, (registerService s sbo svcinfo).2.emitted = s.emitted) ∧
    (∀ info, s.pendingServices.find idx = some info →
      (serviceReady s idx).1 = Except.ok () ∧
      (hidden info.name = true → (serviceReady s idx).2.emitted = s.emitted) ∧
      (hidden info.name = false →
        (serviceReady s idx).2.emitted = s.emitted ++ [Emission.serviceAdded idx info.name])) ∧
    (failed (serviceReady s idx).1 → (serviceReady s idx).2.emitted = s.emitted) ∧
    (∀ info, record s idx = some info → (unregisterService s idx).1 = Except.ok () →
      (hidden info.name = true → (unregisterService s idx).2.emitted = s.emitted) ∧
      (hidden info.name = false →
        (unregisterService s idx).2.emitted
          = s.emitted ++ [Emission.serviceRemoved idx info.name])) ∧
    (failed (unregisterService s idx).1 → (unregisterService s idx).2.emitted = s.emitted) := by
  refine ⟨registerService_emitted s, ?_, ?_, ?_, ?_⟩
  · intro info h
    rw [serviceReady_ok s idx info h]
    refine ⟨rfl, ?_, ?_⟩ <;> intro hh <;> simp [hh]
  · intro h
    cases hp : s.pendingServices.find idx with
    | none => rw [(serviceReady_error s idx hp).2]
    | some info =>
      rw [serviceReady_ok s idx info hp] at h
      obtain ⟨e, he⟩ := h
      simp at he
  · intro info hr hok
    obtain ⟨info2, hr2, hn⟩ := unregisterService_ok_inv s idx hok
    rw [hr] at hr2
    simp only [Option.some.injEq] at hr2
    subst hr2
    rw [unregisterService_eq s idx info hr, unregisterFound_ok s idx _ info hn]
    constructor <;> intro hh <;> simp [hh]
  · intro h
    rw [unregisterService_error s idx h]

/-- Witness of C7: `svc1` is announced when made ready and when unregistered; the
hidden `_hid` is announced in neither case. -/
theorem hidden_service_silence_witness :
    (serviceReady svc1Pending 1).2.emitted = [Emission.serviceAdded 1 "svc1"] ∧
      (unregisterService svc1Ready 1).2.emitted
        = [Emission.serviceAdded 1 "svc1", Emission.serviceRemoved 1 "svc1"] ∧
      (serviceReady (registerService svc1Ready (some 5) (mkInfo "_hid" [])).2 2).2.emitted
        = [Emission.serviceAdded 1 "svc1"] ∧
      (unregisterService
          (serviceReady (registerService svc1Ready (some 5) (mkInfo "_hid" [])).2 2).2 2).2.emitted
        = [Emission.serviceAdded 1 "svc1"] :=
  ⟨((hidden_service_silence svc1Pending 1).2.1 _ rfl).2.2 rfl,
    ((hidden_service_silence svc1Ready 1).2.2.2.1 _ rfl rfl).2 rfl,
    ((hidden_service_silence (registerService svc1Ready (some 5) (mkInfo "_hid" [])).2 2).2.1
      _ rfl).2.1 rfl,
    ((hidden_service_silence
      (serviceReady (registerService svc1Ready (some 5) (mkInfo "_hid" [])).2 2).2 2).2.2.2.1
      _ rfl rfl).1 rfl⟩

end ServiceDirectory

/-- C8, counterexample: after `2 ^ 32 - 1` successful registrations on a new
directory, the first of which returned 1, the next successful `registerService`
returns 0: the `2 ^ 32`-th id is neither `2 ^ 32` nor greater than the ids returned
before, and the ids returned are not `1, 2, ..., 2 ^ 32`. -/
theorem registerService_id_wraps :
    (exec wrapCalls).returned.length = 2 ^ 32 - 1 ∧
      (exec wrapCalls).returned.head? = some 1 ∧
      (exec (wrapCalls ++ [Call.registerService (some 5) (mkInfo "b" [])])).returned
        = (exec wrapCalls).returned ++ [0] ∧
      ¬ ((exec (wrapCalls ++ [Call.registerService (some 5) (mkInfo "b" [])])).returned
        = List.range' 1
          (exec (wrapCalls ++ [Call.registerService (some 5) (mkInfo "b" [])])).returned.length)
    := by
  obtain ⟨hst, ids, hret, hlen⟩ := wrapCalls_state
  have hlast : (exec (wrapCalls ++ [Call.registerService (some 5) (mkInfo "b" [])])).returned
      = (exec wrapCalls).returned ++ [0] := by
    rw [exec_append]
    simp only [List.foldl_cons, List.foldl_nil, History.step]
    rw [exec_state, hst]
    rfl
  refine ⟨?_, ?_, hlast, ?_⟩
  · rw [hret, List.length_append, hlen]
    rfl
  · rw [hret]
    rfl
  · intro heq
    have hmem : 0 ∈
        (exec (wrapCalls ++ [Call.registerService (some 5) (mkInfo "b" [])])).returned := by
      rw [hlast]
      simp
    rw [heq, List.mem_range'_1] at hmem
    omega

/-- C8 (amended): as long as fewer than `2 ^ 32` registrations have succeeded, the
ids returned by the successful calls of `registerService` are `1, 2, ..., n` in this
order (the `k`-th one is `k`), so each is greater than those returned before and
none is handed out twice, whatever was unregistered meanwhile, and the id counter is
the number of successful registrations. In every case a rejected registration
leaves the directory and the returned ids as they were, and the first registration
on a new directory returns 1, the id of the ServiceDirectory itself. -/
theorem registerService_ids_monotonic (calls : List Call) :
    ((exec calls).returned.length < 2 ^ 32 →
      (exec calls).returned = List.range' 1 (exec calls).returned.length ∧
      (exec calls).returned.Pairwise (fun a b => a < b) ∧
      (exec calls).state.servicesCount = (exec calls).returned.length) ∧
    (∀ sbo svcinfo, failed (registerService (exec calls).state sbo svcinfo).1 →
      (registerService (exec calls).state sbo svcinfo).2 = (exec calls).state ∧
      (exec (calls ++ [Call.registerService sbo svcinfo])).returned = (exec calls).returned) ∧
    (∀ socket svcinfo,
      (registerService ServiceDirectory.init (some socket) svcinfo).1
        = Except.ok Service_ServiceDirectory) := by
  refine ⟨?_, ?_, ?_⟩
  · intro h
    obtain ⟨hret, hcount⟩ := exec_returned calls h
    refine ⟨hret, ?_, hcount⟩
    rw [hret]
    exact List.pairwise_lt_range' 1 _
  · intro sbo svcinfo hf
    refine ⟨registerService_error _ sbo svcinfo hf, ?_⟩
    rw [exec_append]
    obtain ⟨e, he⟩ := hf
    simp [History.step, returnedBy, he]
  · intro socket svcinfo
    rfl

/-- Witness of C8: in `sampleCalls` the three accepted registrations return 1, 2 and
3, and the rejected second registration of `a` returns nothing. -/
theorem registerService_ids_monotonic_witness :
    (exec sampleCalls).returned.length < 2 ^ 32 ∧ (exec sampleCalls).returned = [1, 2, 3] ∧
      (exec sampleCalls).state.servicesCount = 3 :=
  ⟨by decide, ((registerService_ids_monotonic sampleCalls).1 (by decide)).1,
    ((registerService_ids_monotonic sampleCalls).1 (by decide)).2.2⟩

namespace ServiceDirectory

/-- C9, counterexample: `svc1` is the first service registered on a new directory,
through socket 5 (so it gets id 1, which `registerService` does not list in the
socket -> ids index), and is made ready; the name index is consistent. After
`onSocketDisconnected` of socket 5 the service is still connected, its name is still
in the name index and no `serviceRemoved` has been emitted for it. -/
theorem onSocketDisconnected_keeps_first_registration :
    NameInv svc1Ready ∧ svc1Ready.idxToSocket.find 1 = some 5 ∧
      (onSocketDisconnected svc1Ready 5).connectedServices.find 1
        = some { mkInfo "svc1" [] with serviceId := 1 } ∧
      (onSocketDisconnected svc1Ready 5).nameToIdx.find "svc1" = some 1 ∧
      (onSocketDisconnected svc1Ready 5).emitted = svc1Ready.emitted :=
  ⟨NameInv_of_forall _ (by decide), rfl, rfl, rfl, rfl⟩

/-- C9 (amended): starting from a state in which the name index is consistent with
the stored records and no id is stored in both maps, after `onSocketDisconnected(s)`
no id listed under `s` in the socket -> ids index is a key of `pendingServices` or
`connectedServices`, the names of their records are out of the name index,
`serviceRemoved` has been emitted exactly once for each of them whose record is not
hidden (and nothing else has been emitted), the socket -> ids index has no entry
for `s`, the id -> socket index maps no id to `s`, and the records and names of the
ids that are not listed under `s`, as well as the id counter, are unchanged. -/
theorem onSocketDisconnected_contract (s : ServiceDirectory) (socket : TransportSocketPtr)
    (hN : NameInv s) (hD : Disjoint s) :
    (∀ idx, idx ∈ (s.socketToIdx.find socket).getD [] →
      (onSocketDisconnected s socket).pendingServices.find idx = none ∧
      (onSocketDisconnected s socket).connectedServices.find idx = none) ∧
    (∀ idx, idx ∈ (s.socketToIdx.find socket).getD [] → ∀ info, record s idx = some info →
      (onSocketDisconnected s socket).nameToIdx.find info.name = none) ∧
    (∃ added, (onSocketDisconnected s socket).emitted = s.emitted ++ added ∧
      (∀ idx, idx ∈ (s.socketToIdx.find socket).getD [] → ∀ info, record s idx = some info →
        added.count (Emission.serviceRemoved idx info.name)
          = if hidden info.name then 0 else 1) ∧
      (∀ e, e ∈ added → ∃ idx, idx ∈ (s.socketToIdx.find socket).getD [] ∧
        ∃ info, record s idx = some info ∧ hidden info.name = false ∧
          e = Emission.serviceRemoved idx info.name)) ∧
    (onSocketDisconnected s socket).socketToIdx.find socket = none ∧
    (∀ e, e ∈ (onSocketDisconnected s socket).idxToSocket → e.2 ≠ socket) ∧
    (∀ j, j ∉ (s.socketToIdx.find socket).getD [] →
      (onSocketDisconnected s socket).pendingServices.find j = s.pendingServices.find j ∧
      (onSocketDisconnected s socket).connectedServices.find j = s.connectedServices.find j ∧
      ∀ info, record s j = some info →
        (onSocketDisconnected s socket).nameToIdx.find info.name
          = s.nameToIdx.find info.name) ∧
    (onSocketDisconnected s socket).servicesCount = s.servicesCount := by
  have hfilter : ∀ e, e ∈ s.idxToSocket.filter (fun e => decide (e.2 ≠ socket)) →
      e.2 ≠ socket := by
    intro e he
    simpa using (List.mem_filter.1 he).2
  cases hf : s.socketToIdx.find socket with
  | none =>
    rw [onSocketDisconnected_none s socket hf]
    refine ⟨?_, ?_, ⟨[], by simp, ?_, ?_⟩, hf, hfilter, ?_, rfl⟩
    · intro idx h; simp at h
    · intro idx h; simp at h
    · intro idx h; simp at h
    · intro e h; simp at h
    · intro j _
      exact ⟨rfl, rfl, fun _ _ => rfl⟩
  | some ids =>
    rw [onSocketDisconnected_some s socket ids hf]
    obtain ⟨s1, hs1⟩ : ∃ s1 : ServiceDirectory, s1 =
        { s with idxToSocket := s.idxToSocket.filter (fun e => decide (e.2 ≠ socket)) } :=
      ⟨_, rfl⟩
    rw [← hs1]
    have hN1 : NameInv s1 := by rw [hs1]; exact hN
    have hD1 : Disjoint s1 := by rw [hs1]; exact hD
    have hrec : ∀ j, record s1 j = record s j := by intro j; rw [hs1]; rfl
    have hp1 : s1.pendingServices = s.pendingServices := by rw [hs1]
    have hc1 : s1.connectedServices = s.connectedServices := by rw [hs1]
    have hn1 : s1.nameToIdx = s.nameToIdx := by rw [hs1]
    have he1 : s1.emitted = s.emitted := by rw [hs1]
    have hk1 : s1.servicesCount = s.servicesCount := by rw [hs1]
    have hi1 : s1.idxToSocket = s.idxToSocket.filter (fun e => decide (e.2 ≠ socket)) := by
      rw [hs1]
    obtain ⟨hN2, _, hp, hc, hn, he, hi, hk⟩ := unregisterAll_spec ids s1 hN1 hD1
    simp only [Option.getD_some]
    refine ⟨?_, ?_, ⟨removals s1 ids, ?_, ?_, ?_⟩, StdMap.find_erase_self _ _, ?_, ?_, ?_⟩
    · intro idx hmem
      constructor
      · show (unregisterAll s1 ids).pendingServices.find idx = none
        rw [hp]; simp [hmem]
      · show (unregisterAll s1 ids).connectedServices.find idx = none
        rw [hc]; simp [hmem]
    · intro idx hmem info hr
      exact hn idx hmem info ((hrec idx).trans hr)
    · show (unregisterAll s1 ids).emitted = s.emitted ++ removals s1 ids
      rw [he, he1]
    · intro idx hmem info hr
      exact count_removals ids s1 hN1 hD1 idx hmem info ((hrec idx).trans hr)
    · intro e hmem
      obtain ⟨idx, h1, info, h2, h3, h4⟩ := mem_removals ids s1 hN1 hD1 e hmem
      exact ⟨idx, h1, info, (hrec idx).symm.trans h2, h3, h4⟩
    · intro e hmem
      have : e ∈ s.idxToSocket.filter (fun e => decide (e.2 ≠ socket)) := by
        rw [← hi1, ← hi]; exact hmem
      exact hfilter e this
    · intro j hj
      have hpj : (unregisterAll s1 ids).pendingServices.find j = s.pendingServices.find j := by
        rw [hp, hp1]; simp [hj]
      have hcj : (unregisterAll s1 ids).connectedServices.find j
          = s.connectedServices.find j := by
        rw [hc, hc1]; simp [hj]
      refine ⟨hpj, hcj, ?_⟩
      intro info hr
      have h1 : s.nameToIdx.find info.name = some j := by
        rcases (record_eq_some s j info).1 hr with h | ⟨_, h⟩
        · exact hN j info (Or.inr h)
        · exact hN j info (Or.inl h)
      have h2 := hN2 j info (by
        rcases (record_eq_some s j info).1 hr with h | ⟨_, h⟩
        · exact Or.inr (hcj.trans h)
        · exact Or.inl (hpj.trans h))
      exact h2.trans h1.symm
    · show (unregisterAll s1 ids).servicesCount = s.servicesCount
      rw [hk, hk1]

/-- Witness of C9: in `twoSockets` the loss of socket 5 removes `a` (id 2) and `_b`
(id 3) and leaves `c` (id 4, socket 6) as it was. -/
theorem onSocketDisconnected_contract_witness :
    (onSocketDisconnected twoSockets 5).connectedServices.find 2 = none ∧
      (onSocketDisconnected twoSockets 5).pendingServices.find 3 = none ∧
      (onSocketDisconnected twoSockets 5).nameToIdx.find "a" = none ∧
      (onSocketDisconnected twoSockets 5).socketToIdx.find 5 = none ∧
      (onSocketDisconnected twoSockets 5).connectedServices.find 4
        = twoSockets.connectedServices.find 4 :=
  have h := onSocketDisconnected_contract twoSockets 5 (NameInv_of_forall _ (by decide))
    (Disjoint_of_forall _ (by decide))
  ⟨(h.1 2 (by decide)).2, (h.1 3 (by decide)).1,
    h.2.1 2 (by decide) { mkInfo "a" [] with serviceId := 2 } rfl, h.2.2.2.1,
    (h.2.2.2.2.2.1 4 (by decide)).2.1⟩

end ServiceDirectory

/-- C10: for a service of this machine (`servInfo.machineId` is the id of the
machine of the process), when the advertised endpoints hold a valid url with a
loopback host (one that starts with `127.` or equals `localhost`) and of the protocol
asked for (or no protocol is asked for), the endpoints kept for the connection are
the one-element list of the first such url in advertised order; when no advertised
endpoint has a loopback host, every valid advertised endpoint is kept. -/
theorem socket_localhost_preference (stdPartition : (Url → Bool) → List Url → List Url)
    (self : String) (servInfo : ServiceInfo) (protocol : String)
    (hlocal : servInfo.machineId = self) :
    ((∃ u, u ∈ servInfo.endpoints ∧ preferred protocol u = true) →
      ∃ u, servInfo.endpoints.find? (preferred protocol) = some u ∧
        socketEndpoints stdPartition self servInfo protocol = [u]) ∧
    ((∀ w, w ∈ servInfo.endpoints → loopbackHost w = false) →
      ∀ u, u ∈ servInfo.endpoints → u.isValid = true →
        u ∈ socketEndpoints stdPartition self servInfo protocol) := by
  subst hlocal
  constructor
  · rintro ⟨u, hu, hp⟩
    obtain ⟨w, hw⟩ := find?_isSome_of_mem (preferred protocol) servInfo.endpoints u hu hp
    exact ⟨w, hw, socketEndpoints_local_preferred stdPartition servInfo protocol w hw⟩
  · exact socketEndpoints_local_no_loopback stdPartition servInfo protocol

/-- Witness of C10: of `10.0.0.1` and `127.0.0.1` only the loopback url is kept; when
only `10.0.0.1` is advertised, it is kept. -/
theorem socket_localhost_preference_witness :
    socketEndpoints stablePartition "m"
        (mkInfo "svc" [tcpUrl "10.0.0.1" 5555, tcpUrl "127.0.0.1" 5555]) "tcp"
        = [tcpUrl "127.0.0.1" 5555] ∧
      tcpUrl "10.0.0.1" 5555
        ∈ socketEndpoints stablePartition "m" (mkInfo "svc" [tcpUrl "10.0.0.1" 5555]) "" := by
  constructor
  · obtain ⟨u, hu, h⟩ := (socket_localhost_preference stablePartition "m"
      (mkInfo "svc" [tcpUrl "10.0.0.1" 5555, tcpUrl "127.0.0.1" 5555]) "tcp" rfl).1
      ⟨tcpUrl "127.0.0.1" 5555, by decide, by decide⟩
    have hu2 : (mkInfo "svc" [tcpUrl "10.0.0.1" 5555, tcpUrl "127.0.0.1" 5555]).endpoints.find?
        (preferred "tcp") = some (tcpUrl "127.0.0.1" 5555) := by decide
    rw [hu2] at hu
    rw [h, ← Option.some.inj hu]
  · exact (socket_localhost_preference stablePartition "m"
      (mkInfo "svc" [tcpUrl "10.0.0.1" 5555]) "" rfl).2 (by decide) _ (by decide) rfl

/-- C11, as stated, fails in two ways. (1) Two calls of `socket` for services of the
same machine on different urls: the second call starts a race on the promise 1 and
resets the attempt of the machine; the first `connected` event processed afterwards
is the one of socket 1, which fulfils the promise 0 of the older slot; socket 2, which
then connects, is disconnected by the cache, and its `disconnected` event fails the
promise 1, which never holds a socket. (2) In a single race, a `connected` event
processed after the last `disconnected` event finds the promise failed and does not
fulfil it. -/
theorem TransportSocketCache.second_race_never_gets_its_socket :
    (raceA.socket stablePartition "self" infoB "").1 = 1 ∧
    stateOf (raceAthenB.handleAll [SocketEvent.connected 1 infoA urlA]).promises 1 =
      FutureState.running ∧
    stateOf (raceAthenB.handleAll [SocketEvent.connected 1 infoA urlA,
      SocketEvent.connected 2 infoB urlB]).promises 1 = FutureState.running ∧
    (raceAthenB.handleAll [SocketEvent.connected 1 infoA urlA,
      SocketEvent.connected 2 infoB urlB]).calls =
      raceAthenB.calls ++ [SocketCall.disconnect 2] ∧
    stateOf (raceAthenB.handleAll [SocketEvent.connected 1 infoA urlA,
      SocketEvent.connected 2 infoB urlB,
      SocketEvent.disconnected "" 2 infoB urlB]).promises 1 =
      FutureState.finishedWithError
        "Failed to connect to service b on machine M. All endpoints are unavailable." ∧
    stateOf (raceA.handleAll [SocketEvent.disconnected "" 1 infoA urlA,
      SocketEvent.connected 1 infoA urlA]).promises 0 =
      FutureState.finishedWithError
        "Failed to connect to service a on machine M. All endpoints are unavailable." := by
  refine ⟨?_, ?_, ?_, ?_, ?_, ?_⟩ <;> decide

/-- C11 (amended): in a cache that is not closing, take a machine `M` whose attempt is
not successful yet and whose promise is pending. Process `disconnected` events of
`M`, fewer than the count of the attempt, then a `connected` event of `M` for a url
whose slot holds the promise of the attempt, then any events. The promise is pending
until the `connected` event; from then on it holds the socket of that event, whatever
is processed afterwards; and every later `connected` event of `M` makes the cache
disconnect its socket and do nothing else. -/
theorem TransportSocketCache.first_connected_socket_wins (c : TransportSocketCache)
    (M : String) (tsca : TransportSocketConnectionAttempt)
    (tscm : StdMap String TransportSocketConnection) (tsc : TransportSocketConnection)
    (pre post : List SocketEvent) (socket : TransportSocketPtr) (servInfo : ServiceInfo)
    (url : Url)
    (hd : c._dying = false)
    (ha : c._attempts.find M = some tsca) (hs : tsca.successful = false)
    (hrun : stateOf c.promises tsca.promise = FutureState.running)
    (hm : c._sockets.find M = some tscm)
    (htsc : tscm.find url.str = some tsc) (hp : tsc.promise = tsca.promise)
    (hpre : ∀ e ∈ pre, e.isConnected = false ∧ e.machineId = M)
    (hlen : (pre.length : Int) < tsca.socket_count)
    (hM : servInfo.machineId = M) :
    stateOf (c.handleAll pre).promises tsca.promise = FutureState.running ∧
    stateOf (c.handleAll (pre ++ SocketEvent.connected socket servInfo url :: post)).promises
      tsca.promise = FutureState.finishedWithValue socket ∧
    ∀ (late : TransportSocketPtr) (lateInfo : ServiceInfo) (lateUrl : Url),
      lateInfo.machineId = M →
      (c.handleAll (pre ++ SocketEvent.connected socket servInfo url :: post)).handle
          (SocketEvent.connected late lateInfo lateUrl) =
        { c.handleAll (pre ++ SocketEvent.connected socket servInfo url :: post) with
          calls := (c.handleAll (pre ++ SocketEvent.connected socket servInfo url :: post)).calls
            ++ [SocketCall.disconnect late] } := by
  obtain ⟨h1, h2, h3, _, h5⟩ := handleAll_disconnected pre c M tsca hd ha hpre hlen
  subst hM
  have hfirst := onSocketConnected_first (c.handleAll pre) socket servInfo url _ tscm tsc h1 h5 hs
    (by rw [h2]; exact hm) htsc
  have hval : stateOf ((c.handleAll pre).handle
      (SocketEvent.connected socket servInfo url)).promises tsca.promise =
      FutureState.finishedWithValue socket := by
    show stateOf ((c.handleAll pre).onSocketConnected socket servInfo url).promises _ = _
    rw [hfirst]
    show stateOf (multiSetValue (c.handleAll pre).promises tsc.promise socket) _ = _
    rw [hp, h3, stateOf_multiSetValue]
    simp [hrun]
  have hwon : ∃ t, ((c.handleAll pre).handle
      (SocketEvent.connected socket servInfo url))._attempts.find servInfo.machineId = some t ∧
      t.successful = true := by
    show ∃ t, ((c.handleAll pre).onSocketConnected socket servInfo url)._attempts.find _ = _ ∧ _
    rw [hfirst]
    exact ⟨_, StdMap.find_assign_self _ _ _, rfl⟩
  have hall : c.handleAll (pre ++ SocketEvent.connected socket servInfo url :: post) =
      ((c.handleAll pre).handle (SocketEvent.connected socket servInfo url)).handleAll post := by
    rw [handleAll_append, handleAll_cons]
  refine ⟨by rw [h3]; exact hrun, ?_, ?_⟩
  · rw [hall, handleAll_stateOf_of_set _ _ _ (by rw [hval]; simp), hval]
  · intro late lateInfo lateUrl hlate
    obtain ⟨t, ht, hts⟩ := handleAll_successful post _ servInfo.machineId hwon
    rw [hall]
    have hdy : (((c.handleAll pre).handle
        (SocketEvent.connected socket servInfo url)).handleAll post)._dying = false := by
      rw [handleAll_dying, handle_dying]; exact h1
    exact onSocketConnected_late _ late lateInfo lateUrl t hdy (by rw [hlate]; exact ht) hts

/-- Witness of C11 (amended): in the race towards both urls of service `ab`, socket 1
fails, socket 2 connects, then socket 1 connects late. -/
theorem TransportSocketCache.first_connected_socket_wins_witness :
    stateOf (raceAB.handleAll [SocketEvent.disconnected "" 1 infoAB urlA]).promises 0 =
      FutureState.running ∧
    stateOf (raceAB.handleAll ([SocketEvent.disconnected "" 1 infoAB urlA] ++
      SocketEvent.connected 2 infoAB urlB :: [SocketEvent.disconnected "" 2 infoAB urlB])).promises
      0 = FutureState.finishedWithValue 2 :=
  have h := TransportSocketCache.first_connected_socket_wins raceAB "M"
    { promise := 0, socket_count := 2, successful := false }
    [(urlA.str, slotA), (urlB.str, slotB)] slotB
    [SocketEvent.disconnected "" 1 infoAB urlA] [SocketEvent.disconnected "" 2 infoAB urlB]
    2 infoAB urlB (by decide) (by decide) rfl (by decide) (by decide) (by decide) rfl
    (by decide) (by decide) rfl
  ⟨h.1, h.2.1⟩

/-- C12: a call of `socket` on a cache that is not closing, which misses the cache and
starts `E ≥ 1` connections for the machine, returns a promise that stays pending
while fewer than `E` `disconnected` events of the machine have been processed (no
`connected` event being processed), and that the `E`-th `disconnected` event fails
with "Failed to connect to service ... on machine ... . All endpoints are
unavailable.", the service named being the one bound to that event. -/
theorem TransportSocketCache.socket_all_endpoints_fail (c : TransportSocketCache)
    (stdPartition : (Url → Bool) → List Url → List Url) (self : String)
    (servInfo : ServiceInfo) (protocol : String) (events : List SocketEvent)
    (hd : c._dying = false)
    (hmiss : (c._sockets.find servInfo.machineId).bind
      (fun tscm => cacheCheck c.promises tscm
        (socketEndpoints stdPartition self servInfo protocol)) = none)
    (hE : 1 ≤ (launched protocol (socketEndpoints stdPartition self servInfo protocol)).length)
    (hev : ∀ e ∈ events, e.isConnected = false ∧ e.machineId = servInfo.machineId) :
    (events.length < (launched protocol
        (socketEndpoints stdPartition self servInfo protocol)).length →
      stateOf ((c.socket stdPartition self servInfo protocol).2.handleAll events).promises
        (c.socket stdPartition self servInfo protocol).1 = FutureState.running) ∧
    (∀ (error : String) (socket : TransportSocketPtr) (lastInfo : ServiceInfo) (url : Url),
      lastInfo.machineId = servInfo.machineId →
      events.length + 1 = (launched protocol
        (socketEndpoints stdPartition self servInfo protocol)).length →
      stateOf ((c.socket stdPartition self servInfo protocol).2.handleAll
        (events ++ [SocketEvent.disconnected error socket lastInfo url])).promises
        (c.socket stdPartition self servInfo protocol).1 =
        FutureState.finishedWithError ("Failed to connect to service " ++ lastInfo.name ++
          " on machine " ++ servInfo.machineId ++ ". All endpoints are unavailable.")) := by
  have hne : (socketEndpoints stdPartition self servInfo protocol).isEmpty = false := by
    cases hl : socketEndpoints stdPartition self servInfo protocol with
    | nil => rw [hl] at hE; simp [launched] at hE
    | cons a l => rfl
  obtain ⟨h1, h2, h3, h4⟩ := socket_starts_race c stdPartition self servInfo protocol hd hmiss hne
  rw [h1]
  constructor
  · intro hlt
    obtain ⟨_, _, k3, _, _⟩ := handleAll_disconnected events _ servInfo.machineId _ h2 h4 hev
      (by show (events.length : Int) < ((launched protocol _).length : Int); omega)
    rw [k3]; exact h3
  · intro error socket lastInfo url hM hlen
    obtain ⟨k1, _, k3, _, k5⟩ := handleAll_disconnected events _ servInfo.machineId _ h2 h4 hev
      (by show (events.length : Int) < ((launched protocol _).length : Int); omega)
    rw [handleAll_append, handleAll_cons, handleAll_nil]
    show stateOf (((c.socket stdPartition self servInfo protocol).2.handleAll
      events).onSocketDisconnected error socket lastInfo url).promises _ = _
    rw [onSocketDisconnected_last _ error socket lastInfo url _ k1 (by rw [hM]; exact k5)
      (by show ((launched protocol _).length : Int) - (events.length : Int) = 1; omega)]
    show stateOf (multiSetError _ c.nextPromise _) _ = _
    rw [stateOf_multiSetError, k3, hM]
    simp [h3]

/-- Witness of C12: the race towards the two urls of service `ab`; the promise is
pending after the failure of socket 1 and failed after the failure of socket 2. -/
theorem TransportSocketCache.socket_all_endpoints_fail_witness :
    stateOf (raceAB.handleAll [SocketEvent.disconnected "refused" 1 infoAB urlA]).promises 0 =
      FutureState.running ∧
    stateOf (raceAB.handleAll ([SocketEvent.disconnected "refused" 1 infoAB urlA] ++
      [SocketEvent.disconnected "refused" 2 infoAB urlB])).promises 0 =
      FutureState.finishedWithError
        "Failed to connect to service ab on machine M. All endpoints are unavailable." :=
  have h := TransportSocketCache.socket_all_endpoints_fail TransportSocketCache.create
    stablePartition "self" infoAB "" [SocketEvent.disconnected "refused" 1 infoAB urlA]
    rfl rfl (by decide) (by decide)
  ⟨h.1 (by decide), h.2 "refused" 2 infoAB urlB rfl (by decide)⟩

/-- C13, as stated, fails: the socket 1 wins the race towards `urlA` and later breaks;
processing its `disconnected` event leaves the slot of `urlA` in the cache map, its
promise still holds socket 1, and the next call of `socket` for the machine returns
that very promise and starts no connection. -/
theorem TransportSocketCache.broken_winner_is_served_again :
    (raceA.handleAll [SocketEvent.connected 1 infoA urlA,
      SocketEvent.disconnected "broken" 1 infoA urlA])._sockets =
      [("M", [(urlA.str, slotA)])] ∧
    stateOf (raceA.handleAll [SocketEvent.connected 1 infoA urlA,
      SocketEvent.disconnected "broken" 1 infoA urlA]).promises 0 =
      FutureState.finishedWithValue 1 ∧
    (raceA.handleAll [SocketEvent.connected 1 infoA urlA,
      SocketEvent.disconnected "broken" 1 infoA urlA]).socket stablePartition "self" infoA "" =
      (0, raceA.handleAll [SocketEvent.connected 1 infoA urlA,
        SocketEvent.disconnected "broken" 1 infoA urlA]) := by
  refine ⟨?_, ?_, ?_⟩ <;> decide

/-- C13 (amended): processing a `disconnected` event removes no slot: the cache map is
the same afterwards. A later call of `socket` for a machine that has slots, on a
cache that is not closing, goes by the promises of the slots of the endpoints it
keeps: if one of them is not failed, the call returns such a promise, held by a slot
of one of these endpoints, and leaves the cache as it is (so the promise that holds a
socket which has disconnected is returned again); if all of them are failed and there
is an endpoint, the call starts a new race on a new pending promise. -/
theorem TransportSocketCache.onSocketDisconnected_keeps_slots (c : TransportSocketCache)
    (error : String) (socket : TransportSocketPtr) (servInfo : ServiceInfo) (url : Url)
    (stdPartition : (Url → Bool) → List Url → List Url) (self : String)
    (next : ServiceInfo) (protocol : String)
    (tscm : StdMap String TransportSocketConnection)
    (hd : (c.onSocketDisconnected error socket servInfo url)._dying = false)
    (hm : (c.onSocketDisconnected error socket servInfo url)._sockets.find next.machineId =
      some tscm) :
    (c.onSocketDisconnected error socket servInfo url)._sockets = c._sockets ∧
    ((∃ u ∈ socketEndpoints stdPartition self next protocol, ∃ tsc,
        tscm.find u.str = some tsc ∧
        (stateOf (c.onSocketDisconnected error socket servInfo url).promises
          tsc.promise).hasError = false) →
      ∃ u ∈ socketEndpoints stdPartition self next protocol, ∃ tsc,
        tscm.find u.str = some tsc ∧
        (stateOf (c.onSocketDisconnected error socket servInfo url).promises
          tsc.promise).hasError = false ∧
        (c.onSocketDisconnected error socket servInfo url).socket stdPartition self next
          protocol = (tsc.promise, c.onSocketDisconnected error socket servInfo url)) ∧
    ((∀ u ∈ socketEndpoints stdPartition self next protocol, ∀ tsc,
        tscm.find u.str = some tsc →
        (stateOf (c.onSocketDisconnected error socket servInfo url).promises
          tsc.promise).hasError = true) →
      (socketEndpoints stdPartition self next protocol).isEmpty = false →
      ((c.onSocketDisconnected error socket servInfo url).socket stdPartition self next
          protocol).1 = (c.onSocketDisconnected error socket servInfo url).nextPromise ∧
      stateOf ((c.onSocketDisconnected error socket servInfo url).socket stdPartition self next
          protocol).2.promises (c.onSocketDisconnected error socket servInfo url).nextPromise =
        FutureState.running ∧
      ((c.onSocketDisconnected error socket servInfo url).socket stdPartition self next
          protocol).2._attempts.find next.machineId =
        some { promise := (c.onSocketDisconnected error socket servInfo url).nextPromise,
               socket_count := ((launched protocol
                 (socketEndpoints stdPartition self next protocol)).length : Int),
               successful := false }) := by
  refine ⟨handle_sockets c (SocketEvent.disconnected error socket servInfo url), ?_, ?_⟩
  · intro hex
    cases hcc : cacheCheck (c.onSocketDisconnected error socket servInfo url).promises tscm
        (socketEndpoints stdPartition self next protocol) with
    | none =>
      obtain ⟨u, hu, tsc, ht, he⟩ := hex
      have := (cacheCheck_eq_none _ _ _).mp hcc u hu tsc ht
      rw [he] at this; cases this
    | some p =>
      obtain ⟨u, hu, tsc, ht, hp, he⟩ := cacheCheck_some _ _ _ _ hcc
      subst hp
      exact ⟨u, hu, tsc, ht, he, socket_hit _ _ _ _ _ tscm _ hd hm hcc⟩
  · intro hall hne
    have hmiss := (cacheCheck_eq_none _ tscm _).mpr hall
    obtain ⟨h1, _, h3, h4⟩ := socket_starts_race
      (c.onSocketDisconnected error socket servInfo url) stdPartition self next protocol hd
      (by rw [hm]; exact hmiss) hne
    exact ⟨h1, h3, h4⟩

/-- Witness of C13 (amended): the winner of the race towards `urlA` has broken. -/
theorem TransportSocketCache.onSocketDisconnected_keeps_slots_witness :
    ((raceA.handle (SocketEvent.connected 1 infoA urlA)).onSocketDisconnected "broken" 1 infoA
      urlA)._sockets = (raceA.handle (SocketEvent.connected 1 infoA urlA))._sockets ∧
    ∃ u ∈ socketEndpoints stablePartition "self" infoA "", ∃ tsc,
      StdMap.find [(urlA.str, slotA)] u.str = some tsc ∧
      (stateOf ((raceA.handle (SocketEvent.connected 1 infoA urlA)).onSocketDisconnected
        "broken" 1 infoA urlA).promises tsc.promise).hasError = false ∧
      ((raceA.handle (SocketEvent.connected 1 infoA urlA)).onSocketDisconnected "broken" 1 infoA
        urlA).socket stablePartition "self" infoA "" =
        (tsc.promise, (raceA.handle (SocketEvent.connected 1 infoA urlA)).onSocketDisconnected
          "broken" 1 infoA urlA) :=
  have h := TransportSocketCache.onSocketDisconnected_keeps_slots
    (raceA.handle (SocketEvent.connected 1 infoA urlA)) "broken" 1 infoA urlA stablePartition
    "self" infoA ""
    [(urlA.str, slotA)] (by decide) (by decide)
  ⟨h.1, h.2.1 ⟨urlA, by decide, _, rfl, by decide⟩⟩

/-- C14: `close()` sets the closing flag and keeps the slots. Afterwards the promise of
every slot is failed with "session closed" if it was pending and is in the state it
had otherwise, so none is pending; every promise that was set, of a slot or not, is
unchanged; and the calls made on the sockets are, for each slot in turn, the removal
of the two callbacks followed by `disconnect()` when the socket of the slot reports
`isConnected()`, so that `disconnect()` is called on a socket exactly when it is the
socket of a slot and reports `isConnected()`. -/
theorem TransportSocketCache.close_fails_pending_promises (c : TransportSocketCache)
    (isConnected : TransportSocketPtr → Bool) :
    (c.close isConnected)._dying = true ∧
    (c.close isConnected)._sockets = c._sockets ∧
    (∀ tsc ∈ c.slots,
      stateOf (c.close isConnected).promises tsc.promise ≠ FutureState.running ∧
      stateOf (c.close isConnected).promises tsc.promise =
        if stateOf c.promises tsc.promise = FutureState.running then
          FutureState.finishedWithError "session closed"
        else stateOf c.promises tsc.promise) ∧
    (∀ q, stateOf c.promises q ≠ FutureState.running →
      stateOf (c.close isConnected).promises q = stateOf c.promises q) ∧
    (c.close isConnected).calls = c.calls ++ c.slots.flatMap (closeCalls isConnected) ∧
    (∀ socket, SocketCall.disconnect socket ∈ c.slots.flatMap (closeCalls isConnected) ↔
      (∃ tsc ∈ c.slots, tsc.socket = socket) ∧ isConnected socket = true) := by
  obtain ⟨h1, h2, _, h4, h5⟩ := foldl_closeSlot isConnected c.slots { c with _dying := true }
  rw [close_eq_foldl]
  refine ⟨h1, h2, ?_, ?_, h4, ?_⟩
  · intro tsc htsc
    have hmem : tsc.promise ∈ c.slots.map (fun t => t.promise) := List.mem_map_of_mem _ htsc
    have h := h5 tsc.promise
    simp only [hmem, and_true] at h
    rw [h]
    refine ⟨?_, rfl⟩
    show (if stateOf c.promises tsc.promise = FutureState.running then _ else _) ≠ _
    by_cases hr : stateOf c.promises tsc.promise = FutureState.running
    · simp [hr]
    · simp [hr]
  · intro q hq
    have h := h5 q
    rw [h]
    show (if stateOf c.promises q = FutureState.running ∧ _ then _ else _) = _
    simp [hq]
  · intro socket
    simp only [List.mem_flatMap, closeCalls]
    constructor
    · rintro ⟨tsc, htsc, hmem⟩
      by_cases hc : isConnected tsc.socket = true
      · simp [hc] at hmem
        subst hmem
        exact ⟨⟨tsc, htsc, rfl⟩, hc⟩
      · simp [hc] at hmem
    · rintro ⟨⟨tsc, htsc, rfl⟩, hc⟩
      exact ⟨tsc, htsc, by simp [hc]⟩

/-! ## The version guard of `onMessage`

The guard compares the version of the message with `qi::Message::currentVersion()`,
whose value is not in the sources at hand: the theorems below hold for every value, or
name the value they take. -/

/-- Were the current version 1, a Call of version 0 would be dispatched to the method
and recorded as in flight, and no message would be sent. -/
theorem ServiceBoundObject.older_version_call_is_dispatched :
    (sampleMessage 0 MessageType.call).version ≠ 1 ∧
    ((ServiceBoundObject.create 1).onMessage 1 80 (sampleMessage 0 MessageType.call) 9
      sampleDispatch).sent = [] ∧
    ((ServiceBoundObject.create 1).onMessage 1 80 (sampleMessage 0 MessageType.call) 9
      sampleDispatch).invoked = [Invocation.metaCall false 100] ∧
    ((ServiceBoundObject.create 1).onMessage 1 80 (sampleMessage 0 MessageType.call) 9
      sampleDispatch).inFlight 9 7 = some { future := 40, cancelRequested := 0 } := by
  refine ⟨?_, ?_, ?_, ?_⟩ <;> decide

/-- For every message whose version is greater than the current one, whatever the
current version, the type of the message and what the object layer would answer,
`onMessage` does
nothing but send, on the socket of the message, one message of type Error for the
address of the message, whose text is "Cannot negotiate QiMessaging connection:
remote end doesn't support binary protocol v" followed by the version: nothing is
dispatched, passed to the children, cancelled or recorded. -/
theorem ServiceBoundObject.onMessage_newer_version_rejected (b : ServiceBoundObject)
    (currentVersion startId : Nat) (msg : Message) (socket : TransportSocketPtr)
    (env : Dispatch) (h : msg.version > currentVersion) :
    b.onMessage currentVersion startId msg socket env =
      b.send socket (ServiceBoundObject.errorReply msg.address
        ("Cannot negotiate QiMessaging connection: remote end doesn't support binary protocol v"
          ++ toString msg.version)) ∧
    (b.onMessage currentVersion startId msg socket env).sent =
      b.sent ++ [(socket,
        { version := 0, type := MessageType.error, dynamicPayload := false, returnType := false,
          address := msg.address,
          payload := Payload.error
            ("Cannot negotiate QiMessaging connection: remote end doesn't support binary protocol v"
              ++ toString msg.version) })] ∧
    (b.onMessage currentVersion startId msg socket env).invoked = b.invoked ∧
    (b.onMessage currentVersion startId msg socket env).passed = b.passed ∧
    (b.onMessage currentVersion startId msg socket env).cancels = b.cancels ∧
    (b.onMessage currentVersion startId msg socket env)._cancelables = b._cancelables := by
  have hmain : b.onMessage currentVersion startId msg socket env =
      b.send socket (ServiceBoundObject.errorReply msg.address
        ("Cannot negotiate QiMessaging connection: remote end doesn't support binary protocol v"
          ++ toString msg.version)) := by
    unfold ServiceBoundObject.onMessage
    rw [if_pos h]
    unfold ServiceBoundObject.serverResultAdapter
    simp only [ServiceBoundObject.removeCachedFuture_no_kit, String.append_assoc]
    rfl
  rw [hmain]
  exact ⟨rfl, rfl, rfl, rfl, rfl, rfl⟩

/-- A Call of version 1, taking 0 for the current version, is answered by the Error
message and not dispatched. -/
theorem ServiceBoundObject.onMessage_newer_version_rejected_witness :
    ((ServiceBoundObject.create 1).onMessage 0 80 (sampleMessage 1 MessageType.call) 9
      sampleDispatch).sent =
      [(9, { version := 0, type := MessageType.error, dynamicPayload := false,
             returnType := false, address := sampleAddress,
             payload := Payload.error
               ("Cannot negotiate QiMessaging connection: remote end doesn't support binary protocol v"
                 ++ toString 1) })] ∧
    ((ServiceBoundObject.create 1).onMessage 0 80 (sampleMessage 1 MessageType.call) 9
      sampleDispatch).invoked = [] :=
  have h := ServiceBoundObject.onMessage_newer_version_rejected (ServiceBoundObject.create 1)
    0 80 (sampleMessage 1 MessageType.call) 9 sampleDispatch (by decide)
  ⟨h.2.1, h.2.2.1⟩

/-- Were the current version 0, every message of another version would be greater and
so rejected: `onMessage` sends the Error message and dispatches nothing. -/
theorem ServiceBoundObject.onMessage_version_zero (b : ServiceBoundObject) (startId : Nat)
    (msg : Message) (socket : TransportSocketPtr) (env : Dispatch) (h : msg.version ≠ 0) :
    (b.onMessage 0 startId msg socket env).sent =
      b.sent ++ [(socket, ServiceBoundObject.errorReply msg.address
        ("Cannot negotiate QiMessaging connection: remote end doesn't support binary protocol v"
          ++ toString msg.version))] ∧
    (b.onMessage 0 startId msg socket env).invoked = b.invoked ∧
    (b.onMessage 0 startId msg socket env).passed = b.passed := by
  have hgt : msg.version > 0 := Nat.pos_of_ne_zero h
  have hmain : b.onMessage 0 startId msg socket env =
      b.send socket (ServiceBoundObject.errorReply msg.address
        ("Cannot negotiate QiMessaging connection: remote end doesn't support binary protocol v"
          ++ toString msg.version)) := by
    unfold ServiceBoundObject.onMessage
    rw [if_pos hgt]
    unfold ServiceBoundObject.serverResultAdapter
    simp only [ServiceBoundObject.removeCachedFuture_no_kit, String.append_assoc]
    rfl
  rw [hmain]
  exact ⟨rfl, rfl, rfl⟩
/-- C16: in every state that a bound object reaches through messages, finished
futures and disconnected sockets, (1) `serverResultAdapter`, run with the kit of the
object for the call of `(socket, replyaddr.messageId)` whose future has an error, is
canceled or has a value that is not a future, sends one message of type Reply, Error
or Canceled for `replyaddr`, and the in-flight map with which `socket->send` is called
is the one that the object keeps afterwards, which has no element under
`(socket, replyaddr.messageId)`: the element is removed before the message is sent;
(2) when the value is a future, `serverResultAdapter` sends nothing, leaves the map as
it is and binds `serverResultAdapterNext` to that future; (3) `serverResultAdapterNext`
always sends such a message, with such a map; (4) after `onSocketDisconnected(client)`
the map has no element for `client`; (5) no socket of the map has an empty map of
calls. -/
theorem ServiceBoundObject.in_flight_map_accounting (currentVersion startId objectId : Nat)
    (events : List BoundEvent) :
    (∀ (future : FutureState AnyReference) (socket : TransportSocketPtr)
        (replyaddr : MessageAddress) (cancelRequested : Option Nat)
        (conv : Except Thrown Converted),
      future ≠ FutureState.running →
      (∀ inner, future ≠ FutureState.finishedWithValue (AnyReference.future inner)) →
      ∃ ret : Message,
        ((ServiceBoundObject.reached currentVersion startId objectId events).serverResultAdapter
          future socket replyaddr true cancelRequested conv).sent =
          (ServiceBoundObject.reached currentVersion startId objectId events).sent ++
            [(socket, ret)] ∧
        ((ServiceBoundObject.reached currentVersion startId objectId events).serverResultAdapter
          future socket replyaddr true cancelRequested conv).inFlightAtSend =
          (ServiceBoundObject.reached currentVersion startId objectId events).inFlightAtSend ++
            [((ServiceBoundObject.reached currentVersion startId objectId
              events).serverResultAdapter future socket replyaddr true cancelRequested
                conv)._cancelables] ∧
        ServiceBoundObject.entryOf
          ((ServiceBoundObject.reached currentVersion startId objectId
            events).serverResultAdapter future socket replyaddr true cancelRequested
              conv)._cancelables socket replyaddr.messageId = none ∧
        ((ServiceBoundObject.reached currentVersion startId objectId events).serverResultAdapter
          future socket replyaddr true cancelRequested conv).inFlight socket
            replyaddr.messageId = none ∧
        ret.address = replyaddr ∧
        (ret.type = MessageType.reply ∨ ret.type = MessageType.error ∨
          ret.type = MessageType.canceled)) ∧
    (∀ (inner : Nat) (socket : TransportSocketPtr) (replyaddr : MessageAddress)
        (cancelRequested : Option Nat) (conv : Except Thrown Converted),
      ((ServiceBoundObject.reached currentVersion startId objectId events).serverResultAdapter
        (FutureState.finishedWithValue (AnyReference.future inner)) socket replyaddr true
          cancelRequested conv).sent =
        (ServiceBoundObject.reached currentVersion startId objectId events).sent ∧
      ((ServiceBoundObject.reached currentVersion startId objectId events).serverResultAdapter
        (FutureState.finishedWithValue (AnyReference.future inner)) socket replyaddr true
          cancelRequested conv)._cancelables =
        (ServiceBoundObject.reached currentVersion startId objectId events)._cancelables ∧
      ((ServiceBoundObject.reached currentVersion startId objectId events).serverResultAdapter
        (FutureState.finishedWithValue (AnyReference.future inner)) socket replyaddr true
          cancelRequested conv).adapters =
        (ServiceBoundObject.reached currentVersion startId objectId events).adapters ++
          [{ next := true, future := inner, socket := socket, replyaddr := replyaddr }]) ∧
    (∀ (inner : FutureState AnyReference) (socket : TransportSocketPtr)
        (replyaddr : MessageAddress) (remoteCancelableCalls : Bool)
        (conv : Except Thrown Converted),
      ∃ ret : Message,
        ((ServiceBoundObject.reached currentVersion startId objectId
          events).serverResultAdapterNext inner socket replyaddr true remoteCancelableCalls
            conv).sent =
          (ServiceBoundObject.reached currentVersion startId objectId events).sent ++
            [(socket, ret)] ∧
        ((ServiceBoundObject.reached currentVersion startId objectId
          events).serverResultAdapterNext inner socket replyaddr true remoteCancelableCalls
            conv).inFlightAtSend =
          (ServiceBoundObject.reached currentVersion startId objectId events).inFlightAtSend ++
            [((ServiceBoundObject.reached currentVersion startId objectId
              events).serverResultAdapterNext inner socket replyaddr true remoteCancelableCalls
                conv)._cancelables] ∧
        ServiceBoundObject.entryOf
          ((ServiceBoundObject.reached currentVersion startId objectId
            events).serverResultAdapterNext inner socket replyaddr true remoteCancelableCalls
              conv)._cancelables socket replyaddr.messageId = none ∧
        ((ServiceBoundObject.reached currentVersion startId objectId
          events).serverResultAdapterNext inner socket replyaddr true remoteCancelableCalls
            conv).inFlight socket replyaddr.messageId = none ∧
        ret.address = replyaddr ∧
        (ret.type = MessageType.reply ∨ ret.type = MessageType.error ∨
          ret.type = MessageType.canceled)) ∧
    (∀ (client : TransportSocketPtr) (error : String),
      ((ServiceBoundObject.reached currentVersion startId objectId events).onSocketDisconnected
        client error)._cancelables.find client = none ∧
      ∀ id, ((ServiceBoundObject.reached currentVersion startId objectId
        events).onSocketDisconnected client error).inFlight client id = none) ∧
    (∀ e ∈ (ServiceBoundObject.reached currentVersion startId objectId events)._cancelables,
      e.2 ≠ []) := by
  generalize hb : ServiceBoundObject.reached currentVersion startId objectId events = b
  have hinv : b.NoEmptyInner := by
    rw [← hb]; exact ServiceBoundObject.NoEmptyInner_reached _ _ _ _
  refine ⟨?_, ?_, ?_, ?_, hinv⟩
  · intro future socket replyaddr cancelRequested conv hrun hfut
    cases future with
    | running => exact absurd rfl hrun
    | canceled =>
      obtain ⟨h1, h2, h3, h4⟩ := ServiceBoundObject.send_after_remove b socket
        replyaddr.messageId { ServiceBoundObject.replyTo replyaddr with type := MessageType.canceled }
      exact ⟨_, h1, h2, h3, h4, rfl, Or.inr (Or.inr rfl)⟩
    | finishedWithError e =>
      obtain ⟨h1, h2, h3, h4⟩ := ServiceBoundObject.send_after_remove b socket
        replyaddr.messageId (ServiceBoundObject.errorReply replyaddr e)
      exact ⟨_, h1, h2, h3, h4, rfl, Or.inr (Or.inl rfl)⟩
    | finishedWithValue val =>
      cases val with
      | data d =>
        obtain ⟨h1, h2, h3, h4⟩ := ServiceBoundObject.send_after_remove b socket
          replyaddr.messageId (ServiceBoundObject.valueReply replyaddr "sending the answer" conv)
        exact ⟨_, h1, h2, h3, h4,
          (ServiceBoundObject.valueReply_type _ _ _).1, (ServiceBoundObject.valueReply_type _ _ _).2⟩
      | future g => exact absurd rfl (hfut g)
  · intro inner socket replyaddr cancelRequested conv
    cases cancelRequested with
    | none => exact ⟨rfl, rfl, rfl⟩
    | some a =>
      rw [ServiceBoundObject.serverResultAdapter_inner]
      split
      · exact ⟨rfl, rfl, rfl⟩
      · exact ⟨rfl, rfl, rfl⟩
  · intro inner socket replyaddr rcc conv
    have hsend : ∀ ret : Message,
        b.serverResultAdapterNext inner socket replyaddr true rcc conv =
          (b._removeCachedFuture true socket replyaddr.messageId).send socket ret →
        ret.address = replyaddr →
        (ret.type = MessageType.reply ∨ ret.type = MessageType.error ∨
          ret.type = MessageType.canceled) →
        ∃ ret : Message,
          (b.serverResultAdapterNext inner socket replyaddr true rcc conv).sent =
            b.sent ++ [(socket, ret)] ∧
          (b.serverResultAdapterNext inner socket replyaddr true rcc conv).inFlightAtSend =
            b.inFlightAtSend ++
              [(b.serverResultAdapterNext inner socket replyaddr true rcc conv)._cancelables] ∧
          ServiceBoundObject.entryOf
            (b.serverResultAdapterNext inner socket replyaddr true rcc conv)._cancelables socket
              replyaddr.messageId = none ∧
          (b.serverResultAdapterNext inner socket replyaddr true rcc conv).inFlight socket
            replyaddr.messageId = none ∧
          ret.address = replyaddr ∧
          (ret.type = MessageType.reply ∨ ret.type = MessageType.error ∨
            ret.type = MessageType.canceled) := by
      intro ret heq haddr htype
      obtain ⟨h1, h2, h3, h4⟩ := ServiceBoundObject.send_after_remove b socket
        replyaddr.messageId ret
      rw [heq]
      exact ⟨ret, h1, h2, h3, h4, haddr, htype⟩
    cases inner with
    | running =>
      exact hsend _ rfl (ServiceBoundObject.valueReply_type _ _ _).1
        (ServiceBoundObject.valueReply_type _ _ _).2
    | canceled =>
      cases rcc
      · exact hsend _ rfl rfl (Or.inr (Or.inl rfl))
      · exact hsend _ rfl rfl (Or.inr (Or.inr rfl))
    | finishedWithError e => exact hsend _ rfl rfl (Or.inr (Or.inl rfl))
    | finishedWithValue val =>
      exact hsend _ rfl (ServiceBoundObject.valueReply_type _ _ _).1
        (ServiceBoundObject.valueReply_type _ _ _).2
  · intro client error
    have hfind : (b.onSocketDisconnected client error)._cancelables.find client = none := by
      unfold ServiceBoundObject.onSocketDisconnected
      dsimp only
      split
      · exact StdMap.find_erase_self _ _
      · exact StdMap.find_erase_self _ _
    refine ⟨hfind, ?_⟩
    intro id
    unfold ServiceBoundObject.inFlight
    rw [hfind]; rfl

/-- C16 on a sample: the call 7 of socket 9 is in the in-flight map of the main object
when its future finishes canceled; `serverResultAdapter` sends one message, and the
map with which it is sent has no element under `(9, 7)`. -/
theorem ServiceBoundObject.in_flight_map_accounting_witness :
    (ServiceBoundObject.reached 0 80 1
      [BoundEvent.message (sampleMessage 0 MessageType.call) 9 sampleDispatch]).inFlight 9 7 =
      some { future := 40, cancelRequested := 0 } ∧
    ∃ ret : Message,
      ((ServiceBoundObject.reached 0 80 1
        [BoundEvent.message (sampleMessage 0 MessageType.call) 9
          sampleDispatch]).serverResultAdapter
        FutureState.canceled 9 sampleAddress true (some 0) (Except.error Thrown.other)).sent =
        (ServiceBoundObject.reached 0 80 1
          [BoundEvent.message (sampleMessage 0 MessageType.call) 9 sampleDispatch]).sent ++
          [(9, ret)] ∧
      ((ServiceBoundObject.reached 0 80 1
        [BoundEvent.message (sampleMessage 0 MessageType.call) 9
          sampleDispatch]).serverResultAdapter
        FutureState.canceled 9 sampleAddress true (some 0)
          (Except.error Thrown.other)).inFlightAtSend = [] ++ [[]] ∧
      ServiceBoundObject.entryOf
        ((ServiceBoundObject.reached 0 80 1
          [BoundEvent.message (sampleMessage 0 MessageType.call) 9
            sampleDispatch]).serverResultAdapter
          FutureState.canceled 9 sampleAddress true (some 0)
            (Except.error Thrown.other))._cancelables 9 sampleAddress.messageId = none :=
  ⟨by decide,
   match (ServiceBoundObject.in_flight_map_accounting 0 80 1
      [BoundEvent.message (sampleMessage 0 MessageType.call) 9 sampleDispatch]).1
      FutureState.canceled 9 sampleAddress (some 0) (Except.error Thrown.other)
      (by intro h; cases h) (by intro inner h; cases h) with
   | ⟨ret, h1, _, h3, _, _, _⟩ => ⟨ret, h1, rfl, h3⟩⟩

/-- C17, as stated, fails: for the call 7 of socket 9, whose method returns the future
41, one Cancel message handled before the future 40 of the call finishes makes two
calls of `cancel()`, one by `cancelCall` on the future 40 and one by
`serverResultAdapter` on the future 41; one Cancel message handled after it makes two
calls as well, both by `cancelCall`; and two Cancel messages handled before it make
three calls. -/
theorem ServiceBoundObject.one_cancel_message_two_cancels :
    (ServiceBoundObject.callRun sampleInFlight 9 sampleAddress 0 41
      [CallEvent.cancel, CallEvent.complete]).cancels = [40, 41] ∧
    (ServiceBoundObject.callRun sampleInFlight 9 sampleAddress 0 41
      [CallEvent.complete, CallEvent.cancel]).cancels = [40, 41] ∧
    (ServiceBoundObject.callRun sampleInFlight 9 sampleAddress 0 41
      [CallEvent.cancel, CallEvent.cancel, CallEvent.complete]).cancels = [40, 40, 41] := by
  refine ⟨?_, ?_, ?_⟩ <;> decide

/-- C17 (amended): take a call recorded in the in-flight map, with its counter at zero,
whose method returns the future `inner`; let `k < 2 ^ 31` Cancel messages be handled
before the future of the call finishes and `m` after it, one at a time. Then
`cancel()` is called on the future of the call once for each of the `k` early messages
and once for the first late message; on the future `inner` once by
`serverResultAdapter` when `k ≥ 1` and once by `cancelCall` for the first late
message; the late messages after the first one find no element and call nothing. -/
theorem ServiceBoundObject.cancel_calls_of_a_call (b : ServiceBoundObject)
    (socket : TransportSocketPtr) (replyaddr : MessageAddress) (fut : Cancelable)
    (inner k m : Nat)
    (h : b.inFlight socket replyaddr.messageId = some fut)
    (h0 : b.atomic fut.cancelRequested = 0) (hk : k < 2 ^ 31) :
    (ServiceBoundObject.callRun b socket replyaddr fut.cancelRequested inner
      (List.replicate k CallEvent.cancel ++
        CallEvent.complete :: List.replicate m CallEvent.cancel)).cancels =
      b.cancels ++ List.replicate k fut.future ++ (if k = 0 then [] else [inner]) ++
        (if m = 0 then [] else [fut.future, inner]) := by
  unfold ServiceBoundObject.callRun
  rw [List.foldl_append, List.foldl_cons]
  obtain ⟨e1, e2, e3, e4⟩ := ServiceBoundObject.callRun_early socket replyaddr
    fut.cancelRequested inner fut rfl k b h (by rw [h0]) (by rw [h0]; push_cast; omega)
  generalize hr : (List.replicate k CallEvent.cancel).foldl
    (ServiceBoundObject.callStep socket replyaddr fut.cancelRequested inner) (b, false) = r
    at e1 e2 e3 e4
  obtain ⟨b1, completed⟩ := r
  simp only at e1 e2 e3 e4
  simp only [ServiceBoundObject.callStep]
  rw [ServiceBoundObject.serverResultAdapter_inner]
  rw [h0] at e3
  have hin : b1.inFlight socket replyaddr.messageId = some fut := by
    unfold ServiceBoundObject.inFlight at h ⊢
    rw [e2]; exact h
  by_cases hk0 : k = 0
  · subst hk0
    have hz : b1.atomic fut.cancelRequested = 0 := by rw [e3]; simp
    simp only [hz, ne_eq, not_true_eq_false, if_false]
    obtain ⟨b2, hb2⟩ : ∃ b2 : ServiceBoundObject, b2 =
        { b1 with
          adapters := b1.adapters ++
            [{ next := true, future := inner, socket := socket, replyaddr := replyaddr }] } :=
      ⟨_, rfl⟩
    rw [← hb2]
    have hat : b2.atomic fut.cancelRequested = 0 := by rw [hb2]; exact hz
    have hin2 : b2.inFlight socket replyaddr.messageId = some fut := by
      rw [hb2]; exact hin
    rw [ServiceBoundObject.callRun_late socket replyaddr fut.cancelRequested inner fut rfl m b2
      hin2 (by rw [hat]) (by rw [hat]; norm_num)]
    rw [hb2]
    show b1.cancels ++ _ = _
    rw [e4]
    simp
  · have hnz : b1.atomic fut.cancelRequested ≠ 0 := by rw [e3]; simp; omega
    simp only [hnz, ne_eq, not_false_eq_true, if_true]
    obtain ⟨b2, hb2⟩ : ∃ b2 : ServiceBoundObject, b2 =
        { b1 with
          adapters := b1.adapters ++
            [{ next := true, future := inner, socket := socket, replyaddr := replyaddr }]
          atomics := b1.atomics.assign fut.cancelRequested
            (wrapInt (b1.atomic fut.cancelRequested - 1))
          atomicOps := b1.atomicOps ++ [AtomicOp.decrement fut.cancelRequested]
          cancels := b1.cancels ++ [inner] } := ⟨_, rfl⟩
    rw [← hb2]
    have hat : b2.atomic fut.cancelRequested = (k : Int) - 1 := by
      rw [hb2, ServiceBoundObject.atomic_eq]
      show ((b1.atomics.assign _ _).find _).getD 0 = _
      rw [StdMap.find_assign_self]
      simp only [Option.getD_some]
      rw [e3]
      have hk' : (k : Int) < 2 ^ 31 := by exact_mod_cast hk
      rw [ServiceBoundObject.wrapInt_of_range] <;> omega
    have hin2 : b2.inFlight socket replyaddr.messageId = some fut := by
      rw [hb2]; exact hin
    have hk' : (k : Int) < 2 ^ 31 := by exact_mod_cast hk
    rw [ServiceBoundObject.callRun_late socket replyaddr fut.cancelRequested inner fut rfl m b2
      hin2 (by rw [hat]; omega) (by rw [hat]; omega)]
    rw [hb2]
    show (b1.cancels ++ [inner]) ++ _ = _
    rw [e4]
    simp [hk0]

/-- Witness of C17 (amended): two Cancel messages before the future of the call 7
finishes and two after it. -/
theorem ServiceBoundObject.cancel_calls_of_a_call_witness :
    (ServiceBoundObject.callRun sampleInFlight 9 sampleAddress 0 41
      (List.replicate 2 CallEvent.cancel ++
        CallEvent.complete :: List.replicate 2 CallEvent.cancel)).cancels =
      [] ++ List.replicate 2 40 ++ (if 2 = 0 then [] else [41]) ++
        (if 2 = 0 then [] else [40, 41]) :=
  ServiceBoundObject.cancel_calls_of_a_call sampleInFlight 9 sampleAddress
    { future := 40, cancelRequested := 0 } 41 2 2 (by decide) (by decide) (by norm_num)

/-- C18: when the in-flight map has no element under `(socket, origMsgId)`,
`cancelCall` leaves the bound object as it is: nothing is sent, `cancel()` is called
on no future, no counter is touched and the map is unchanged. When it has the element
`fut`, `cancelCall` sends nothing, applies `++` once to the counter of `fut`, and no
other increment to any counter, and calls `cancel()` once on the future of `fut`; it
calls `cancel()` on one more future only when `future.wait(0)` reports a value that
is a future, and then on that future; and when `future.wait(0)` reports no value,
nothing else changes and the counter holds its old value plus one (as a 32-bit
`int`). -/
theorem ServiceBoundObject.cancelCall_effect (b : ServiceBoundObject)
    (socket : TransportSocketPtr) (origMsgId : Nat) (state : FutureState AnyReference) :
    (b.inFlight socket origMsgId = none → b.cancelCall socket origMsgId state = b) ∧
    (∀ fut, b.inFlight socket origMsgId = some fut →
      (b.cancelCall socket origMsgId state).sent = b.sent ∧
      (∃ (rest : List AtomicOp) (inners : List Nat),
        (b.cancelCall socket origMsgId state).atomicOps =
          b.atomicOps ++ AtomicOp.increment fut.cancelRequested :: rest ∧
        (∀ a, AtomicOp.increment a ∉ rest) ∧
        (b.cancelCall socket origMsgId state).cancels = b.cancels ++ fut.future :: inners ∧
        (inners = [] ∨ ∃ inner,
          state = FutureState.finishedWithValue (AnyReference.future inner) ∧
          inners = [inner])) ∧
      ((∀ val, state ≠ FutureState.finishedWithValue val) →
        (b.cancelCall socket origMsgId state)._cancelables = b._cancelables ∧
        (b.cancelCall socket origMsgId state).atomic fut.cancelRequested =
          wrapInt (b.atomic fut.cancelRequested + 1) ∧
        (b.cancelCall socket origMsgId state).atomicOps =
          b.atomicOps ++ [AtomicOp.increment fut.cancelRequested] ∧
        (b.cancelCall socket origMsgId state).cancels = b.cancels ++ [fut.future])) := by
  refine ⟨ServiceBoundObject.cancelCall_absent b socket origMsgId state, ?_⟩
  intro fut h
  have hnv : (∀ val, state ≠ FutureState.finishedWithValue val) →
      b.cancelCall socket origMsgId state =
        { b with
          atomics := b.atomics.assign fut.cancelRequested
            (wrapInt (b.atomic fut.cancelRequested + 1))
          atomicOps := b.atomicOps ++ [AtomicOp.increment fut.cancelRequested]
          cancels := b.cancels ++ [fut.future] } :=
    ServiceBoundObject.cancelCall_not_value b socket origMsgId state fut h
  have hlast : (∀ val, state ≠ FutureState.finishedWithValue val) →
      (b.cancelCall socket origMsgId state)._cancelables = b._cancelables ∧
      (b.cancelCall socket origMsgId state).atomic fut.cancelRequested =
        wrapInt (b.atomic fut.cancelRequested + 1) ∧
      (b.cancelCall socket origMsgId state).atomicOps =
        b.atomicOps ++ [AtomicOp.increment fut.cancelRequested] ∧
      (b.cancelCall socket origMsgId state).cancels = b.cancels ++ [fut.future] := by
    intro hs
    rw [hnv hs]
    refine ⟨rfl, ?_, rfl, rfl⟩
    show ((b.atomics.assign _ _).find _).getD 0 = _
    rw [StdMap.find_assign_self]; rfl
  by_cases hs : ∀ val, state ≠ FutureState.finishedWithValue val
  · refine ⟨?_, ?_, hlast⟩
    · rw [hnv hs]
    · refine ⟨[], [], ?_, ?_, ?_, Or.inl rfl⟩
      · rw [hnv hs]
      · intro a ha; cases ha
      · rw [hnv hs]
  · push_neg at hs
    obtain ⟨val, hval⟩ := hs
    subst hval
    obtain ⟨futures, hf, hfut⟩ := ServiceBoundObject.inFlight_eq_some b socket origMsgId fut h
    obtain ⟨m1, hm1⟩ := ServiceBoundObject.removeCachedFuture_frame
      { b with
        atomics := b.atomics.assign fut.cancelRequested
          (wrapInt (b.atomic fut.cancelRequested + 1))
        atomicOps := b.atomicOps ++ [AtomicOp.increment fut.cancelRequested]
        cancels := b.cancels ++ [fut.future] } true socket origMsgId
    refine ⟨?_, ?_, fun hs => absurd rfl (hs val)⟩
    · unfold ServiceBoundObject.cancelCall
      simp only [hf, hfut]
      rw [hm1]
      cases val with
      | data d => rfl
      | future inner =>
        dsimp only
        split <;> rfl
    · cases val with
      | data d =>
        refine ⟨[], [], ?_, ?_, ?_, Or.inl rfl⟩
        · unfold ServiceBoundObject.cancelCall
          simp only [hf, hfut]
          rw [hm1]
        · intro a ha; cases ha
        · unfold ServiceBoundObject.cancelCall
          simp only [hf, hfut]
          rw [hm1]
      | future inner =>
        by_cases hc : wrapInt (b.atomic fut.cancelRequested + 1) ≠ 0
        · refine ⟨[AtomicOp.decrement fut.cancelRequested], [inner], ?_, ?_, ?_,
            Or.inr ⟨inner, rfl, rfl⟩⟩
          · rw [ServiceBoundObject.cancelCall_inner b socket origMsgId inner fut h hc]
          · intro a ha
            simp at ha
          · rw [ServiceBoundObject.cancelCall_inner b socket origMsgId inner fut h hc]
        · refine ⟨[], [], ?_, ?_, ?_, Or.inl rfl⟩
          · unfold ServiceBoundObject.cancelCall
            simp only [hf, hfut]
            rw [hm1]
            simp only [hc, if_false]
          · intro a ha; cases ha
          · unfold ServiceBoundObject.cancelCall
            simp only [hf, hfut]
            rw [hm1]
            simp only [hc, if_false]

/-- Witness of C18: on the bound object that holds the call 7 of socket 9, a Cancel
that names the message 8 and a Cancel that names the message 7. -/
theorem ServiceBoundObject.cancelCall_effect_witness :
    sampleInFlight.cancelCall 9 8 FutureState.running = sampleInFlight ∧
    (sampleInFlight.cancelCall 9 7 FutureState.running).atomic 0 = wrapInt (0 + 1) ∧
    (sampleInFlight.cancelCall 9 7 FutureState.running).cancels = [] ++ [40] :=
  have h := ServiceBoundObject.cancelCall_effect sampleInFlight 9
  ⟨(h 8 FutureState.running).1 (by decide),
   (((h 7 FutureState.running).2 { future := 40, cancelRequested := 0 } (by decide)).2.2
      (by intro val hv; cases hv)).2.1,
   (((h 7 FutureState.running).2 { future := 40, cancelRequested := 0 } (by decide)).2.2
      (by intro val hv; cases hv)).2.2.2⟩

/-- C19 fails in `serverResultAdapter`: for a future that ends canceled it sends a
message of type Canceled for the call, without looking at the capabilities of the
socket, so also to a peer that did not advertise `RemoteCancelableCalls`; while
`serverResultAdapterNext`, for a future returned by the method that ends canceled,
sends Error with the text "Call has been canceled." to such a peer and Canceled to a
peer with the capability. -/
theorem ServiceBoundObject.serverResultAdapter_ignores_capability (b : ServiceBoundObject)
    (socket : TransportSocketPtr) (replyaddr : MessageAddress) (kit : Bool)
    (cancelRequested : Option Nat) (conv : Except Thrown Converted) :
    (b.serverResultAdapter FutureState.canceled socket replyaddr kit cancelRequested conv).sent =
      b.sent ++ [(socket,
        { version := 0, type := MessageType.canceled, dynamicPayload := false,
          returnType := false, address := replyaddr, payload := Payload.empty })] ∧
    (b.serverResultAdapterNext FutureState.canceled socket replyaddr kit false conv).sent =
      b.sent ++ [(socket,
        { version := 0, type := MessageType.error, dynamicPayload := false,
          returnType := false, address := replyaddr,
          payload := Payload.error "Call has been canceled." })] ∧
    (b.serverResultAdapterNext FutureState.canceled socket replyaddr kit true conv).sent =
      b.sent ++ [(socket,
        { version := 0, type := MessageType.canceled, dynamicPayload := false,
          returnType := false, address := replyaddr, payload := Payload.empty })] := by
  obtain ⟨m, hm⟩ := ServiceBoundObject.removeCachedFuture_frame b kit socket replyaddr.messageId
  refine ⟨?_, ?_, ?_⟩
  · unfold ServiceBoundObject.serverResultAdapter
    simp only [hm]
    rfl
  · unfold ServiceBoundObject.serverResultAdapterNext
    simp only [hm]
    rfl
  · unfold ServiceBoundObject.serverResultAdapterNext
    simp only [hm]
    rfl

/-- C20, as stated, fails for a Post of a version greater than the current one: with
the current version 0, a Post of version 1 makes `onMessage` send a message of type
Error on the socket. -/
theorem ServiceBoundObject.newer_version_post_is_answered :
    (sampleMessage 1 MessageType.post).type = MessageType.post ∧
    ((ServiceBoundObject.create 1).onMessage 0 80 (sampleMessage 1 MessageType.post) 9
      sampleDispatch).sent =
      [(9, { version := 0, type := MessageType.error, dynamicPayload := false,
             returnType := false, address := sampleAddress,
             payload := Payload.error
               "Cannot negotiate QiMessaging connection: remote end doesn't support binary protocol v1" })] := by
  refine ⟨?_, ?_⟩ <;> decide

/-- C20 (amended): for every message of type Post whose version is not greater than the
current one, whatever the object layer answers (target found or not, payload that
cannot be decoded, exception thrown by the call), `onMessage` sends no message,
leaves the in-flight map and the counters as they are and calls `cancel()` on no
future. -/
theorem ServiceBoundObject.onMessage_post_sends_nothing (b : ServiceBoundObject)
    (currentVersion startId : Nat) (msg : Message) (socket : TransportSocketPtr)
    (env : Dispatch) (hv : msg.version ≤ currentVersion) (ht : msg.type = MessageType.post) :
    (b.onMessage currentVersion startId msg socket env).sent = b.sent ∧
    (b.onMessage currentVersion startId msg socket env)._cancelables = b._cancelables ∧
    (b.onMessage currentVersion startId msg socket env).atomics = b.atomics ∧
    (b.onMessage currentVersion startId msg socket env).cancels = b.cancels := by
  have hcatch : ∀ (b' : ServiceBoundObject) (thrown : Thrown),
      b'.onMessageCatch msg socket thrown = b' := by
    intro b' thrown
    unfold ServiceBoundObject.onMessageCatch
    rw [ht]
    simp
  unfold ServiceBoundObject.onMessage
  rw [if_neg (by omega)]
  split
  · exact ⟨rfl, rfl, rfl, rfl⟩
  · simp only [ht]
    split
    · exact ⟨rfl, rfl, rfl, rfl⟩
    · split
      · rw [hcatch]; exact ⟨rfl, rfl, rfl, rfl⟩
      · split
        · rw [hcatch]; exact ⟨rfl, rfl, rfl, rfl⟩
        · exact ⟨rfl, rfl, rfl, rfl⟩

/-- Witness of C20 (amended): a Post of the current version on the bound object that
holds the call 7 of socket 9, for which the call made on the object throws. -/
theorem ServiceBoundObject.onMessage_post_sends_nothing_witness :
    (sampleInFlight.onMessage 0 80 (sampleMessage 0 MessageType.post) 9
      { sampleDispatch with post := some (Thrown.runtimeError "boom") }).sent = sampleInFlight.sent ∧
    (sampleInFlight.onMessage 0 80 (sampleMessage 0 MessageType.post) 9
      { sampleDispatch with post := some (Thrown.runtimeError "boom") })._cancelables =
      sampleInFlight._cancelables :=
  have h := ServiceBoundObject.onMessage_post_sends_nothing sampleInFlight 0 80
    (sampleMessage 0 MessageType.post) 9
    { sampleDispatch with post := some (Thrown.runtimeError "boom") } (by decide) rfl
  ⟨h.1, h.2.1⟩

/-! ## C21: subscriptions of a socket that disconnects -/

/-- C21 fails in `registerEvent`: the link map of a socket is keyed by the remote link
id, so a second registration under the same remote link id takes the place of the first
one. For every object, socket, events `e1`, `e2`, remote link `r` and local links `l1`,
`l2`, after the two registrations `onSocketDisconnected` disconnects `l2` only: the
local link `l1` of the first registration stays connected to the object, although
the link map has no entry for the socket any more. -/
theorem ServiceBoundObject.reused_remote_link_keeps_first_subscription (objectId : Nat)
    (s : TransportSocketPtr) (e1 e2 r l1 l2 : Nat) :
    ((([LinkCall.registerEvent e1 r l1, LinkCall.registerEvent e2 r l2].foldl
        (ServiceBoundObject.link s) (ServiceBoundObject.create objectId)).onSocketDisconnected
          s "").unlinked = [l2]) ∧
    ((([LinkCall.registerEvent e1 r l1, LinkCall.registerEvent e2 r l2].foldl
        (ServiceBoundObject.link s) (ServiceBoundObject.create objectId)).onSocketDisconnected
          s "")._links.find s = none) ∧
    (twiceRegistered.onSocketDisconnected 9 "").unlinked = [12] := by
  refine ⟨?_, ?_, by decide⟩
  · simp [ServiceBoundObject.link, ServiceBoundObject.registerEvent, ServiceBoundObject.create,
      ServiceBoundObject.onSocketDisconnected, StdMap.find, StdMap.assign, StdMap.erase]
  · simp [ServiceBoundObject.link, ServiceBoundObject.registerEvent, ServiceBoundObject.create,
      ServiceBoundObject.onSocketDisconnected, StdMap.find, StdMap.assign, StdMap.erase]

/-! ## C22: the checks of `connect` -/

/-- C22 as stated fails: on a signal of signature `m` a subscriber of two parameters is
connected, although the arities are 0 and 2 and the signatures are not convertible;
and on a signal `(i)` a subscriber made from a dynamic function, which has no valid
signature, is connected. -/
theorem SignalBasePrivate.connect_without_check :
    (SignalBasePrivate.connect sameSignature (SignalBasePrivate.create dynamicSignature true)
      (functionSubscriber ["i", "s"])).1 = Except.ok 2 ∧
    (functionSubscriber ["i", "s"]).signature.children.length = 2 ∧
    dynamicSignature.children.length = 0 ∧
    sameSignature dynamicSignature (functionSubscriber ["i", "s"]).signature = false ∧
    (SignalBasePrivate.connect sameSignature intSignal dynamicSubscriber).1 = Except.ok 2 ∧
    dynamicSubscriber.signature.isValid = false :=
  ⟨rfl, by decide, by decide, by decide, rfl, by decide⟩

/-- C22, amended: when the signature of the signal is not `m` and the subscriber has a
valid signature, `connect` succeeds if and only if the arities are equal and the
signature of the signal is convertible to the one of the subscriber; an arity that
differs is reported as the arity error, whatever the convertibility, and a signature
that is not convertible as the compatibility error, and in both cases the signal is
unchanged. When the signature of the signal is `m` or the subscriber has no valid
signature, `connect` succeeds. A successful `connect` adds the subscriber to the map
under the link returned. -/
theorem SignalBasePrivate.connect_checks_known_signatures
    (isConvertibleTo : Signature → Signature → Bool) (p : SignalBasePrivate)
    (src : SignalSubscriber) :
    (p.signature.toString ≠ "m" → src.signature.isValid = true →
      ((∃ link, (p.connect isConvertibleTo src).1 = Except.ok link) ↔
        (src.signature.children.length = p.signature.children.length ∧
          isConvertibleTo p.signature src.signature = true)) ∧
      (src.signature.children.length ≠ p.signature.children.length →
        p.connect isConvertibleTo src =
          (Except.error ("Subscriber has incorrect arity (expected " ++
            toString (p.signature.children.length : Int) ++ " , got " ++
            toString (src.signature.children.length : Int) ++ ")"), p)) ∧
      (src.signature.children.length = p.signature.children.length →
        isConvertibleTo p.signature src.signature = false →
        p.connect isConvertibleTo src =
          (Except.error ("Subscriber is not compatible to signal : " ++ p.signature.toString ++
            " vs " ++ src.signature.toString), p))) ∧
    ((p.signature.toString = "m" ∨ src.signature.isValid = false) →
      ∃ link, (p.connect isConvertibleTo src).1 = Except.ok link) ∧
    (∀ link, (p.connect isConvertibleTo src).1 = Except.ok link →
      (p.connect isConvertibleTo src).2.subscriberMap =
        p.subscriberMap.assign link { src with linkId := link, activeThreads := [] } ∧
      (p.connect isConvertibleTo src).2.subscriberMap.find link =
        some { src with linkId := link, activeThreads := [] }) := by
  refine ⟨?_, ?_, ?_⟩
  · intro hsig hvalid
    refine ⟨⟨?_, ?_⟩, connect_arity_error isConvertibleTo p src hsig hvalid,
      connect_compatibility_error isConvertibleTo p src hsig hvalid⟩
    · rintro ⟨link, hlink⟩
      by_cases harity : src.signature.children.length = p.signature.children.length
      · refine ⟨harity, ?_⟩
        cases hconv : isConvertibleTo p.signature src.signature with
        | true => rfl
        | false =>
          rw [connect_compatibility_error isConvertibleTo p src hsig hvalid harity hconv] at hlink
          cases hlink
      · rw [connect_arity_error isConvertibleTo p src hsig hvalid harity] at hlink
        cases hlink
    · rintro ⟨harity, hconv⟩
      exact ⟨toSignalLink (wrapInt (p.linkUid + 1)), by
        rw [connect_ok isConvertibleTo p src (Or.inr ⟨by rw [hvalid]; simp [harity], hconv⟩)]⟩
  · intro h
    exact ⟨toSignalLink (wrapInt (p.linkUid + 1)), by
      rw [connect_ok isConvertibleTo p src (Or.inl (by rcases h with h | h <;> simp [h]))]⟩
  · intro link hlink
    by_cases hguard : (decide (p.signature.toString ≠ "m") && src.signature.isValid) = false
    · rw [connect_ok isConvertibleTo p src (Or.inl hguard)] at hlink ⊢
      have hl : toSignalLink (wrapInt (p.linkUid + 1)) = link := by
        simpa using hlink
      subst hl
      exact ⟨rfl, StdMap.find_assign_self _ _ _⟩
    · have hg : p.signature.toString ≠ "m" ∧ src.signature.isValid = true := by
        simpa using hguard
      by_cases harity : src.signature.children.length = p.signature.children.length
      · cases hconv : isConvertibleTo p.signature src.signature with
        | true =>
          rw [connect_ok isConvertibleTo p src
            (Or.inr ⟨by rw [hg.2]; simp [harity], hconv⟩)] at hlink ⊢
          have hl : toSignalLink (wrapInt (p.linkUid + 1)) = link := by
            simpa using hlink
          subst hl
          exact ⟨rfl, StdMap.find_assign_self _ _ _⟩
        | false =>
          rw [connect_compatibility_error isConvertibleTo p src hg.1 hg.2 harity hconv] at hlink
          cases hlink
      · rw [connect_arity_error isConvertibleTo p src hg.1 hg.2 harity] at hlink
        cases hlink

/-- C22, amended, on a sample: on the signal `(i)` a subscriber of one parameter `i`
is connected, and one of the parameters `i`, `s` is refused with the arity error. -/
theorem SignalBasePrivate.connect_checks_known_signatures_witness :
    (∃ link, (SignalBasePrivate.connect sameSignature intSignal
      (functionSubscriber ["i"])).1 = Except.ok link) ∧
    SignalBasePrivate.connect sameSignature intSignal (functionSubscriber ["i", "s"]) =
      (Except.error "Subscriber has incorrect arity (expected 1 , got 2)", intSignal) :=
  ⟨((SignalBasePrivate.connect_checks_known_signatures sameSignature intSignal
      (functionSubscriber ["i"])).1 (by decide) rfl).1.mpr ⟨rfl, rfl⟩,
   ((SignalBasePrivate.connect_checks_known_signatures sameSignature intSignal
      (functionSubscriber ["i", "s"])).1 (by decide) rfl).2.1 (by decide)⟩

/-! ## C23: the hook `onSubscribers` -/

/-- C23 fails in `disconnectTrackLink`: it erases the subscriber from the map without
a call of the hook. On a signal with the hook set, after one tracked subscriber is
connected and its track link disconnected the map is empty and the only call of the
hook is `onSubscribers(true)`; the next `connect` calls `onSubscribers(true)` again,
so the calls are true, true. With `disconnect` in place of `disconnectTrackLink` the
calls are true, false, true. -/
theorem SignalBasePrivate.disconnectTrackLink_skips_hook :
    (SignalBasePrivate.applyAll sameSignature 0 intSignal (trackedThenConnect.take 2)).subscriberMap
      = [] ∧
    (SignalBasePrivate.applyAll sameSignature 0 intSignal (trackedThenConnect.take 2)).hooks
      = [true] ∧
    (SignalBasePrivate.applyAll sameSignature 0 intSignal trackedThenConnect).hooks
      = [true, true] ∧
    (SignalBasePrivate.applyAll sameSignature 0 intSignal connectDisconnectConnect).hooks
      = [true, false, true] := by
  decide

/-! ## C25: loopback endpoints of a remote machine -/

/-- C25 fails for a service of another machine: the endpoints are partitioned with the
loopback ones last, and the loop keeps every endpoint that is not a loopback one before
it stops at the first loopback endpoint. For the service `loop` of machine `M`, which
lists `tcp://10.0.0.1:5000` and `tcp://127.0.0.1:5000` (in either order), the endpoints
retained are both of them, while the comment of the loop says that for another machine
the endpoints tried are the ones that are not loopback. -/
theorem socketEndpoints_remote_keeps_loopback_with_others :
    socketEndpoints stablePartition "self" infoLoop "" = [urlA, urlLoop] ∧
    socketEndpoints stablePartition "self" (remoteInfo "loop" [urlLoop, urlA]) "" =
      [urlA, urlLoop] ∧
    socketEndpoints stablePartition "self" infoLoop "tcp" = [urlA, urlLoop] ∧
    is_localhost urlLoop = true ∧ is_localhost urlA = false ∧
    infoLoop.machineId ≠ "self" := by
  decide

/-! ## C26: the count of a new attempt -/

/-- C27: `waitForInactive` run by a thread returns at its first test if and only if
the list of active threads of the subscriber is empty or holds the id of that thread
and nothing else. `disconnect` of a link that is in the map takes the subscriber out
of the map and sets `enabled` to false, and goes to wait exactly when it is asked to
and the same test fails; afterwards neither `call` nor a call posted before invokes
the handler of that subscriber. -/
theorem SignalBasePrivate.disconnect_reentrancy (p : SignalBasePrivate) (l : Nat) (wait : Bool)
    (tid : Nat) (s : SignalSubscriber) (hfind : p.subscriberMap.find l = some s) :
    (∀ (sub : SignalSubscriber) (t : Nat),
      sub.waitForInactive t = true ↔ (sub.activeThreads = [] ∨ sub.activeThreads = [t])) ∧
    (p.disconnect l wait tid).returned = true ∧
    (p.disconnect l wait tid).signal.subscriberMap = p.subscriberMap.erase l ∧
    (p.disconnect l wait tid).signal.subscriberMap.find l = none ∧
    (p.disconnect l wait tid).subscriber = some { s with enabled := false } ∧
    ((p.disconnect l wait tid).waits = false ↔
      (wait = false ∨ s.activeThreads = [] ∨ s.activeThreads = [tid])) ∧
    (∀ sub, (p.disconnect l wait tid).subscriber = some sub →
      sub.enabled = false ∧
      (∀ callType t pointerLock m,
        (sub.call callType t pointerLock).1 ≠ SignalSubscriber.CallOutcome.handlerInvoked m) ∧
      (∀ t, (sub.functorCall t).1 = false)) := by
  rw [disconnect_of_find p l wait tid s hfind]
  refine ⟨SignalSubscriber.waitForInactive_iff, rfl, rfl, StdMap.find_erase_self _ _, rfl, ?_, ?_⟩
  · show (wait && !(s.activeThreads.isEmpty ||
      (decide (s.activeThreads.length = 1) && decide (s.activeThreads.head? = some tid)))) = false ↔ _
    rw [← SignalSubscriber.idle_iff]
    cases wait <;>
      cases (s.activeThreads.isEmpty ||
        (decide (s.activeThreads.length = 1) && decide (s.activeThreads.head? = some tid))) <;>
      simp
  · intro sub hsub
    have hs : sub = { s with enabled := false } := by
      have : some { s with enabled := false } = some sub := hsub
      exact (Option.some.inj this).symm
    subst hs
    exact ⟨rfl,
      fun callType t pointerLock m =>
        SignalSubscriber.call_of_disabled _ callType t pointerLock rfl m,
      fun t => SignalSubscriber.functorCall_of_disabled _ t rfl⟩

/-- C27 on a sample: a subscriber of the signal `(i)` whose handler runs in the thread
7 is disconnected by that thread, from inside the handler: `disconnect` returns without
waiting, and the subscriber is out of the map. -/
theorem SignalBasePrivate.disconnect_reentrancy_witness :
    (SignalBasePrivate.disconnect
      { intSignal with
        subscriberMap := [(2, { functionSubscriber ["i"] with linkId := 2, activeThreads := [7] })] }
      2 true 7).waits = false ∧
    (SignalBasePrivate.disconnect
      { intSignal with
        subscriberMap := [(2, { functionSubscriber ["i"] with linkId := 2, activeThreads := [7] })] }
      2 true 7).signal.subscriberMap.find 2 = none :=
  ⟨(SignalBasePrivate.disconnect_reentrancy
      { intSignal with
        subscriberMap := [(2, { functionSubscriber ["i"] with linkId := 2, activeThreads := [7] })] }
      2 true 7 { functionSubscriber ["i"] with linkId := 2, activeThreads := [7] } rfl).2.2.2.2.2.1.mpr
      (Or.inr (Or.inr rfl)),
   (SignalBasePrivate.disconnect_reentrancy
      { intSignal with
        subscriberMap := [(2, { functionSubscriber ["i"] with linkId := 2, activeThreads := [7] })] }
      2 true 7 { functionSubscriber ["i"] with linkId := 2, activeThreads := [7] } rfl).2.2.2.1⟩

/-! ## C28: the list of active threads -/

/-- C28 fails in `removeActive` when the thread is in the list twice already: the loop
goes on after a removal, and every removal puts the last entry, which is an entry of
the same thread, in the place of the one removed. With the handler of a subscriber
running twice in the thread 5, a third run that registers and deregisters itself
leaves one entry of the two: `addActive(5)` then `removeActive(5)` on 5, 5 gives 5,
and on 5, 7, 5 gives 5, 7; so does `call`, which makes the two around the handler. -/
theorem SignalSubscriber.removeActive_removes_two :
    SignalSubscriber.removeActive (SignalSubscriber.addActive [5, 5] 5) 5 = [5] ∧
    SignalSubscriber.removeActive (SignalSubscriber.addActive [5, 7, 5] 5) 5 = [5, 7] ∧
    (SignalSubscriber.call { functionSubscriber ["i"] with activeThreads := [5, 5] }
      MetaCallType.direct 5 false) =
      (SignalSubscriber.CallOutcome.handlerInvoked false,
       { functionSubscriber ["i"] with activeThreads := [5] }) := by
  decide

/-! ## C29: `ListTypeInterface::element` -/

/-- C29 fails for an index at or beyond the size: the test made after the loop is
`p > index`, and the loop stops with `p` at most `index`, so nothing is thrown and the
iterator `end()` is dereferenced. On the list 10, 20 the index 2 and the index 7
dereference `end()`, as does the index 0 on the empty list; the indexes 0 and 1 give
the elements, and a negative index throws "Index out of range". -/
theorem ListTypeInterface.element_end_dereferenced :
    ListTypeInterface.element [10, 20] 2 = ElementResult.endDereferenced ∧
    ListTypeInterface.element [10, 20] 7 = ElementResult.endDereferenced ∧
    ListTypeInterface.element ([] : List Nat) 0 = ElementResult.endDereferenced ∧
    ListTypeInterface.element [10, 20] 0 = ElementResult.value 10 ∧
    ListTypeInterface.element [10, 20] 1 = ElementResult.value 20 ∧
    ListTypeInterface.element [10, 20] (-1) = ElementResult.thrown "Index out of range" := by
  decide

/-! ## C30: the values of a forwarded event -/

/-- C30 fails when the forced signature has another arity than the parameters and the
peer has the capability `MessageFlags`: `convert` gives an empty pack, the loop that
looks for an invalid element finds none, and the empty pack is sent. For the one
parameter `1` of a signal `(i)` forwarded under the forced signature `(is)`, the message
sent has no value at all, with the signature `m` and the flag `DynamicPayload`; under
the forced signature `(i)`, or to a peer without the capability, it has the one
value. -/
theorem forwardEvent_sends_empty_pack :
    forwardEvent parseTuple convertAny setValuesOk ["1"] 2 1 100 (tupleSignature ["i"]) true
        "(is)" =
      some { service := 2, object := 1, event := 100, signature := "m", values := [],
             dynamicPayload := true } ∧
    GenericFunctionParameters.convert convertAny (tupleSignature ["i", "s"]) ["1"] = [] ∧
    forwardEvent parseTuple convertAny setValuesOk ["1"] 2 1 100 (tupleSignature ["i"]) true
        "(i)" =
      some { service := 2, object := 1, event := 100, signature := "m", values := ["1"],
             dynamicPayload := true } ∧
    forwardEvent parseTuple convertAny setValuesOk ["1"] 2 1 100 (tupleSignature ["i"]) false
        "(is)" =
      some { service := 2, object := 1, event := 100, signature := "(i)", values := ["1"],
             dynamicPayload := false } := by
  decide

end Qi
